import Mathlib

/-! Media playback engine (`deps/media-playback/media-playback/media.c`).

A shallow embedding of the worker-side operations of `media.c`, followed by
the properties of the playback engine that are settled against it.

Conventions of the embedding.

* A C `int64_t`/`int` value is an `Int`; every arithmetic result that C stores
  in a fixed-width object goes through `wrapI64`, `wrapI32`, `wrapU64` or
  `wrapU32`.  Signed overflow is undefined behaviour in C; the embedding wraps
  (two's complement) and the theorems that depend on a signed result say, by
  an explicit hypothesis, that the exact result is in range.
* The field widths that `media.h`, `obs.h` and the FFmpeg headers declare are
  the ones `media.c` itself uses for the locals that receive the fields
  (`int64_t` for the PTS clock, `uint64_t` for `next_ns`, which is compared
  with the `uint64_t` returned by `os_gettime_ns`, `uint64_t` timestamps and
  `uint32_t` sizes in the frame records).
* Calls into FFmpeg, libobs and `decode.c` are not executed: their results are
  parameters (`prepare_result`, `video_env`, `reset_env`, ...).
* The callbacks a session invokes, and the sleeps it performs, are recorded in
  order in the `log` field of the session.
* An operation returns `none` where the C code would read a cache array out of
  bounds or call a null callback.
* The assertions of debug builds (`assert(delta >= 0)`) are not compiled: the
  embedding is the release build.
-/

namespace MediaPlayback

/-! # Definitions -/

/-! ## Machine integers -/

def INT64_MAX : Int := 9223372036854775807

def INT64_MIN : Int := -9223372036854775808

def INT32_MAX : Int := 2147483647

def INT32_MIN : Int := -2147483648

def UINT64_MAX : Int := 18446744073709551615

/-- Value of an integer stored in a `uint64_t`. -/
def wrapU64 (x : Int) : Int := x % 18446744073709551616

/-- Value of an integer stored in a `uint32_t`. -/
def wrapU32 (x : Int) : Int := x % 4294967296

/-- Value of an integer stored in a `uint8_t`. -/
def wrapU8 (x : Int) : Int := x % 256

/-- Value of an integer stored in an `int64_t` (two's complement). -/
def wrapI64 (x : Int) : Int :=
  (x + 9223372036854775808) % 18446744073709551616 - 9223372036854775808

/-- Value of an integer stored in an `int` (32 bits, two's complement). -/
def wrapI32 (x : Int) : Int := (x + 2147483648) % 4294967296 - 2147483648

/-- The value fits an `int64_t`. -/
def inI64 (x : Int) : Prop := INT64_MIN ≤ x ∧ x ≤ INT64_MAX

/-- The value fits an `int`. -/
def inI32 (x : Int) : Prop := INT32_MIN ≤ x ∧ x ≤ INT32_MAX

/-- The value fits a `uint64_t`. -/
def inU64 (x : Int) : Prop := 0 ≤ x ∧ x ≤ UINT64_MAX

instance (x : Int) : Decidable (inI64 x) := by unfold inI64; infer_instance

instance (x : Int) : Decidable (inI32 x) := by unfold inI32; infer_instance

instance (x : Int) : Decidable (inU64 x) := by unfold inU64; infer_instance

/-- C `abs` on an `int`. -/
def c_abs (x : Int) : Int := wrapI32 (if x < 0 then -x else x)

/-! ## Enumerations -/

/-- The values of `enum video_format` that `convert_pixel_format` produces. -/
inductive video_format where
  | NONE | I420 | NV12 | YUY2 | UYVY | RGBA | BGRA | BGRX
  deriving DecidableEq, Repr

/-- The values of `enum audio_format` that `convert_sample_format` produces. -/
inductive audio_format where
  | UNKNOWN | U8BIT | BIT16 | BIT32 | FLOAT
  | U8BIT_PLANAR | BIT16_PLANAR | BIT32_PLANAR | FLOAT_PLANAR
  deriving DecidableEq, Repr

/-- The values of `enum speaker_layout` that `convert_speaker_layout` produces. -/
inductive speaker_layout where
  | UNKNOWN | MONO | STEREO | S2POINT1 | S4POINT0 | S4POINT1 | S5POINT1 | S7POINT1
  deriving DecidableEq, Repr

inductive video_colorspace where
  | CS_DEFAULT | CS_601 | CS_709
  deriving DecidableEq, Repr

inductive video_range_type where
  | RANGE_DEFAULT | RANGE_PARTIAL | RANGE_FULL
  deriving DecidableEq, Repr

/-- The pixel formats `media.c` names; every other FFmpeg value is `other`. -/
inductive AVPixelFormat where
  | NONE | YUV420P | NV12 | YUYV422 | UYVY422 | RGBA | BGRA | BGR0
  | other (n : Nat)
  deriving DecidableEq, Repr

/-- The sample formats `media.c` names; every other FFmpeg value is `other`. -/
inductive AVSampleFormat where
  | U8 | S16 | S32 | FLT | U8P | S16P | S32P | FLTP
  | other (n : Nat)
  deriving DecidableEq, Repr

inductive AVColorSpace where
  | BT709 | FCC | SMPTE170M | SMPTE240M
  | other (n : Nat)
  deriving DecidableEq, Repr

inductive AVColorRange where
  | JPEG
  | other (n : Nat)
  deriving DecidableEq, Repr

def convert_pixel_format : AVPixelFormat → video_format
  | .NONE => .NONE
  | .YUV420P => .I420
  | .NV12 => .NV12
  | .YUYV422 => .YUY2
  | .UYVY422 => .UYVY
  | .RGBA => .RGBA
  | .BGRA => .BGRA
  | .BGR0 => .BGRX
  | .other _ => .NONE

def convert_sample_format : AVSampleFormat → audio_format
  | .U8 => .U8BIT
  | .S16 => .BIT16
  | .S32 => .BIT32
  | .FLT => .FLOAT
  | .U8P => .U8BIT_PLANAR
  | .S16P => .BIT16_PLANAR
  | .S32P => .BIT32_PLANAR
  | .FLTP => .FLOAT_PLANAR
  | .other _ => .UNKNOWN

/-- The argument is the `uint8_t` the C function receives. -/
def convert_speaker_layout (channels : Int) : speaker_layout :=
  if channels = 0 then .UNKNOWN
  else if channels = 1 then .MONO
  else if channels = 2 then .STEREO
  else if channels = 3 then .S2POINT1
  else if channels = 4 then .S4POINT0
  else if channels = 5 then .S4POINT1
  else if channels = 6 then .S5POINT1
  else if channels = 8 then .S7POINT1
  else .UNKNOWN

def convert_color_space (s : AVColorSpace) : video_colorspace :=
  if s = .BT709 then .CS_709 else .CS_DEFAULT

def convert_color_range (r : AVColorRange) : video_range_type :=
  if r = .JPEG then .RANGE_FULL else .RANGE_DEFAULT

/-! ## Data model -/

/-- `MAX_AV_PLANES` of libobs, also the number of planes of an `AVFrame`. -/
def MAX_AV_PLANES : Nat := 8

/-- The fields of an `AVFrame` that `media.c` reads.  A plane pointer is an
address, `0` for `NULL`. -/
structure AVFrame where
  data : List Int
  linesize : List Int
  width : Int
  height : Int
  format : AVPixelFormat
  sample_format : AVSampleFormat
  key_frame : Bool
  colorspace : AVColorSpace
  color_range : AVColorRange
  sample_rate : Int
  channels : Int
  nb_samples : Int
  deriving DecidableEq, Repr

/-- The fields of `struct mp_decode` that `media.c` reads or writes. -/
structure mp_decode where
  frame_ready : Bool
  frame_pts : Int
  next_pts : Int
  eof : Bool
  got_first_keyframe : Bool
  frame : AVFrame
  deriving DecidableEq, Repr

/-- The video frame record handed to the video callbacks.  `color_space` and
`color_range` stand for the matrix and range values that
`video_format_get_parameters` writes for that pair. -/
structure obs_source_frame where
  data : List Int
  linesize : List Int
  width : Int
  height : Int
  timestamp : Int
  format : video_format
  color_space : video_colorspace
  color_range : video_range_type
  full_range : Bool
  flip : Bool
  deriving DecidableEq, Repr

/-- The audio buffer record handed to the audio callback.  A plane of `data`
is named by the decoder plane it was copied from. -/
structure obs_source_audio where
  data : List Int
  frames : Int
  speakers : speaker_layout
  format : audio_format
  samples_per_sec : Int
  timestamp : Int
  dec_frame_pts : Int
  deriving DecidableEq, Repr

/-- The per-stream cache `struct cached_data`: the growable array `data`, the
cursor `index`, the frozen length `index_eof` (`-1` while filling) and the
recorded inter-frame interval. -/
structure cached_data (α : Type) where
  index : Int
  index_eof : Int
  data : List α
  refresh_rate_ns : Int
  deriving DecidableEq, Repr

/-- What the session does that is visible outside it, in order: the callbacks
and the sleeps.  `reset_mark` records that `mp_media_reset` was entered; it
delimits the loop passes in the log. -/
inductive event where
  | video (f : obs_source_frame)
  | preload (f : obs_source_frame)
  | audio_cb (a : obs_source_audio)
  | stop
  | sleepto_ns (t : Int)
  | sleep_ms (ms : Int)
  | reset_mark
  deriving DecidableEq, Repr

/-- What `allow_cache` reads from the opened container: the result of
`av_find_best_stream`, the value of the `(int64_t)ceil(...)` frame estimate
(a floating-point expression, taken as it is), and the codec dimensions. -/
structure format_info where
  video_stream_index : Int
  frames : Int
  width : Int
  height : Int
  deriving DecidableEq, Repr

/-- The session, `struct mp_media`, with the process-wide `base_sys_ts` and the
record of callbacks (`log`). -/
structure mp_media where
  fmt : Option format_info
  v_preload_cb : Bool
  stop_cb : Bool
  v_cb : Bool
  a_cb : Bool
  buffering : Int
  speed : Int
  scale_format : AVPixelFormat
  swscale : Bool
  scale_linesizes : List Int
  scale_pic : List Int
  v : mp_decode
  a : mp_decode
  is_local_file : Bool
  has_video : Bool
  has_audio : Bool
  eof : Bool
  obsframe : obs_source_frame
  cur_space : video_colorspace
  cur_range : video_range_type
  force_range : video_range_type
  play_sys_ts : Int
  next_pts_ns : Int
  next_ns : Int
  start_ts : Int
  base_ts : Int
  stopping : Bool
  looping : Bool
  active : Bool
  reset : Bool
  kill : Bool
  thread_valid : Bool
  enable_caching : Bool
  caching : Bool
  video : cached_data obs_source_frame
  audio : cached_data obs_source_audio
  next_wait : Int
  base_sys_ts : Int
  log : List event
  deriving DecidableEq, Repr

/-! ## Results of the calls that leave `media.c` -/

/-- What `mp_media_next_video` obtains from outside `media.c`: the return value
of `sws_scale`, the success of `video_format_get_parameters`, and the planes
and strides of the frame that `obs_source_frame_create` allocates for a cache
entry. -/
structure video_env where
  sws_scale_ret : Int
  get_parameters_ok : Bool
  copy_data : List Int
  copy_linesize : List Int
  deriving DecidableEq, Repr

/-- The outcome of one call of `mp_media_prepare_frames`: its return value and
the decoder, end-of-file and scaler state it leaves.  The function pumps
`av_read_frame` and `mp_decode_next` (`decode.c`) and chooses the scaler
format with `closest_format`; none of them is executed here. -/
structure prepare_result where
  ok : Bool
  v : mp_decode
  a : mp_decode
  eof : Bool
  scale_format : AVPixelFormat
  swscale : Bool
  scale_linesizes : List Int
  scale_pic : List Int
  deriving DecidableEq, Repr

/-- What `mp_media_reset` obtains from outside `media.c`: the decoders as
`mp_decode_flush` leaves them, the outcome of `mp_media_prepare_frames`, the
clock reading of `os_gettime_ns`, and the environment of the preload call. -/
structure reset_env where
  v_flushed : mp_decode
  a_flushed : mp_decode
  prepare : prepare_result
  now : Int
  video : video_env
  deriving DecidableEq, Repr

/-! ## Presentation clock -/

/-- `array[i]` of a cache; `none` when the access is out of bounds. -/
def darray_get {α : Type} (l : List α) (i : Int) : Option α :=
  if 0 ≤ i then l.get? i.toNat else none

def mp_media_get_next_min_pts (m : mp_media) : Int :=
  let min_next_ns : Int := INT64_MAX
  let min_next_ns :=
    if m.has_video = true ∧ m.v.frame_ready = true then
      (if m.v.frame_pts < min_next_ns then m.v.frame_pts else min_next_ns)
    else min_next_ns
  let min_next_ns :=
    if m.has_audio = true ∧ m.a.frame_ready = true then
      (if m.a.frame_pts < min_next_ns then m.a.frame_pts else min_next_ns)
    else min_next_ns
  min_next_ns

def mp_media_get_base_pts (m : mp_media) : Int :=
  let base_ts : Int := 0
  let base_ts := if m.has_video = true ∧ m.v.next_pts > base_ts then m.v.next_pts else base_ts
  let base_ts := if m.has_audio = true ∧ m.a.next_pts > base_ts then m.a.next_pts else base_ts
  base_ts

def mp_media_can_play_frame (m : mp_media) (d : mp_decode) : Bool :=
  d.frame_ready && decide (d.frame_pts ≤ m.next_pts_ns)

/-- The timestamp expression of lines 295-296, 318-319 and 426-427:
`base_ts + pts - start_ts + play_sys_ts - base_sys_ts` in `int64_t`
arithmetic, stored in the `uint64_t` field `timestamp`. -/
def frame_timestamp (m : mp_media) (pts : Int) : Int :=
  wrapU64 (wrapI64 (wrapI64 (wrapI64 (wrapI64 (m.base_ts + pts) - m.start_ts)
    + m.play_sys_ts) - m.base_sys_ts))

/-- Release build: the `assert(delta >= 0)` of debug builds is not compiled. -/
def mp_media_calc_next_ns (m : mp_media) : mp_media :=
  let min_next_ns := mp_media_get_next_min_pts m
  let delta := wrapI64 (min_next_ns - m.next_pts_ns)
  let delta := if delta < 0 then 0 else delta
  let delta := if delta > 3000000000 then 0 else delta
  { m with next_ns := wrapU64 (m.next_ns + delta), next_pts_ns := min_next_ns }

/-- The argument `now` is the reading of `os_gettime_ns` the call makes.  The
sleep is recorded in the log. -/
def mp_media_sleepto (m : mp_media) (now : Int) : mp_media × Bool :=
  if m.next_ns = 0 then
    ({ m with next_ns := now }, false)
  else
    let t := now
    let timeout_ns : Int := 200000000
    if m.next_ns > t ∧ wrapU64 (m.next_ns - t) > timeout_ns then
      ({ m with log := m.log ++ [event.sleepto_ns (wrapU64 (t + timeout_ns))] }, true)
    else
      ({ m with log := m.log ++ [event.sleepto_ns m.next_ns] }, false)

/-! ## Frame delivery -/

/-- Lines 264-268 and 340-344: the wraparound of both cache cursors. -/
def cache_wraparound (m : mp_media) : mp_media :=
  { m with
    video := { m.video with index := 0 }
    audio := { m.audio with index := 0 }
    next_wait := 0 }

/-- Lines 284-297 of `mp_media_next_audio`: the buffer built from the decoded
frame.  `samples_per_sec` is the `int` expression
`f->sample_rate * m->speed / 100` stored in a `uint32_t`. -/
def build_audio (m : mp_media) : obs_source_audio :=
  let d := m.a
  let f := d.frame
  { data := (List.range MAX_AV_PLANES).map (fun i => f.data.getD i 0)
    samples_per_sec := wrapU32 (Int.tdiv (wrapI32 (f.sample_rate * m.speed)) 100)
    speakers := convert_speaker_layout (wrapU8 f.channels)
    format := convert_sample_format f.sample_format
    frames := wrapU32 f.nb_samples
    timestamp := frame_timestamp m d.frame_pts
    dec_frame_pts := d.frame_pts }

/-- Lines 316-325 of `mp_media_next_audio` when `m->caching` holds: the entry
under the cursor gets its timestamp rewritten, the cursor advances and the
entry goes to the audio callback. -/
def next_audio_cached (m : mp_media) : Option mp_media :=
  match darray_get m.audio.data m.audio.index with
  | none => none
  | some entry =>
    if m.a_cb = false then none
    else
      some { m with
        audio := { m.audio with
          data := m.audio.data.set m.audio.index.toNat
            { entry with timestamp := frame_timestamp m entry.dec_frame_pts }
          index := m.audio.index + 1 }
        log := m.log ++ [event.audio_cb
          { entry with timestamp := frame_timestamp m entry.dec_frame_pts }] }

/-- Lines 307-314 then 316-325 of `mp_media_next_audio`, caching on: the
buffer `audio` is appended to the cache (after the refresh interval is taken
from the previous entry) and the entry under the cursor is delivered. -/
def next_audio_store (m : mp_media) (audio : obs_source_audio) : Option mp_media :=
  if m.audio.index > 0 then
    match darray_get m.audio.data (m.audio.index - 1) with
    | none => none
    | some previous_frame =>
      next_audio_cached { m with audio := { m.audio with
        refresh_rate_ns := wrapI64 (audio.timestamp - previous_frame.timestamp)
        data := m.audio.data ++ [audio] } }
  else
    next_audio_cached { m with audio := { m.audio with data := m.audio.data ++ [audio] } }

def mp_media_next_audio (m : mp_media) : Option mp_media :=
  if m.audio.index_eof > 0 ∧ m.audio.index = m.audio.index_eof then
    some (cache_wraparound m)
  else if m.audio.index_eof < 0 ∨ m.caching = false then
    if mp_media_can_play_frame m m.a = false then some m
    else if m.a_cb = false then some { m with a := { m.a with frame_ready := false } }
    else if (build_audio m).format = audio_format.UNKNOWN then
      some { m with a := { m.a with frame_ready := false } }
    else if m.caching = true then
      next_audio_store { m with a := { m.a with frame_ready := false } } (build_audio m)
    else
      some { m with
        a := { m.a with frame_ready := false }
        log := m.log ++ [event.audio_cb (build_audio m)] }
  else
    next_audio_cached m

/-- Lines 363-390 of `mp_media_next_video`: planes, strides and flip of the
frame that is about to be delivered, as written into `m->obsframe`. -/
def video_planes (m : mp_media) : obs_source_frame × Bool :=
  let f := m.v.frame
  let current_frame := m.obsframe
  let flip : Bool :=
    if m.swscale = true then
      decide (m.scale_linesizes.getD 0 0 < 0) && decide (m.scale_linesizes.getD 1 0 = 0)
    else
      decide (f.linesize.getD 0 0 < 0) && decide (f.linesize.getD 1 0 = 0)
  let current_frame : obs_source_frame :=
    if m.swscale = true then
      { current_frame with
        data := (List.range MAX_AV_PLANES).map (fun i =>
          if i < 4 then m.scale_pic.getD i 0 else current_frame.data.getD i 0)
        linesize := (List.range MAX_AV_PLANES).map (fun i =>
          if i < 4 then wrapU32 (c_abs (m.scale_linesizes.getD i 0))
          else current_frame.linesize.getD i 0) }
    else
      { current_frame with
        data := (List.range MAX_AV_PLANES).map (fun i => f.data.getD i 0)
        linesize := (List.range MAX_AV_PLANES).map (fun i =>
          wrapU32 (c_abs (f.linesize.getD i 0))) }
  let current_frame : obs_source_frame :=
    if flip = true then
      { current_frame with
        data := current_frame.data.set 0
          (current_frame.data.getD 0 0
            - wrapU32 (current_frame.linesize.getD 0 0 * (f.height - 1))) }
    else current_frame
  (current_frame, flip)

/-- Lines 463-466: the frame goes to the preload or to the video callback. -/
def video_deliver (m : mp_media) (preload : Bool) (frame : obs_source_frame) :
    Option mp_media :=
  if preload = true then
    (if m.v_preload_cb = false then none
     else some { m with log := m.log ++ [event.preload frame] })
  else
    (if m.v_cb = false then none
     else some { m with log := m.log ++ [event.video frame] })

/-- The copy of `m->obsframe` that `obs_source_frame_create` and
`obs_source_frame_copy` make for the cache (lines 440-443). -/
def video_new_frame (m : mp_media) (e : video_env) : obs_source_frame :=
  { m.obsframe with data := e.copy_data, linesize := e.copy_linesize }

/-- Lines 439-456 and 463-466 of `mp_media_next_video`: the stamped frame in
`m->obsframe` is copied into the cache when caching is on, and delivered. -/
def video_store (m : mp_media) (preload : Bool) (e : video_env) : Option mp_media :=
  if m.caching = true then
    if m.video.index > 0 then
      match darray_get m.video.data (m.video.index - 1) with
      | none => none
      | some previous_frame =>
        video_deliver
          { m with video := { m.video with
              refresh_rate_ns :=
                wrapI64 ((video_new_frame m e).timestamp - previous_frame.timestamp)
              data := m.video.data ++ [video_new_frame m e]
              index := m.video.index + 1 } }
          preload (video_new_frame m e)
    else
      video_deliver
        { m with video := { m.video with
            data := m.video.data ++ [video_new_frame m e]
            index := m.video.index + 1 } }
        preload (video_new_frame m e)
  else
    video_deliver m preload m.obsframe

/-- Lines 432-437 of `mp_media_next_video`, then the rest of the function. -/
def video_keyframe (m : mp_media) (preload : Bool) (e : video_env) : Option mp_media :=
  if m.is_local_file = false ∧ m.v.got_first_keyframe = false then
    if m.v.frame.key_frame = false then some m
    else video_store { m with v := { m.v with got_first_keyframe := true } } preload e
  else video_store m preload e

/-- Lines 426-430 of `mp_media_next_video`, then the rest of the function. -/
def video_stamp (m : mp_media) (flip : Bool) (preload : Bool) (e : video_env) :
    Option mp_media :=
  video_keyframe
    { m with obsframe := { m.obsframe with
        timestamp := frame_timestamp m m.v.frame_pts
        width := wrapU32 m.v.frame.width
        height := wrapU32 m.v.frame.height
        flip := flip } }
    preload e

def video_new_range (m : mp_media) : video_range_type :=
  if m.force_range = video_range_type.RANGE_DEFAULT then
    convert_color_range m.v.frame.color_range
  else m.force_range

/-- Lines 392-424 of `mp_media_next_video`, then the rest of the function. -/
def video_format_stage (m : mp_media) (flip : Bool) (preload : Bool) (e : video_env) :
    Option mp_media :=
  if convert_pixel_format m.scale_format ≠ m.obsframe.format ∨
      convert_color_space m.v.frame.colorspace ≠ m.cur_space ∨
      video_new_range m ≠ m.cur_range then
    if e.get_parameters_ok = false then
      some { m with
        obsframe := { m.obsframe with
          format := video_format.NONE
          full_range := decide (video_new_range m = video_range_type.RANGE_FULL) }
        cur_space := convert_color_space m.v.frame.colorspace
        cur_range := video_new_range m }
    else if convert_pixel_format m.scale_format = video_format.NONE then
      some { m with
        obsframe := { m.obsframe with
          format := convert_pixel_format m.scale_format
          full_range := decide (video_new_range m = video_range_type.RANGE_FULL)
          color_space := convert_color_space m.v.frame.colorspace
          color_range := video_new_range m }
        cur_space := convert_color_space m.v.frame.colorspace
        cur_range := video_new_range m }
    else
      video_stamp
        { m with
          obsframe := { m.obsframe with
            format := convert_pixel_format m.scale_format
            full_range := decide (video_new_range m = video_range_type.RANGE_FULL)
            color_space := convert_color_space m.v.frame.colorspace
            color_range := video_new_range m }
          cur_space := convert_color_space m.v.frame.colorspace
          cur_range := video_new_range m }
        flip preload e
  else if m.obsframe.format = video_format.NONE then some m
  else video_stamp m flip preload e

/-- Lines 363-390 of `mp_media_next_video`, then the rest of the function. -/
def video_convert (m : mp_media) (preload : Bool) (e : video_env) : Option mp_media :=
  if m.swscale = true ∧ e.sws_scale_ret < 0 then some m
  else
    video_format_stage { m with obsframe := (video_planes m).1 } (video_planes m).2 preload e

def mp_media_next_video (m : mp_media) (preload : Bool) (e : video_env) :
    Option mp_media :=
  if m.video.index_eof > 0 ∧ m.video.index = m.video.index_eof then
    some (cache_wraparound m)
  else if m.video.index_eof < 0 ∨ m.caching = false then
    if preload = false then
      if mp_media_can_play_frame m m.v = false then some m
      else if m.v_cb = false then some { m with v := { m.v with frame_ready := false } }
      else video_convert { m with v := { m.v with frame_ready := false } } preload e
    else if m.v.frame_ready = false then some m
    else video_convert m preload e
  else
    match darray_get m.video.data m.video.index with
    | none => none
    | some frame =>
      video_deliver { m with video := { m.video with index := m.video.index + 1 } }
        preload frame

/-! ## Reset, end of stream, cache admission -/

def mp_media_ready_to_start (m : mp_media) : Bool :=
  if m.has_audio = true ∧ m.a.eof = false ∧ m.a.frame_ready = false then false
  else if m.has_video = true ∧ m.v.eof = false ∧ m.v.frame_ready = false then false
  else true

/-- The effect of `mp_media_prepare_frames` is the given outcome `r`: the
packet pump and the decoders it drives are outside `media.c`. -/
def mp_media_prepare_frames (m : mp_media) (r : prepare_result) : mp_media × Bool :=
  ({ m with
      v := r.v
      a := r.a
      eof := r.eof
      scale_format := r.scale_format
      swscale := r.swscale
      scale_linesizes := r.scale_linesizes
      scale_pic := r.scale_pic },
   r.ok)

/-- Lines 532-535 of `mp_media_reset`: `mp_decode_flush` on the decoders of a
local file leaves the decoders given in `e`. -/
def reset_flush (m : mp_media) (e : reset_env) : mp_media :=
  { m with
    v := if m.has_video = true ∧ m.is_local_file = true then e.v_flushed else m.v
    a := if m.has_audio = true ∧ m.is_local_file = true then e.a_flushed else m.a }

/-- Lines 552-562 of `mp_media_reset`: the clock origin after the frames were
prepared; `active` and `offset` are the locals of those names and `now` the
reading of `os_gettime_ns`. -/
def reset_clock (m : mp_media) (active : Bool) (offset now : Int) : mp_media :=
  if active = true then
    { m with
      play_sys_ts := if m.play_sys_ts = 0 then wrapI64 now else m.play_sys_ts
      start_ts := mp_media_get_next_min_pts m
      next_pts_ns := mp_media_get_next_min_pts m
      next_ns := if m.next_ns ≠ 0 then wrapU64 (m.next_ns + offset) else m.next_ns }
  else
    { m with
      start_ts := mp_media_get_next_min_pts m
      next_pts_ns := mp_media_get_next_min_pts m
      play_sys_ts := wrapI64 now
      next_ns := 0 }

/-- Lines 564-568 of `mp_media_reset`: the preload delivery and the stop
callback; `active` and `stopping` are the locals of those names. -/
def reset_notify (m : mp_media) (active stopping : Bool) (e : reset_env) :
    Option (mp_media × Bool) :=
  match (if active = false ∧ m.is_local_file = true ∧ m.v_preload_cb = true then
      mp_media_next_video m true e.video else some m) with
  | none => none
  | some m =>
    if stopping = true ∧ m.stop_cb = true then
      some ({ m with log := m.log ++ [event.stop] }, true)
    else some (m, true)

/-- The session on which `mp_media_reset` calls `mp_media_prepare_frames`
(lines 537-547): decoders flushed, `eof` and `stopping` cleared, `base_ts`
advanced by the base PTS. -/
def reset_rebase (m : mp_media) (e : reset_env) : mp_media :=
  { reset_flush m e with
    eof := false
    base_ts := wrapI64 (m.base_ts + mp_media_get_base_pts (reset_flush m e))
    stopping := false
    log := m.log ++ [event.reset_mark] }

/-- The local `offset` of `mp_media_reset` (line 538). -/
def reset_offset (m : mp_media) (e : reset_env) : Int :=
  wrapI64 (mp_media_get_base_pts (reset_flush m e) - m.next_pts_ns)

/-- The seek itself (`av_seek_frame`) has no effect on the fields modelled. -/
def mp_media_reset (m : mp_media) (e : reset_env) : Option (mp_media × Bool) :=
  if (mp_media_prepare_frames (reset_rebase m e) e.prepare).2 = false then
    some ((mp_media_prepare_frames (reset_rebase m e) e.prepare).1, false)
  else
    reset_notify
      (reset_clock (mp_media_prepare_frames (reset_rebase m e) e.prepare).1 m.active
        (reset_offset m e) e.now)
      m.active m.stopping e

/-- Lines 601-612 of `mp_media_eof`: what it writes under the mutex before it
calls `mp_media_reset`. -/
def mp_media_eof_flags (m : mp_media) : mp_media :=
  let m := if m.looping = false then { m with active := false, stopping := true } else m
  { m with
    video := { m.video with index_eof := m.video.index, index := 0 }
    audio := { m.audio with index_eof := m.audio.index, index := 0 }
    next_wait := 0 }

def mp_media_eof (m : mp_media) (e : reset_env) : Option (mp_media × Bool) :=
  let v_ended : Bool := !m.has_video || !m.v.frame_ready
  let a_ended : Bool := !m.has_audio || !m.a.frame_ready
  let eof : Bool := v_ended && a_ended
  if eof = true then
    match mp_media_reset (mp_media_eof_flags m) e with
    | none => none
    | some (m, _) => some (m, true)
  else some (m, false)

/-- The `double` expression `width * height * 1.5 * frames / 1000000` is
evaluated in exact rationals.  `width * height` is an `int` product.  The
comparison with 1024 has the same result in IEEE double arithmetic: the
product by 1.5 of an `int` is exact, rounding is monotone, and 1024000000 and
1024 are representable, so a rounded value is below 1024 exactly when the
exact value is. -/
def allow_cache (fmt : format_info) : Bool :=
  if fmt.video_stream_index < 0 then true
  else
    let frames : Int := fmt.frames
    let width : Int := fmt.width
    let height : Int := fmt.height
    let file_size : ℚ := (wrapI32 (width * height) : ℚ) * (3 / 2) * (frames : ℚ) / 1000000
    decide (file_size < 1024)

/-- What `init_avformat` obtains from FFmpeg and from `mp_decode_init`. -/
structure avformat_env where
  open_input_ret : Int
  find_stream_info_ret : Int
  fmt : format_info
  has_video : Bool
  has_audio : Bool
  v : mp_decode
  a : mp_decode
  deriving DecidableEq, Repr

def init_avformat (m : mp_media) (e : avformat_env) : mp_media × Bool :=
  if e.open_input_ret < 0 then ({ m with fmt := none }, false)
  else if e.find_stream_info_ret < 0 then ({ m with fmt := some e.fmt }, false)
  else if e.has_video = false ∧ e.has_audio = false then
    ({ m with fmt := some e.fmt, has_video := e.has_video, v := e.v
              has_audio := e.has_audio, a := e.a }, false)
  else if m.enable_caching = true then
    ({ m with fmt := some e.fmt, has_video := e.has_video, v := e.v
              has_audio := e.has_audio, a := e.a
              caching := m.looping && m.is_local_file && allow_cache e.fmt }, true)
  else
    ({ m with fmt := some e.fmt, has_video := e.has_video, v := e.v
              has_audio := e.has_audio, a := e.a
              caching := false }, true)

/-! ## Commands -/

def mp_media_play (m : mp_media) (loop : Bool) : mp_media :=
  { m with
    reset := if m.active = true then true else m.reset
    looping := loop
    caching :=
      match m.fmt with
      | some fmt =>
        if m.enable_caching = true then loop && m.is_local_file && allow_cache fmt
        else false
      | none => false
    active := true }

def mp_media_stop (m : mp_media) : mp_media :=
  if m.active = true then { m with reset := true, active := false, stopping := true }
  else m

/-- The fields of `struct mp_media_info` that `mp_media_init` copies. -/
structure mp_media_info where
  v_cb : Bool
  a_cb : Bool
  stop_cb : Bool
  v_preload_cb : Bool
  force_range : video_range_type
  buffering : Int
  speed : Int
  is_local_file : Bool
  enable_caching : Bool
  deriving DecidableEq, Repr

/-- What `mp_media_init` obtains from the operating system, and the value the
initializer `{ 0, -1, NULL, -1, -1 }` gives `refresh_rate_ns` (the field order
is declared in `media.h`). -/
structure init_env where
  mutex_init_ret : Int
  sem_init_ret : Int
  pthread_create_ret : Int
  now : Int
  refresh_rate_init : Int
  deriving DecidableEq, Repr

def zero_frame : AVFrame :=
  { data := [], linesize := [], width := 0, height := 0, format := AVPixelFormat.YUV420P,
    sample_format := AVSampleFormat.U8, key_frame := false,
    colorspace := AVColorSpace.other 0, color_range := AVColorRange.other 0,
    sample_rate := 0, channels := 0, nb_samples := 0 }

def zero_decode : mp_decode :=
  { frame_ready := false, frame_pts := 0, next_pts := 0, eof := false,
    got_first_keyframe := false, frame := zero_frame }

/-- The session after `memset(media, 0, sizeof(*media))`; `base_sys_ts` is the
process-wide static, not a field of the C structure. -/
def zero_media (base_sys_ts : Int) : mp_media :=
  { fmt := none, v_preload_cb := false, stop_cb := false, v_cb := false, a_cb := false,
    buffering := 0, speed := 0, scale_format := AVPixelFormat.YUV420P, swscale := false,
    scale_linesizes := [0, 0, 0, 0], scale_pic := [0, 0, 0, 0],
    v := zero_decode, a := zero_decode, is_local_file := false, has_video := false,
    has_audio := false, eof := false,
    obsframe := { data := [0, 0, 0, 0, 0, 0, 0, 0], linesize := [0, 0, 0, 0, 0, 0, 0, 0],
                  width := 0, height := 0, timestamp := 0, format := video_format.NONE,
                  color_space := video_colorspace.CS_DEFAULT,
                  color_range := video_range_type.RANGE_DEFAULT,
                  full_range := false, flip := false },
    cur_space := video_colorspace.CS_DEFAULT, cur_range := video_range_type.RANGE_DEFAULT,
    force_range := video_range_type.RANGE_DEFAULT,
    play_sys_ts := 0, next_pts_ns := 0, next_ns := 0, start_ts := 0, base_ts := 0,
    stopping := false, looping := false, active := false, reset := false, kill := false,
    thread_valid := false, enable_caching := false, caching := false,
    video := { index := 0, index_eof := 0, data := [], refresh_rate_ns := 0 },
    audio := { index := 0, index_eof := 0, data := [], refresh_rate_ns := 0 },
    next_wait := 0, base_sys_ts := base_sys_ts, log := [] }

def mp_media_init_internal (m : mp_media) (e : init_env) : mp_media × Bool :=
  if e.mutex_init_ret ≠ 0 then (m, false)
  else if e.sem_init_ret ≠ 0 then (m, false)
  else if e.pthread_create_ret ≠ 0 then
    ({ m with
      video := { index := 0, index_eof := -1, data := [], refresh_rate_ns := e.refresh_rate_init }
      audio := { index := 0, index_eof := -1, data := [], refresh_rate_ns := e.refresh_rate_init }
      next_wait := 0 }, false)
  else
    ({ m with
      video := { index := 0, index_eof := -1, data := [], refresh_rate_ns := e.refresh_rate_init }
      audio := { index := 0, index_eof := -1, data := [], refresh_rate_ns := e.refresh_rate_init }
      next_wait := 0
      thread_valid := true }, true)

/-- Lines 848-874 of `mp_media_init`: the structure is zeroed, the fields of
`info` are copied, the speed is clamped and the process-wide epoch is captured
if it is not yet.  The argument `base_sys_ts` is the value of the static
before the call. -/
def init_config (base_sys_ts : Int) (info : mp_media_info) (e : init_env) : mp_media :=
  { zero_media base_sys_ts with
    v_cb := info.v_cb
    a_cb := info.a_cb
    stop_cb := info.stop_cb
    v_preload_cb := info.v_preload_cb
    force_range := info.force_range
    buffering := info.buffering
    speed :=
      if info.is_local_file = false ∨ info.speed < 1 ∨ info.speed > 200 then 100
      else info.speed
    is_local_file := info.is_local_file
    enable_caching := info.enable_caching
    base_sys_ts := if base_sys_ts = 0 then wrapI64 e.now else base_sys_ts }

/-- On failure `mp_media_free` leaves the structure zeroed. -/
def mp_media_init (base_sys_ts : Int) (info : mp_media_info) (e : init_env) :
    mp_media × Bool :=
  if (mp_media_init_internal (init_config base_sys_ts info e) e).2 = false then
    (zero_media (init_config base_sys_ts info e).base_sys_ts, false)
  else ((mp_media_init_internal (init_config base_sys_ts info e) e).1, true)

/-! ## Worker thread -/

def clear_cache (m : mp_media) : mp_media :=
  { m with
    video := { m.video with data := [] }
    audio := { m.audio with data := [] } }

/-- How a stretch of the worker ends: the loop goes on with the session `m`
(`next`), the thread function returns (`exit`), the C code has no defined
behaviour (`undefined`), or the catch-up loop is still running after the
given number of rounds (`no_fuel`). -/
inductive thread_step where
  | next (m : mp_media)
  | exit (m : mp_media) (ret : Bool)
  | undefined
  | no_fuel
  deriving DecidableEq, Repr

/-- What one iteration of the worker loop obtains from outside `media.c`. -/
structure iter_env where
  sem_wait_ret : Int
  now : Int
  video : video_env
  prepare : prepare_result
  reset : reset_env
  deriving DecidableEq, Repr

/-- Lines 767-782: the catch-up loop of the replay branch, `time_spent` being
the local of that name.  `sleeping_time` is an `int`; `os_sleep_ms` takes a
`uint32_t`. -/
def catch_up_loop : Nat → mp_media → Int → thread_step
  | 0, _, _ => thread_step.no_fuel
  | fuel + 1, m, time_spent =>
    if time_spent < m.video.refresh_rate_ns then
      let (m, time_spent, sleeping_time) :=
        if wrapI64 (m.audio.refresh_rate_ns - time_spent) > 0 then
          let (m, time_spent) :=
            if m.next_wait > 0 then
              ({ m with next_wait := 0 }, wrapI64 (time_spent - m.next_wait))
            else (m, time_spent)
          (m, time_spent, wrapI32 (wrapI64 (m.audio.refresh_rate_ns - time_spent)))
        else
          (m, time_spent, wrapI32 (wrapI64 (m.video.refresh_rate_ns - time_spent)))
      let m := { m with
        log := m.log ++ [event.sleep_ms (wrapU32 (Int.tdiv sleeping_time 1000000))] }
      match mp_media_next_audio m with
      | none => thread_step.undefined
      | some m => catch_up_loop fuel m (wrapI64 (time_spent + sleeping_time))
    else thread_step.next m

/-- Lines 790-793: the end-of-stream test and the clock update that close an
iteration in which frames were pumped. -/
def thread_iter_finish (m : mp_media) (e : iter_env) : thread_step :=
  match mp_media_eof m e.reset with
  | none => thread_step.undefined
  | some (m, true) => thread_step.next m
  | some (m, false) => thread_step.next (mp_media_calc_next_ns m)

/-- Lines 764-789: the replay branch of an iteration (both caches closed and
caching on). -/
def thread_iter_replay (fuel : Nat) (m : mp_media) : thread_step :=
  let slept : thread_step :=
    if m.video.refresh_rate_ns > m.audio.refresh_rate_ns then catch_up_loop fuel m 0
    else
      thread_step.next { m with
        log := m.log ++ [event.sleep_ms (wrapU32 (Int.tdiv m.video.refresh_rate_ns 1000000))] }
  match slept with
  | thread_step.next m =>
    thread_step.next { m with
      a := { m.a with frame_ready := true }
      v := { m.v with frame_ready := true } }
  | r => r

/-- Lines 760-793 of an iteration: frames are prepared (live branch) or the
replay branch sleeps, then the end-of-stream test and the clock update. -/
def thread_iter_prepare (fuel : Nat) (m : mp_media) (e : iter_env) : thread_step :=
  if m.audio.index_eof < 0 ∨ m.video.index_eof < 0 ∨ m.caching = false then
    if (mp_media_prepare_frames m e.prepare).2 = false then
      thread_step.exit (mp_media_prepare_frames m e.prepare).1 false
    else thread_iter_finish (mp_media_prepare_frames m e.prepare).1 e
  else
    match thread_iter_replay fuel m with
    | thread_step.next m => thread_iter_finish m e
    | r => r

/-- Lines 758-759 of an iteration, then the rest of it. -/
def thread_iter_audio (fuel : Nat) (m : mp_media) (e : iter_env) : thread_step :=
  if m.has_audio = true then
    match mp_media_next_audio m with
    | none => thread_step.undefined
    | some m => thread_iter_prepare fuel m e
  else thread_iter_prepare fuel m e

/-- Lines 756-757 of an iteration, then the rest of it. -/
def thread_iter_video (fuel : Nat) (m : mp_media) (e : iter_env) : thread_step :=
  if m.has_video = true then
    match mp_media_next_video m false e.video with
    | none => thread_step.undefined
    | some m => thread_iter_audio fuel m e
  else thread_iter_audio fuel m e

/-- Lines 737-794 of an iteration: the control flags are read and cleared, and
the iteration kills, resets, pumps frames or does nothing; `is_active` and
`timeout` are the locals of those names. -/
def thread_iter_flags (fuel : Nat) (m : mp_media) (is_active timeout : Bool)
    (e : iter_env) : thread_step :=
  if m.kill = true then
    thread_step.exit (clear_cache { m with reset := false, kill := false }) true
  else if m.reset = true then
    match mp_media_reset { m with reset := false, kill := false } e.reset with
    | none => thread_step.undefined
    | some (m, _) => thread_step.next m
  else if is_active = true ∧ timeout = false then
    thread_iter_video fuel { m with reset := false, kill := false } e
  else thread_step.next { m with reset := false, kill := false }

/-- One iteration of the `for (;;)` loop of `mp_media_thread` (lines 722-795).
`fuel` bounds the rounds of the catch-up loop. -/
def mp_media_thread_iter (fuel : Nat) (m : mp_media) (e : iter_env) : thread_step :=
  if m.active = false then
    if e.sem_wait_ret < 0 then thread_step.exit m false
    else thread_iter_flags fuel m false false e
  else
    thread_iter_flags fuel (mp_media_sleepto m e.now).1 true (mp_media_sleepto m e.now).2 e

/-- The worker loop over the given iterations; `next` when they are used up
and the loop is still running. -/
def mp_media_thread_loop (fuel : Nat) : mp_media → List iter_env → thread_step
  | m, [] => thread_step.next m
  | m, e :: es =>
    match mp_media_thread_iter fuel m e with
    | thread_step.next m => mp_media_thread_loop fuel m es
    | r => r

def mp_media_thread (fuel : Nat) (m : mp_media) (ae : avformat_env) (re : reset_env)
    (es : List iter_env) : thread_step :=
  let (m, ok) := init_avformat m ae
  if ok = false then thread_step.exit m false
  else
    match mp_media_reset m re with
    | none => thread_step.undefined
    | some (m, false) => thread_step.exit m false
    | some (m, true) => mp_media_thread_loop fuel m es

def mp_media_thread_start (fuel : Nat) (m : mp_media) (ae : avformat_env) (re : reset_env)
    (es : List iter_env) : thread_step :=
  match mp_media_thread fuel m ae re es with
  | thread_step.exit m false =>
    if m.stop_cb = true then thread_step.exit { m with log := m.log ++ [event.stop] } false
    else thread_step.exit m false
  | r => r

def mp_kill_thread (m : mp_media) : mp_media :=
  if m.thread_valid = true then { m with kill := true } else m

/-! ## Sample sessions and the vocabulary of the properties -/

/-- A clean session with one callback of each kind, on a local file. -/
def base_media : mp_media :=
  { zero_media 1000 with
    v_cb := true, a_cb := true, stop_cb := true, v_preload_cb := true
    speed := 100, is_local_file := true
    video := { index := 0, index_eof := -1, data := [], refresh_rate_ns := 0 }
    audio := { index := 0, index_eof := -1, data := [], refresh_rate_ns := 0 } }

/-- A decoder holding a ready frame with the given PTS. -/
def ready_decode (pts : Int) : mp_decode :=
  { zero_decode with frame_ready := true, frame_pts := pts }

/-! Vocabulary and samples: the presentation clock. -/

/-- The PTS values of the present streams whose decoded frame is ready. -/
def ready_pts (m : mp_media) : List Int :=
  (if m.has_video = true ∧ m.v.frame_ready = true then [m.v.frame_pts] else [])
    ++ (if m.has_audio = true ∧ m.a.frame_ready = true then [m.a.frame_pts] else [])

/-- A session with a ready video frame five seconds past the clock. -/
def jump_media : mp_media :=
  { base_media with
    has_video := true, v := ready_decode 5000000000, next_pts_ns := 0, next_ns := 7000 }

/-! Vocabulary and samples: what frame delivery leaves alone. -/

/-- The fields that neither `mp_media_next_video` nor `mp_media_next_audio`
writes. -/
structure delivery_fields where
  base_ts : Int
  start_ts : Int
  play_sys_ts : Int
  base_sys_ts : Int
  next_pts_ns : Int
  next_ns : Int
  caching : Bool
  video_index_eof : Int
  audio_index_eof : Int
  has_video : Bool
  has_audio : Bool
  v_frame_pts : Int
  a_frame_pts : Int
  v_frame : AVFrame
  a_frame : AVFrame
  active : Bool
  stopping : Bool
  looping : Bool
  reset : Bool
  kill : Bool
  v_cb : Bool
  a_cb : Bool
  stop_cb : Bool
  v_preload_cb : Bool
  is_local_file : Bool
  enable_caching : Bool
  speed : Int
  fmt : Option format_info

def delivery_kept (m : mp_media) : delivery_fields :=
  { base_ts := m.base_ts, start_ts := m.start_ts, play_sys_ts := m.play_sys_ts,
    base_sys_ts := m.base_sys_ts, next_pts_ns := m.next_pts_ns, next_ns := m.next_ns,
    caching := m.caching, video_index_eof := m.video.index_eof,
    audio_index_eof := m.audio.index_eof, has_video := m.has_video,
    has_audio := m.has_audio, v_frame_pts := m.v.frame_pts, a_frame_pts := m.a.frame_pts,
    v_frame := m.v.frame, a_frame := m.a.frame,
    active := m.active, stopping := m.stopping, looping := m.looping, reset := m.reset,
    kill := m.kill, v_cb := m.v_cb, a_cb := m.a_cb, stop_cb := m.stop_cb,
    v_preload_cb := m.v_preload_cb, is_local_file := m.is_local_file,
    enable_caching := m.enable_caching, speed := m.speed, fmt := m.fmt }

/-- The two sessions agree on the fields that frame delivery does not write. -/
def same_clock (m m' : mp_media) : Prop := delivery_kept m' = delivery_kept m

/-- A video environment in which the scaler and the colour parameters succeed. -/
def good_video_env : video_env :=
  { sws_scale_ret := 0, get_parameters_ok := true
    copy_data := [0, 0, 0, 0, 0, 0, 0, 0], copy_linesize := [0, 0, 0, 0, 0, 0, 0, 0] }

/-- A successful `mp_media_prepare_frames` that leaves the given decoders. -/
def prepared (v a : mp_decode) : prepare_result :=
  { ok := true, v := v, a := a, eof := false, scale_format := AVPixelFormat.YUV420P,
    swscale := false, scale_linesizes := [0, 0, 0, 0], scale_pic := [0, 0, 0, 0] }

/-- A reset after which the video decoder holds a frame with PTS 0. -/
def restart_env : reset_env :=
  { v_flushed := zero_decode, a_flushed := zero_decode
    prepare := prepared (ready_decode 0) zero_decode
    now := 5000, video := good_video_env }

/-- An inactive session with video whose deadline is set. -/
def idle_media : mp_media :=
  { base_media with has_video := true, next_ns := 7000 }

/-- A session whose clock is ahead of the ready video frame. -/
def back_media : mp_media :=
  { base_media with has_video := true, v := ready_decode 5, next_pts_ns := 10 }

/-! Vocabulary and samples: audio sample rate and playback speed. -/

/-- A session at half speed whose audio decoder holds a 48 kHz frame that is
due. -/
def half_speed_media : mp_media :=
  { base_media with
    has_audio := true, speed := 50
    a := { frame_ready := true, frame_pts := 0, next_pts := 0, eof := false,
           got_first_keyframe := false,
           frame := { zero_frame with
             sample_rate := 48000, sample_format := AVSampleFormat.FLTP
             channels := 2, nb_samples := 1024 } } }

/-- An `mp_media_info` for a local file played at the given speed. -/
def local_info (speed : Int) : mp_media_info :=
  { v_cb := true, a_cb := true, stop_cb := true, v_preload_cb := true,
    force_range := video_range_type.RANGE_DEFAULT, buffering := 0, speed := speed,
    is_local_file := true, enable_caching := true }

/-- An operating system on which the mutex, the semaphore and the thread are
created. -/
def good_init_env : init_env :=
  { mutex_init_ret := 0, sem_init_ret := 0, pthread_create_ret := 0, now := 5000,
    refresh_rate_init := 0 }

/-! Vocabulary and samples: cache admission. -/

/-- A 4000 x 3000 video stream with 100000 estimated frames. -/
def big_format : format_info :=
  { video_stream_index := 0, frames := 100000, width := 4000, height := 3000 }

/-- An opened container holding `fmt` with a video and an audio stream. -/
def opened (fmt : format_info) : avformat_env :=
  { open_input_ret := 0, find_stream_info_ret := 0, fmt := fmt, has_video := true,
    has_audio := true, v := zero_decode, a := zero_decode }

/-- A looping local session with caching enabled, before the container is
opened. -/
def looping_media : mp_media :=
  { base_media with looping := true, enable_caching := true }

/-! Vocabulary and samples: what frame delivery logs. -/

/-- The event that a frame handed to `video_deliver` leaves in the log. -/
def video_event (preload : Bool) (frame : obs_source_frame) : event :=
  if preload = true then event.preload frame else event.video frame

/-! Vocabulary and samples: the delivery gate. -/

/-- A cached video frame with the given timestamp. -/
def cached_frame (ts : Int) : obs_source_frame :=
  { data := [0, 0, 0, 0, 0, 0, 0, 0], linesize := [0, 0, 0, 0, 0, 0, 0, 0], width := 16,
    height := 16, timestamp := ts, format := video_format.I420,
    color_space := video_colorspace.CS_DEFAULT, color_range := video_range_type.RANGE_DEFAULT,
    full_range := false, flip := false }

/-- A session whose video cursor stands at the end of a two-frame cache after
caching was switched off, with no decoded frame ready. -/
def wrapped_media : mp_media :=
  { base_media with
    has_video := true, caching := false
    video := { index := 2, index_eof := 2, data := [cached_frame 100, cached_frame 200],
               refresh_rate_ns := 100 } }

/-! Vocabulary and samples: end of stream. -/

/-- The number of stop-callback invocations in a log. -/
def stops (l : List event) : Nat := l.count event.stop

/-- No present stream has a ready frame. -/
def no_ready_frame (m : mp_media) : Prop :=
  ¬ (m.has_video = true ∧ m.v.frame_ready = true) ∧
    ¬ (m.has_audio = true ∧ m.a.frame_ready = true)

instance (m : mp_media) : Decidable (no_ready_frame m) := by
  unfold no_ready_frame
  infer_instance

/-- A looping session on which a stop request arrived while the last frames
were pumped: no frame is ready and `stopping` is set. -/
def racing_media : mp_media :=
  { base_media with has_video := true, looping := true, stopping := true }

/-! Vocabulary and samples: delivered timestamps within one loop pass. -/

/-- The timestamps of the frames handed to the video callback, in order. -/
def video_stamps (l : List event) : List Int :=
  l.filterMap (fun ev => match ev with
    | event.video f => some f.timestamp
    | _ => none)

/-- The timestamps of the buffers handed to the audio callback, in order. -/
def audio_stamps (l : List event) : List Int :=
  l.filterMap (fun ev => match ev with
    | event.audio_cb b => some b.timestamp
    | _ => none)

/-- The fields that only a reset, the end of stream or a command writes: the
clock origin of the timestamps and the caching mode. -/
structure pass_fields where
  base_ts : Int
  start_ts : Int
  play_sys_ts : Int
  base_sys_ts : Int
  caching : Bool
  video_index_eof : Int
  audio_index_eof : Int

def pass_kept (m : mp_media) : pass_fields :=
  { base_ts := m.base_ts, start_ts := m.start_ts, play_sys_ts := m.play_sys_ts,
    base_sys_ts := m.base_sys_ts, caching := m.caching,
    video_index_eof := m.video.index_eof, audio_index_eof := m.audio.index_eof }

/-- The video stream is decoded live: its cache is still filling or caching is
off. -/
def video_live (m : mp_media) : Prop := m.video.index_eof < 0 ∨ m.caching = false

/-- The audio stream is decoded live, and while its cache is filling the
cursor stands at the end of the cache and the video cursor cannot wrap. -/
def audio_live (m : mp_media) : Prop :=
  (m.audio.index_eof < 0 ∨ m.caching = false) ∧
    (m.caching = true →
      m.audio.index = m.audio.data.length ∧ ¬ (m.video.index_eof > 0))

instance (m : mp_media) : Decidable (video_live m) := by
  unfold video_live
  infer_instance

instance (m : mp_media) : Decidable (audio_live m) := by
  unfold audio_live
  infer_instance

/-- What an iteration that pumped frames on a live branch and ended without a
reset did: `mp` is the session when the pump starts, `m1` when the iteration
ends, `evs` what was logged. -/
def iter_pumped (mp m1 : mp_media) (e : iter_env) (evs : List event) : Prop :=
  pass_kept m1 = pass_kept mp ∧
  m1.v.frame_pts = e.prepare.v.frame_pts ∧
  m1.a.frame_pts = e.prepare.a.frame_pts ∧
  (video_live mp →
    video_stamps evs = [] ∨ video_stamps evs = [frame_timestamp mp mp.v.frame_pts]) ∧
  (audio_live mp →
    (audio_stamps evs = [] ∨ audio_stamps evs = [frame_timestamp mp mp.a.frame_pts]) ∧
    (mp.caching = true → m1.audio.index = m1.audio.data.length))

/-- The log of `m'` continues the log of `m`. -/
def log_extends (m m' : mp_media) : Prop := ∃ evs, m'.log = m.log ++ evs

/-- What an iteration of the worker that performs no reset does on a stream
decoded live: it keeps the clock origin and the caching mode, and it logs
nothing for the stream and leaves its decoded frame, or it logs at most the
frame that was decoded, stamped from its PTS, and leaves the frame that
`mp_media_prepare_frames` produced. -/
def iter_pass (m m1 : mp_media) (e : iter_env) (evs : List event) : Prop :=
  pass_kept m1 = pass_kept m ∧
  (video_live m →
    (video_stamps evs = [] ∧ m1.v.frame_pts = m.v.frame_pts) ∨
    ((video_stamps evs = [] ∨ video_stamps evs = [frame_timestamp m m.v.frame_pts]) ∧
      m1.v.frame_pts = e.prepare.v.frame_pts)) ∧
  (audio_live m → audio_live m1 ∧
    ((audio_stamps evs = [] ∧ m1.a.frame_pts = m.a.frame_pts) ∨
    ((audio_stamps evs = [] ∨ audio_stamps evs = [frame_timestamp m m.a.frame_pts]) ∧
      m1.a.frame_pts = e.prepare.a.frame_pts)))

/-- The timestamp of a frame with PTS `pts`, computed without wrapping, fits
the `uint64_t` field. -/
def stamp_fits (m : mp_media) (pts : Int) : Prop :=
  0 ≤ m.base_ts + pts - m.start_ts + m.play_sys_ts - m.base_sys_ts ∧
    m.base_ts + pts - m.start_ts + m.play_sys_ts - m.base_sys_ts ≤ UINT64_MAX

instance (m : mp_media) (pts : Int) : Decidable (stamp_fits m pts) := by
  unfold stamp_fits
  infer_instance

/-- An iteration environment in which the clock reads 2000 and the decoders
leave the given frames. -/
def pump_env (v a : mp_decode) : iter_env :=
  { sem_wait_ret := 0, now := 2000, video := good_video_env, prepare := prepared v a,
    reset := restart_env }

/-- An active session with video only, decoded live, whose decoder holds a
frame with PTS 10 that is due; timestamps are PTS + 4000. -/
def pass_media : mp_media :=
  { base_media with
    has_video := true, active := true, v := ready_decode 10
    next_pts_ns := 10, next_ns := 1, play_sys_ts := 5000 }

/-- The session the worker loop reaches from `m` over `es`. -/
def loop_result (m : mp_media) (es : List iter_env) : mp_media :=
  match mp_media_thread_loop 0 m es with
  | thread_step.next r => r
  | _ => m

/-! Vocabulary and samples: cache replay. -/

/-- A cached audio buffer decoded at PTS `pts` and last stamped `ts`. -/
def cached_audio (pts ts : Int) : obs_source_audio :=
  { data := [0, 0, 0, 0, 0, 0, 0, 0], frames := 1024, speakers := speaker_layout.STEREO,
    format := audio_format.FLOAT_PLANAR, samples_per_sec := 48000, timestamp := ts,
    dec_frame_pts := pts }

/-- A looping session in replay: both caches hold the two entries of the first
pass, stamped when the clock origin `base_ts` was 0, and the end-of-stream
reset has moved `base_ts` to 30. -/
def replay_media : mp_media :=
  { base_media with
    has_video := true, has_audio := true, active := true, looping := true
    enable_caching := true, caching := true, play_sys_ts := 5000, base_ts := 30, next_ns := 1
    video := { index := 0, index_eof := 2, data := [cached_frame 4000, cached_frame 4010],
               refresh_rate_ns := 10 }
    audio := { index := 0, index_eof := 2, data := [cached_audio 0 4000, cached_audio 10 4010],
               refresh_rate_ns := 10 } }

/-- What a live call of `mp_media_next_video` does to the caches: it leaves
the audio cache and `next_wait` alone, and it delivers nothing and leaves the
video cache, or delivers one frame, which with caching on is appended to the
video cache while the cursor advances by one, and with caching off leaves the
video cache. -/
def cache_effect (m m' : mp_media) (preload : Bool) : Prop :=
  m'.audio = m.audio ∧ m'.next_wait = m.next_wait ∧
  ((m'.log = m.log ∧ m'.video = m.video) ∨
    ∃ f, m'.log = m.log ++ [video_event preload f] ∧
      (m.caching = false → m'.video = m.video) ∧
      (m.caching = true →
        m'.video.data = m.video.data ++ [f] ∧ m'.video.index = m.video.index + 1 ∧
        m'.video.index_eof = m.video.index_eof))

/-- A looping session with caching on at the end of its first pass: three
video frames and one audio buffer are cached and no decoded frame is ready. -/
def pass_end_media : mp_media :=
  { base_media with
    has_video := true, has_audio := true, active := true, looping := true
    enable_caching := true, caching := true, play_sys_ts := 5000, next_ns := 1
    next_pts_ns := 20, v := { zero_decode with next_pts := 30 }
    video := { index := 3, index_eof := -1
               data := [cached_frame 4000, cached_frame 4010, cached_frame 4020]
               refresh_rate_ns := 10 }
    audio := { index := 1, index_eof := -1, data := [cached_audio 0 4000]
               refresh_rate_ns := 0 } }

/-! Vocabulary and samples: opening the container. -/

/-- A container that `avformat_open_input` fails to open. -/
def unopened : avformat_env := { opened big_format with open_input_ret := -1 }

/-- A container that opens but in which neither decoder can be initialised. -/
def streamless : avformat_env :=
  { opened big_format with has_video := false, has_audio := false }

/-! Vocabulary and samples: failures of frame preparation. -/

/-- A call of `mp_media_prepare_frames` that returns false. -/
def failed_prepare : prepare_result :=
  { prepared zero_decode zero_decode with ok := false }

/-- A reset in which `mp_media_prepare_frames` returns false. -/
def failing_reset_env : reset_env := { restart_env with prepare := failed_prepare }

/-- An iteration whose pump finds the streams ended, and in which a reset,
if one is made, fails to prepare frames. -/
def failing_reset_iter : iter_env :=
  { pump_env zero_decode zero_decode with reset := failing_reset_env }

/-- An iteration in which the pump fails to prepare frames. -/
def failing_pump_iter : iter_env :=
  { pump_env zero_decode zero_decode with prepare := failed_prepare }

/-- An iteration in which the pump finds the streams ended and a reset, if
one is made, succeeds. -/
def ending_iter : iter_env := pump_env zero_decode zero_decode

/-! Vocabulary and samples: a first pass and its replay. -/

/-- A looping local session with caching on at the start of its first pass:
both decoders hold a frame with PTS 0 that is due; timestamps are PTS + 4000
while `base_ts` is 0. -/
def fill_media : mp_media :=
  { base_media with
    has_video := true, has_audio := true, active := true, looping := true
    enable_caching := true, caching := true, play_sys_ts := 5000, next_ns := 1
    v := ready_decode 0, a := ready_decode 0 }

/-- The reset at the end of a pass that lasted `d`: the flushed decoders keep
`next_pts = d`, and both hold a frame with PTS 0 again after the seek. -/
def loop_reset_env (d : Int) : reset_env :=
  { v_flushed := { zero_decode with next_pts := d }
    a_flushed := { zero_decode with next_pts := d }
    prepare := prepared (ready_decode 0) (ready_decode 0)
    now := 6000, video := good_video_env }

/-- The iteration that finds both streams ended after a pass that lasted `d`. -/
def loop_end_iter (d : Int) : iter_env :=
  { pump_env zero_decode zero_decode with reset := loop_reset_env d }

/-- The timestamps of the frames handed to the preload callback, in order. -/
def preload_stamps (l : List event) : List Int :=
  l.filterMap (fun ev => match ev with
    | event.preload f => some f.timestamp
    | _ => none)

/-! Vocabulary and samples: bottom-up frames. -/

/-- A decoded 16 x 16 frame with the given strides whose plane 0 is at address
10000. -/
def stride_frame (linesize : List Int) : AVFrame :=
  { zero_frame with
    data := [10000, 20000, 30000, 0, 0, 0, 0, 0], linesize := linesize
    width := 16, height := 16, format := AVPixelFormat.BGRA }

/-- A session, decoded live without scaler and without caching, whose video
decoder holds a frame with the given strides that is due. -/
def stride_media (linesize : List Int) : mp_media :=
  { base_media with
    has_video := true, active := true, play_sys_ts := 5000, next_ns := 1
    scale_format := AVPixelFormat.BGRA
    v := { frame_ready := true, frame_pts := 0, next_pts := 0, eof := false
           got_first_keyframe := false, frame := stride_frame linesize } }

/-- The frames handed to the video callback, in order. -/
def video_frames (l : List event) : List obs_source_frame :=
  l.filterMap (fun ev => match ev with
    | event.video f => some f
    | _ => none)

/-! Vocabulary and samples: the video cache over a stretch of the worker. -/

/-- A stretch of the worker that hands nothing to the video callback, makes no
reset and leaves the video cache; the cursor stays or is rewound to 0. -/
def silent_step (m m1 : mp_media) (evs : List event) : Prop :=
  video_frames evs = [] ∧ event.reset_mark ∉ evs ∧ m1.caching = m.caching ∧
  m1.video.index_eof = m.video.index_eof ∧ m1.video.data = m.video.data ∧
  (m1.video.index = m.video.index ∨ m1.video.index = 0)

/-- A frame without its timestamp. -/
def untimed (f : obs_source_frame) : obs_source_frame := { f with timestamp := 0 }

/-- The differences between consecutive values of a list. -/
def steps (l : List Int) : List Int := List.zipWith (fun a b => b - a) l l.tail

/-! Vocabulary and samples: the sleep to the deadline. -/

/-- A playing session whose deadline is one second after the epoch of the
sample clock readings (which are 2000). -/
def waiting_media : mp_media := { pass_media with next_ns := 1000000000 }

/-! Vocabulary and samples: the catch-up loop. -/

/-- Lines 768-778: one round of the catch-up loop up to its sleep.  The
result is the session (whose `next_wait` may have been cleared), `time_spent`
as the round leaves it before the sleep is added, and `sleeping_time`. -/
def catch_up_round (m : mp_media) (time_spent : Int) : mp_media × Int × Int :=
  if wrapI64 (m.audio.refresh_rate_ns - time_spent) > 0 then
    if m.next_wait > 0 then
      ({ m with next_wait := 0 }, wrapI64 (time_spent - m.next_wait),
        wrapI32 (wrapI64 (m.audio.refresh_rate_ns - wrapI64 (time_spent - m.next_wait))))
    else (m, time_spent, wrapI32 (wrapI64 (m.audio.refresh_rate_ns - time_spent)))
  else (m, time_spent, wrapI32 (wrapI64 (m.video.refresh_rate_ns - time_spent)))

/-- The arguments of the calls of `os_sleep_ms`, in order. -/
def sleeps (l : List event) : List Int :=
  l.filterMap (fun ev => match ev with
    | event.sleep_ms ms => some ms
    | _ => none)

/-- A session in replay whose cached video frames are 30 ms apart and whose
cached audio buffers are 10 ms apart. -/
def slow_video_media : mp_media :=
  { replay_media with
    video := { replay_media.video with refresh_rate_ns := 30000000 }
    audio := { replay_media.audio with refresh_rate_ns := 10000000 } }

/-- A session in replay whose cached video frames are 5 s apart and whose
cached audio buffers are 23219954 ns apart (1024 samples at 44.1 kHz). -/
def still_video_media : mp_media :=
  { replay_media with
    video := { replay_media.video with refresh_rate_ns := 5000000000 }
    audio := { replay_media.audio with refresh_rate_ns := 23219954 } }

/-! Vocabulary and samples: the bounds of the cache arrays. -/

/-- The bookkeeping of a cache: while it is filling the cursor stands at its
end; once it is closed `index_eof` is its number of entries and the cursor
lies between 0 and `index_eof`. -/
def cache_books {α : Type} (c : cached_data α) : Prop :=
  (c.index_eof < 0 ∧ c.index = c.data.length) ∨
    (0 ≤ c.index_eof ∧ c.index_eof = c.data.length ∧ 0 ≤ c.index ∧ c.index ≤ c.index_eof)

instance {α : Type} (c : cached_data α) : Decidable (cache_books c) := by
  unfold cache_books
  infer_instance

/-- A decoder holding a ready audio frame of a sample format that
`convert_sample_format` does not know. -/
def unknown_audio_decode (pts : Int) : mp_decode :=
  { ready_decode pts with
    frame := { zero_frame with sample_format := AVSampleFormat.other 10 } }

/-- A looping local session with caching on at the start of its first pass,
whose audio frames have an unknown sample format. -/
def unknown_audio_media : mp_media := { fill_media with a := unknown_audio_decode 0 }

/-- A session in replay whose audio cache was closed with no entry. -/
def empty_audio_media : mp_media :=
  { replay_media with
    audio := { index := 0, index_eof := 0, data := [], refresh_rate_ns := 0 } }

/-- A session in replay whose video cache was closed with no entry. -/
def empty_video_media : mp_media :=
  { replay_media with
    video := { index := 0, index_eof := 0, data := [], refresh_rate_ns := 0 } }

/-- What a call of `mp_media_next_audio` does in replay (lines 264-268 and
316-325): with the audio cursor at `audio.index_eof > 0` it rewinds both
cursors and delivers nothing; otherwise the entry under the audio cursor goes
to the audio callback, restamped, and the audio cursor advances by one. -/
def audio_replay_step (x x1 : mp_media) : Prop :=
  (x.audio.index_eof > 0 ∧ x.audio.index = x.audio.index_eof ∧ x1 = cache_wraparound x) ∨
  (¬ (x.audio.index_eof > 0 ∧ x.audio.index = x.audio.index_eof) ∧
    ∃ entry, darray_get x.audio.data x.audio.index = some entry ∧
      x1.log = x.log ++ [event.audio_cb
        { entry with timestamp := frame_timestamp x entry.dec_frame_pts }] ∧
      x1.audio.index = x.audio.index + 1 ∧ x1.video = x.video)

/-! Vocabulary and samples: a stop request at end of stream. -/

/-- The session `pass_end_media` after a call of `mp_media_stop` that arrived
while the worker pumped the last frames of the first pass, after the worker
had read the control flags: `active` is cleared, `stopping` and `reset` are
set. -/
def stop_raced_media : mp_media := mp_media_stop pass_end_media

/-! # Theorems -/

/-! ## Arithmetic of the fixed-width values -/

theorem wrapI64_of_inI64 {x : Int} (h : inI64 x) : wrapI64 x = x := by
  unfold inI64 INT64_MIN INT64_MAX at h
  unfold wrapI64
  omega

theorem wrapU64_of_inU64 {x : Int} (h : inU64 x) : wrapU64 x = x := by
  unfold inU64 UINT64_MAX at h
  unfold wrapU64
  omega

theorem wrapI32_of_inI32 {x : Int} (h : inI32 x) : wrapI32 x = x := by
  unfold inI32 INT32_MIN INT32_MAX at h
  unfold wrapI32
  omega

theorem wrapU64_nonneg (x : Int) : 0 ≤ wrapU64 x := by
  unfold wrapU64
  omega

theorem wrapU64_wrapI64 (x : Int) : wrapU64 (wrapI64 x) = wrapU64 x := by
  unfold wrapU64 wrapI64
  omega

theorem wrapI64_add_left (x y : Int) : wrapI64 (wrapI64 x + y) = wrapI64 (x + y) := by
  unfold wrapI64
  omega

theorem wrapI64_sub_left (x y : Int) : wrapI64 (wrapI64 x - y) = wrapI64 (x - y) := by
  unfold wrapI64
  omega

/-! ## The presentation clock -/

theorem get_next_min_pts_is_min (m : mp_media)
    (hv : inI64 m.v.frame_pts) (ha : inI64 m.a.frame_pts) (hne : ready_pts m ≠ []) :
    mp_media_get_next_min_pts m ∈ ready_pts m ∧
      ∀ p ∈ ready_pts m, mp_media_get_next_min_pts m ≤ p := by
  unfold inI64 INT64_MIN INT64_MAX at hv ha
  unfold ready_pts at hne ⊢
  unfold mp_media_get_next_min_pts INT64_MAX
  by_cases h1 : m.has_video = true ∧ m.v.frame_ready = true <;>
    by_cases h2 : m.has_audio = true ∧ m.a.frame_ready = true <;>
    simp only [h1, h2, if_true, if_false, and_self, List.append_nil, List.nil_append,
      List.singleton_append, List.mem_cons, List.mem_singleton, List.not_mem_nil, or_false,
      forall_eq_or_imp, forall_eq, ne_eq, not_true_eq_false, not_false_eq_true] at hne ⊢
  · constructor
    · split_ifs <;> omega
    · split_ifs <;> omega
  · constructor
    · split_ifs <;> omega
    · split_ifs <;> omega
  · constructor
    · split_ifs <;> omega
    · split_ifs <;> omega

theorem ready_pts_ne_nil (m : mp_media)
    (hready : (m.has_video = true ∧ m.v.frame_ready = true) ∨
      (m.has_audio = true ∧ m.a.frame_ready = true)) : ready_pts m ≠ [] := by
  unfold ready_pts
  rcases hready with h | h
  · simp [h]
  · simp [h]

/-- C1: when some present stream has a ready frame, `mp_media_calc_next_ns`
stores in `next_pts_ns` the minimum PTS among the present ready streams, and
with `delta = min_next_ns - next_pts_ns` (an `int64_t` difference that does not
overflow) it adds `delta` to the `uint64_t` `next_ns` when
`0 <= delta <= 3000000000` and leaves `next_ns` as it was when `delta < 0` or
`delta > 3000000000`, in particular for a jump of five seconds. -/
theorem calc_next_ns_clamps (m : mp_media)
    (hv : inI64 m.v.frame_pts) (ha : inI64 m.a.frame_pts) (hn : inU64 m.next_ns)
    (hready : (m.has_video = true ∧ m.v.frame_ready = true) ∨
      (m.has_audio = true ∧ m.a.frame_ready = true))
    (hsub : inI64 (mp_media_get_next_min_pts m - m.next_pts_ns)) :
    (mp_media_get_next_min_pts m ∈ ready_pts m ∧
      ∀ p ∈ ready_pts m, mp_media_get_next_min_pts m ≤ p) ∧
    (mp_media_calc_next_ns m).next_pts_ns = mp_media_get_next_min_pts m ∧
    (0 ≤ mp_media_get_next_min_pts m - m.next_pts_ns →
      mp_media_get_next_min_pts m - m.next_pts_ns ≤ 3000000000 →
      (mp_media_calc_next_ns m).next_ns
          = wrapU64 (m.next_ns + (mp_media_get_next_min_pts m - m.next_pts_ns)) ∧
        (m.next_ns + (mp_media_get_next_min_pts m - m.next_pts_ns) ≤ UINT64_MAX →
          (mp_media_calc_next_ns m).next_ns
            = m.next_ns + (mp_media_get_next_min_pts m - m.next_pts_ns))) ∧
    (mp_media_get_next_min_pts m - m.next_pts_ns < 0 ∨
        mp_media_get_next_min_pts m - m.next_pts_ns > 3000000000 →
      (mp_media_calc_next_ns m).next_ns = m.next_ns) ∧
    (mp_media_get_next_min_pts m - m.next_pts_ns = 5000000000 →
      (mp_media_calc_next_ns m).next_ns = m.next_ns) := by
  have hw := wrapI64_of_inI64 hsub
  have hfix : wrapU64 (m.next_ns + 0) = m.next_ns := by
    rw [Int.add_zero]
    exact wrapU64_of_inU64 hn
  refine ⟨get_next_min_pts_is_min m hv ha (ready_pts_ne_nil m hready), rfl, ?_, ?_, ?_⟩
  · intro h0 h3
    have hval : (mp_media_calc_next_ns m).next_ns
        = wrapU64 (m.next_ns + (mp_media_get_next_min_pts m - m.next_pts_ns)) := by
      simp only [mp_media_calc_next_ns, hw]
      split_ifs <;> first | rfl | omega
    refine ⟨hval, fun hfit => ?_⟩
    rw [hval]
    apply wrapU64_of_inU64
    unfold inU64 at hn ⊢
    omega
  · intro h
    simp only [mp_media_calc_next_ns, hw]
    split_ifs <;> first | exact hfix | omega
  · intro h
    simp only [mp_media_calc_next_ns, hw]
    split_ifs <;> first | exact hfix | omega

theorem calc_next_ns_clamps_witness :
    (mp_media_calc_next_ns jump_media).next_pts_ns = 5000000000 ∧
      (mp_media_calc_next_ns jump_media).next_ns = 7000 := by
  have h := calc_next_ns_clamps jump_media (by decide) (by decide) (by decide)
    (Or.inl ⟨rfl, rfl⟩) (by decide)
  exact ⟨h.2.1, h.2.2.2.2 (by decide)⟩

/-! ## What frame delivery leaves alone -/

theorem same_clock_refl (m : mp_media) : same_clock m m := rfl

theorem same_clock_trans {a b c : mp_media} (h1 : same_clock a b) (h2 : same_clock b c) :
    same_clock a c := by
  unfold same_clock at *
  rw [h2, h1]

theorem same_clock_after {a b c : mp_media} (h2 : same_clock b c) (h1 : same_clock a b) :
    same_clock a c :=
  same_clock_trans h1 h2

theorem same_clock_next_ns {m m' : mp_media} (h : same_clock m m') : m'.next_ns = m.next_ns :=
  congrArg delivery_fields.next_ns h

theorem frame_timestamp_congr {m m' : mp_media} (h : same_clock m m') (pts : Int) :
    frame_timestamp m' pts = frame_timestamp m pts := by
  have h1 : m'.base_ts = m.base_ts := congrArg delivery_fields.base_ts h
  have h2 : m'.start_ts = m.start_ts := congrArg delivery_fields.start_ts h
  have h3 : m'.play_sys_ts = m.play_sys_ts := congrArg delivery_fields.play_sys_ts h
  have h4 : m'.base_sys_ts = m.base_sys_ts := congrArg delivery_fields.base_sys_ts h
  unfold frame_timestamp
  rw [h1, h2, h3, h4]

theorem video_deliver_clock {m m' : mp_media} {preload : Bool} {frame : obs_source_frame}
    (h : video_deliver m preload frame = some m') : same_clock m m' := by
  unfold video_deliver at h
  split_ifs at h <;> cases h <;> exact same_clock_refl _

theorem video_store_clock {m m' : mp_media} {preload : Bool} {e : video_env}
    (h : video_store m preload e = some m') : same_clock m m' := by
  unfold video_store at h
  split_ifs at h
  · split at h
    · cases h
    · exact same_clock_after (video_deliver_clock h) rfl
  · exact same_clock_after (video_deliver_clock h) rfl
  · exact video_deliver_clock h

theorem video_keyframe_clock {m m' : mp_media} {preload : Bool} {e : video_env}
    (h : video_keyframe m preload e = some m') : same_clock m m' := by
  unfold video_keyframe at h
  split_ifs at h
  · cases h
    exact same_clock_refl _
  · exact same_clock_after (video_store_clock h) rfl
  · exact video_store_clock h

theorem video_stamp_clock {m m' : mp_media} {flip preload : Bool} {e : video_env}
    (h : video_stamp m flip preload e = some m') : same_clock m m' := by
  unfold video_stamp at h
  exact same_clock_after (video_keyframe_clock h) rfl

theorem video_format_stage_clock {m m' : mp_media} {flip preload : Bool} {e : video_env}
    (h : video_format_stage m flip preload e = some m') : same_clock m m' := by
  unfold video_format_stage at h
  split_ifs at h
  · cases h
    exact rfl
  · cases h
    exact rfl
  · exact same_clock_after (video_stamp_clock h) rfl
  · cases h
    exact same_clock_refl _
  · exact video_stamp_clock h

theorem video_convert_clock {m m' : mp_media} {preload : Bool} {e : video_env}
    (h : video_convert m preload e = some m') : same_clock m m' := by
  unfold video_convert at h
  split_ifs at h
  · cases h
    exact same_clock_refl _
  · exact same_clock_after (video_format_stage_clock h) rfl

theorem next_video_clock {m m' : mp_media} {preload : Bool} {e : video_env}
    (h : mp_media_next_video m preload e = some m') : same_clock m m' := by
  unfold mp_media_next_video at h
  split_ifs at h
  · cases h
    exact rfl
  · cases h
    exact same_clock_refl _
  · cases h
    exact rfl
  · exact same_clock_after (video_convert_clock h) rfl
  · cases h
    exact same_clock_refl _
  · exact video_convert_clock h
  · split at h
    · cases h
    · exact same_clock_after (video_deliver_clock h) rfl

theorem next_audio_cached_clock {m m' : mp_media}
    (h : next_audio_cached m = some m') : same_clock m m' := by
  unfold next_audio_cached at h
  split at h
  · cases h
  · split_ifs at h
    cases h
    exact rfl

theorem next_audio_store_clock {m m' : mp_media} {audio : obs_source_audio}
    (h : next_audio_store m audio = some m') : same_clock m m' := by
  unfold next_audio_store at h
  split_ifs at h
  · split at h
    · cases h
    · exact same_clock_after (next_audio_cached_clock h) rfl
  · exact same_clock_after (next_audio_cached_clock h) rfl

theorem next_audio_clock {m m' : mp_media}
    (h : mp_media_next_audio m = some m') : same_clock m m' := by
  unfold mp_media_next_audio at h
  split_ifs at h
  · cases h
    exact rfl
  · cases h
    exact same_clock_refl _
  · cases h
    exact rfl
  · cases h
    exact rfl
  · exact same_clock_after (next_audio_store_clock h) rfl
  · cases h
    exact rfl
  · exact next_audio_cached_clock h

theorem reset_notify_clock {m m' : mp_media} {active stopping ok : Bool} {e : reset_env}
    (h : reset_notify m active stopping e = some (m', ok)) : same_clock m m' ∧ ok = true := by
  unfold reset_notify at h
  split at h
  · cases h
  · rename_i m1 hm1
    have hc : same_clock m m1 := by
      split_ifs at hm1
      · exact next_video_clock hm1
      · cases hm1
        exact same_clock_refl _
    split_ifs at h
    · cases h
      exact ⟨same_clock_after rfl hc, rfl⟩
    · cases h
      exact ⟨hc, rfl⟩

theorem reset_inactive_lowers_next_ns :
    idle_media.active = false ∧
      ∃ r, mp_media_reset idle_media restart_env = some (r, true) ∧
        r.next_ns = 0 ∧ ¬ (idle_media.next_ns ≤ r.next_ns) := by
  exact ⟨by decide, _, rfl, by decide, by decide⟩

theorem calc_next_ns_pts_goes_back :
    (back_media.has_video = true ∧ back_media.v.frame_ready = true) ∧
      (mp_media_calc_next_ns back_media).next_pts_ns = 5 ∧ back_media.next_pts_ns = 10 := by
  decide

theorem sleepto_next_ns_le (m : mp_media) (now : Int) (hnow : 0 ≤ now) : m.next_ns ≤ (mp_media_sleepto m now).1.next_ns := by
  unfold mp_media_sleepto
  simp only []
  split_ifs with h0 <;> (try dsimp only) <;> omega

theorem calc_next_ns_le (m : mp_media) (hn : inU64 m.next_ns)
    (hroom : m.next_ns + 3000000000 ≤ UINT64_MAX) :
    m.next_ns ≤ (mp_media_calc_next_ns m).next_ns := by
  unfold inU64 UINT64_MAX at hn
  unfold UINT64_MAX at hroom
  simp only [mp_media_calc_next_ns, wrapU64]
  split_ifs <;> omega

theorem reset_next_ns {m m' : mp_media} {e : reset_env}
    (h : mp_media_reset m e = some (m', true)) :
    m'.next_ns =
      if m.active = true then
        (if m.next_ns ≠ 0 then wrapU64 (m.next_ns + reset_offset m e) else m.next_ns)
      else 0 := by
  unfold mp_media_reset at h
  split_ifs at h with hok
  · simp at h
  · obtain ⟨hc, -⟩ := reset_notify_clock h
    rw [same_clock_next_ns hc]
    unfold reset_clock
    split_ifs <;> simp_all [mp_media_prepare_frames, reset_rebase, reset_flush]

theorem reset_failed_next_ns {m m' : mp_media} {e : reset_env}
    (h : mp_media_reset m e = some (m', false)) : m'.next_ns = m.next_ns := by
  unfold mp_media_reset at h
  split_ifs at h with hok
  · cases h
    rfl
  · obtain ⟨-, hf⟩ := reset_notify_clock h
    cases hf

/-- C3, as the code has it: `mp_media_sleepto` and `mp_media_calc_next_ns`
leave `next_ns` at or above its previous value (the `uint64_t` addition not
wrapping), a reset whose frame preparation fails leaves it as it was, and a
completed `mp_media_reset` sets it to 0 on an inactive session and, on an
active session, adds `offset = base_pts - next_pts_ns` to a non-zero `next_ns`,
which keeps it at or above its previous value when `0 <= offset` and the sum
fits 64 bits. -/
theorem next_ns_writes (m : mp_media) (now : Int) (e : reset_env)
    (hnow : 0 ≤ now) (hn : inU64 m.next_ns)
    (hroom : m.next_ns + 3000000000 ≤ UINT64_MAX) :
    m.next_ns ≤ (mp_media_sleepto m now).1.next_ns ∧
    m.next_ns ≤ (mp_media_calc_next_ns m).next_ns ∧
    (∀ m', mp_media_reset m e = some (m', false) → m'.next_ns = m.next_ns) ∧
    (∀ m', mp_media_reset m e = some (m', true) → m.active = false → m'.next_ns = 0) ∧
    (∀ m', mp_media_reset m e = some (m', true) → m.active = true →
      m'.next_ns = (if m.next_ns ≠ 0 then wrapU64 (m.next_ns + reset_offset m e)
        else m.next_ns) ∧
      (0 ≤ reset_offset m e → m.next_ns + reset_offset m e ≤ UINT64_MAX →
        m.next_ns ≤ m'.next_ns)) := by
  refine ⟨sleepto_next_ns_le m now hnow, calc_next_ns_le m hn hroom,
    fun m' h => reset_failed_next_ns h, ?_, ?_⟩
  · intro m' h hact
    rw [reset_next_ns h]
    simp [hact]
  · intro m' h hact
    have hv := reset_next_ns h
    rw [if_pos hact] at hv
    refine ⟨hv, fun h0 hfit => ?_⟩
    rw [hv]
    unfold inU64 UINT64_MAX at hn
    unfold UINT64_MAX at hfit
    unfold wrapU64
    split_ifs <;> omega

theorem next_ns_writes_witness :
    idle_media.next_ns ≤ (mp_media_sleepto idle_media 9000).1.next_ns ∧
      idle_media.next_ns ≤ (mp_media_calc_next_ns idle_media).next_ns := by
  have h := next_ns_writes idle_media 9000 restart_env (by decide) (by decide) (by decide)
  exact ⟨h.1, h.2.1⟩

/-- C4, as the code has it: `mp_media_calc_next_ns` sets `next_pts_ns` to the
minimum ready PTS, so a call leaves `next_pts_ns` at or above its previous
value exactly when no present ready frame has a PTS below that previous value;
a ready frame with a lower PTS moves `next_pts_ns` back to it. -/
theorem calc_next_ns_pts_monotone_iff (m : mp_media)
    (hv : inI64 m.v.frame_pts) (ha : inI64 m.a.frame_pts) (hp : inI64 m.next_pts_ns) :
    (mp_media_calc_next_ns m).next_pts_ns = mp_media_get_next_min_pts m ∧
    (m.next_pts_ns ≤ (mp_media_calc_next_ns m).next_pts_ns ↔
      ∀ p ∈ ready_pts m, m.next_pts_ns ≤ p) := by
  refine ⟨rfl, ?_⟩
  show m.next_pts_ns ≤ mp_media_get_next_min_pts m ↔ _
  by_cases hne : ready_pts m = []
  · have hmax : mp_media_get_next_min_pts m = INT64_MAX := by
      unfold ready_pts at hne
      unfold mp_media_get_next_min_pts
      by_cases h1 : m.has_video = true ∧ m.v.frame_ready = true
      · simp [h1] at hne
      · by_cases h2 : m.has_audio = true ∧ m.a.frame_ready = true
        · simp [h2] at hne
        · simp only [h1, h2, if_false]
    rw [hmax, hne]
    simp only [List.not_mem_nil, false_implies, implies_true, iff_true]
    exact hp.2
  · obtain ⟨hmem, hmin⟩ := get_next_min_pts_is_min m hv ha hne
    constructor
    · intro h p hpm
      exact le_trans h (hmin p hpm)
    · intro h
      exact h _ hmem

theorem calc_next_ns_pts_monotone_iff_witness :
    (mp_media_calc_next_ns jump_media).next_pts_ns = 5000000000 ∧
      jump_media.next_pts_ns ≤ (mp_media_calc_next_ns jump_media).next_pts_ns := by
  have h := calc_next_ns_pts_monotone_iff jump_media (by decide) (by decide) (by decide)
  exact ⟨h.1, h.2.2 (by decide)⟩

/-! ## Audio sample rate and playback speed -/

theorem build_audio_samples_per_sec (m : mp_media) (hs1 : 1 ≤ m.speed) (hs2 : m.speed ≤ 200)
    (hr : 0 ≤ m.a.frame.sample_rate) (hfit : m.a.frame.sample_rate * m.speed ≤ INT32_MAX) :
    (build_audio m).samples_per_sec = m.a.frame.sample_rate * m.speed / 100 := by
  have hnn : 0 ≤ m.a.frame.sample_rate * m.speed := Int.mul_nonneg hr (by omega)
  have h32 : wrapI32 (m.a.frame.sample_rate * m.speed) = m.a.frame.sample_rate * m.speed := by
    apply wrapI32_of_inI32
    unfold inI32 INT32_MIN
    exact ⟨by omega, hfit⟩
  unfold INT32_MAX at hfit
  simp only [build_audio, h32]
  rw [Int.tdiv_eq_ediv hnn (by norm_num)]
  unfold wrapU32
  omega

theorem map_set_same {α β : Type} (f : α → β) (l : List α) (i : Nat) (x y : α)
    (h : l.get? i = some y) (hf : f x = f y) : (l.set i x).map f = l.map f := by
  induction l generalizing i with
  | nil => rfl
  | cons a t ih =>
    cases i with
    | zero =>
      simp only [List.get?_cons_zero, Option.some.injEq] at h
      subst h
      simp [hf]
    | succ n =>
      simp only [List.get?_cons_succ] at h
      simp [ih n h]

theorem next_audio_cached_rates {m m' : mp_media} (h : next_audio_cached m = some m') :
    m'.audio.data.map (fun b => b.samples_per_sec)
      = m.audio.data.map (fun b => b.samples_per_sec) := by
  unfold next_audio_cached at h
  split at h
  · cases h
  · rename_i entry hentry
    split_ifs at h
    cases h
    unfold darray_get at hentry
    split_ifs at hentry with hi
    exact map_set_same _ _ _ _ _ hentry rfl

theorem next_audio_store_rates {m m' : mp_media} {audio : obs_source_audio}
    (h : next_audio_store m audio = some m') :
    m'.audio.data.map (fun b => b.samples_per_sec)
      = m.audio.data.map (fun b => b.samples_per_sec) ++ [audio.samples_per_sec] := by
  unfold next_audio_store at h
  split_ifs at h
  · split at h
    · cases h
    · rw [next_audio_cached_rates h]
      simp
  · rw [next_audio_cached_rates h]
    simp

theorem darray_get_append_length {α : Type} (l : List α) (x : α) (i : Int)
    (hi : i = l.length) : darray_get (l ++ [x]) i = some x := by
  unfold darray_get
  subst hi
  simp

theorem darray_get_pred_length {α : Type} (l : List α) (i : Int)
    (hi : i = l.length) (hpos : i > 0) : ∃ y, darray_get l (i - 1) = some y := by
  unfold darray_get
  subst hi
  have hlt : ((l.length : Int) - 1).toNat < l.length := by omega
  rw [if_pos (by omega), List.get?_eq_getElem?, List.getElem?_eq_getElem hlt]
  exact ⟨_, rfl⟩

theorem next_audio_cached_at_end (m : mp_media) (audio : obs_source_audio)
    (hidx : m.audio.index = m.audio.data.length) (hcb : m.a_cb = true) (r : Int) :
    ∃ m', next_audio_cached { m with audio := { m.audio with
        refresh_rate_ns := r, data := m.audio.data ++ [audio] } } = some m' ∧
      m'.log = m.log ++ [event.audio_cb
        { audio with timestamp := frame_timestamp m audio.dec_frame_pts }] ∧
      m'.audio.index = m.audio.index + 1 ∧
      m'.audio.data.length = m.audio.data.length + 1 := by
  unfold next_audio_cached
  simp only [darray_get_append_length m.audio.data audio m.audio.index hidx, hcb]
  refine ⟨_, rfl, rfl, rfl, ?_⟩
  simp

theorem next_audio_store_at_end (m : mp_media) (audio : obs_source_audio)
    (hidx : m.audio.index = m.audio.data.length) (hcb : m.a_cb = true) :
    ∃ m', next_audio_store m audio = some m' ∧
      m'.log = m.log ++ [event.audio_cb
        { audio with timestamp := frame_timestamp m audio.dec_frame_pts }] ∧
      m'.audio.index = m.audio.index + 1 ∧
      m'.audio.data.length = m.audio.data.length + 1 := by
  unfold next_audio_store
  split_ifs with hpos
  · obtain ⟨y, hy⟩ := darray_get_pred_length m.audio.data m.audio.index hidx hpos
    simp only [hy]
    exact next_audio_cached_at_end m audio hidx hcb _
  · exact next_audio_cached_at_end m audio hidx hcb m.audio.refresh_rate_ns

/-- C6: on a session with speed `s` in 1..200 and a decoded frame of sample
rate `r >= 0` with `r * s` within `int`, the buffer that `mp_media_next_audio`
builds from the frame (live decoding, frame due, audio callback present,
sample format known) reports `samples_per_sec = r * s / 100`, which is `r`
itself at speed 100; with caching off that buffer is the one delivered, with
caching on it is the one appended to the cache, and the one delivered when the
cursor stands at the end of the cache. -/
theorem next_audio_samples_per_sec (m : mp_media)
    (hs1 : 1 ≤ m.speed) (hs2 : m.speed ≤ 200) (hr : 0 ≤ m.a.frame.sample_rate)
    (hfit : m.a.frame.sample_rate * m.speed ≤ INT32_MAX)
    (hnowrap : ¬ (m.audio.index_eof > 0 ∧ m.audio.index = m.audio.index_eof))
    (hlive : m.audio.index_eof < 0 ∨ m.caching = false)
    (hplay : mp_media_can_play_frame m m.a = true) (hcb : m.a_cb = true)
    (hfmt : convert_sample_format m.a.frame.sample_format ≠ audio_format.UNKNOWN) :
    (build_audio m).samples_per_sec = m.a.frame.sample_rate * m.speed / 100 ∧
    (m.speed = 100 → (build_audio m).samples_per_sec = m.a.frame.sample_rate) ∧
    (m.caching = false →
      ∃ m', mp_media_next_audio m = some m' ∧
        m'.log = m.log ++ [event.audio_cb (build_audio m)]) ∧
    (m.caching = true → ∀ m', mp_media_next_audio m = some m' →
      m'.audio.data.map (fun b => b.samples_per_sec)
        = m.audio.data.map (fun b => b.samples_per_sec)
          ++ [m.a.frame.sample_rate * m.speed / 100]) ∧
    (m.caching = true → m.audio.index = m.audio.data.length →
      ∃ m' b, mp_media_next_audio m = some m' ∧ m'.log = m.log ++ [event.audio_cb b] ∧
        b.samples_per_sec = m.a.frame.sample_rate * m.speed / 100) := by
  have hrate := build_audio_samples_per_sec m hs1 hs2 hr hfit
  have hfmt' : ¬ (build_audio m).format = audio_format.UNKNOWN := hfmt
  have hcb' : ¬ m.a_cb = false := by simp [hcb]
  have hplay' : ¬ mp_media_can_play_frame m m.a = false := by simp [hplay]
  refine ⟨hrate, ?_, ?_, ?_, ?_⟩
  · intro h100
    rw [hrate, h100]
    omega
  · intro hc
    refine ⟨{ m with
      a := { m.a with frame_ready := false }
      log := m.log ++ [event.audio_cb (build_audio m)] }, ?_, rfl⟩
    unfold mp_media_next_audio
    rw [if_neg hnowrap, if_pos hlive, if_neg hplay', if_neg hcb', if_neg hfmt',
      if_neg (by simp [hc])]
  · intro hc m' h
    unfold mp_media_next_audio at h
    rw [if_neg hnowrap, if_pos hlive, if_neg hplay', if_neg hcb', if_neg hfmt',
      if_pos hc] at h
    rw [next_audio_store_rates h, hrate]
  · intro hc hidx
    obtain ⟨m', hm', hlog, -, -⟩ := next_audio_store_at_end
      { m with a := { m.a with frame_ready := false } } (build_audio m) hidx hcb
    refine ⟨m', _, ?_, hlog, hrate⟩
    unfold mp_media_next_audio
    rw [if_neg hnowrap, if_pos hlive, if_neg hplay', if_neg hcb', if_neg hfmt',
      if_pos hc]
    exact hm'

theorem next_audio_samples_per_sec_witness :
    (build_audio half_speed_media).samples_per_sec = 24000 ∧
      ∃ m', mp_media_next_audio half_speed_media = some m' ∧
        m'.log = half_speed_media.log ++ [event.audio_cb (build_audio half_speed_media)] := by
  have h := next_audio_samples_per_sec half_speed_media (by decide) (by decide) (by decide)
    (by decide) (by decide) (by decide) (by decide) (by decide) (by decide)
  exact ⟨h.1, h.2.2.1 (by decide)⟩

theorem mp_media_init_ok_iff (b : Int) (info : mp_media_info) (e : init_env) :
    (mp_media_init b info e).2 = true ↔
      (e.mutex_init_ret = 0 ∧ e.sem_init_ret = 0 ∧ e.pthread_create_ret = 0) := by
  unfold mp_media_init mp_media_init_internal
  by_cases h1 : e.mutex_init_ret = 0 <;> by_cases h2 : e.sem_init_ret = 0 <;>
    by_cases h3 : e.pthread_create_ret = 0 <;> simp [h1, h2, h3]

/-- C7: after an `mp_media_init` that returns true, the speed of the session is
`info.speed` when `info.is_local_file` holds and `1 <= info.speed <= 200`, and
100 in every other case, so it lies in 1..200. -/
theorem mp_media_init_speed (b : Int) (info : mp_media_info) (e : init_env)
    (hok : (mp_media_init b info e).2 = true) :
    (info.is_local_file = true ∧ 1 ≤ info.speed ∧ info.speed ≤ 200 →
      (mp_media_init b info e).1.speed = info.speed) ∧
    (info.is_local_file = false ∨ info.speed < 1 ∨ info.speed > 200 →
      (mp_media_init b info e).1.speed = 100) ∧
    1 ≤ (mp_media_init b info e).1.speed ∧ (mp_media_init b info e).1.speed ≤ 200 := by
  obtain ⟨h1, h2, h3⟩ := (mp_media_init_ok_iff b info e).mp hok
  have hspeed : (mp_media_init b info e).1.speed =
      if info.is_local_file = false ∨ info.speed < 1 ∨ info.speed > 200 then 100
      else info.speed := by
    unfold mp_media_init mp_media_init_internal
    simp [h1, h2, h3, init_config]
  rw [hspeed]
  refine ⟨?_, ?_, ?_, ?_⟩
  · rintro ⟨hl, ha, hb⟩
    rw [if_neg]
    simp only [hl, Bool.true_eq_false, false_or, not_or, not_lt]
    omega
  · intro h
    rw [if_pos h]
  · split_ifs with h
    · omega
    · simp only [not_or, not_lt] at h
      omega
  · split_ifs with h
    · omega
    · simp only [not_or, not_lt] at h
      omega

theorem mp_media_init_speed_witness :
    (mp_media_init 0 (local_info 50) good_init_env).1.speed = 50 ∧
      (mp_media_init 0 (local_info 250) good_init_env).1.speed = 100 := by
  have h1 := mp_media_init_speed 0 (local_info 50) good_init_env (by decide)
  have h2 := mp_media_init_speed 0 (local_info 250) good_init_env (by decide)
  exact ⟨h1.1 (by decide), h2.2.1 (by decide)⟩

/-! ## Cache admission -/

theorem init_avformat_caching (m : mp_media) (e : avformat_env)
    (hok : (init_avformat m e).2 = true) :
    (init_avformat m e).1.caching =
      if m.enable_caching = true then (m.looping && m.is_local_file && allow_cache e.fmt)
      else false := by
  unfold init_avformat at hok ⊢
  split_ifs at hok ⊢ <;> rfl

theorem mp_media_play_caching (m : mp_media) (loop : Bool) :
    (mp_media_play m loop).caching =
      match m.fmt with
      | some fmt =>
        if m.enable_caching = true then (loop && m.is_local_file && allow_cache fmt) else false
      | none => false := by
  rfl

/-- C8: for a video stream whose dimensions multiply within `int` and whose
estimated footprint `w * h * 1.5 * n` is at or above 1024 * 1000000 bytes,
`allow_cache` returns false, so neither `init_avformat` nor `mp_media_play`
turns caching on, whatever looping, local-file and caching-enabled are. -/
theorem allow_cache_rejects (fmt : format_info) (hvid : 0 ≤ fmt.video_stream_index)
    (hfit : inI32 (fmt.width * fmt.height))
    (hbig : (1024 * 1000000 : ℚ) ≤ (fmt.width : ℚ) * fmt.height * (3 / 2) * fmt.frames) :
    allow_cache fmt = false ∧
    (∀ m e, e.fmt = fmt → (init_avformat m e).2 = true →
      (init_avformat m e).1.caching = false) ∧
    (∀ m loop, m.fmt = some fmt → (mp_media_play m loop).caching = false) := by
  have hreject : allow_cache fmt = false := by
    unfold allow_cache
    rw [if_neg (by omega)]
    simp only [wrapI32_of_inI32 hfit, decide_eq_false_iff_not, not_lt]
    rw [le_div_iff₀ (by norm_num)]
    push_cast
    linarith
  refine ⟨hreject, ?_, ?_⟩
  · intro m e he hok
    rw [init_avformat_caching m e hok, he, hreject]
    simp
  · intro m loop hf
    rw [mp_media_play_caching m loop, hf]
    simp [hreject]

theorem allow_cache_rejects_witness :
    allow_cache big_format = false ∧
      (init_avformat looping_media (opened big_format)).1.caching = false ∧
      (mp_media_play { looping_media with fmt := some big_format } true).caching = false := by
  have h := allow_cache_rejects big_format (by decide) (by decide)
    (by simp only [big_format]; norm_num)
  exact ⟨h.1, h.2.1 looping_media (opened big_format) rfl (by decide),
    h.2.2 { looping_media with fmt := some big_format } true rfl⟩

/-- C9: the caching flag that `init_avformat` and `mp_media_play` compute is
true only if looping, `is_local_file` and `enable_caching` are true and
`allow_cache` admits the media; `mp_media_play(m, false)` leaves caching false,
and so does every computation on a session with `enable_caching` or
`is_local_file` false, in particular on a session opened by `mp_media_init`
with such an `info`. -/
theorem caching_only_when_admitted (m : mp_media) (e : avformat_env) (loop : Bool) :
    ((init_avformat m e).2 = true → (init_avformat m e).1.caching = true →
      m.looping = true ∧ m.is_local_file = true ∧ m.enable_caching = true ∧
        allow_cache e.fmt = true) ∧
    ((mp_media_play m loop).caching = true →
      loop = true ∧ m.is_local_file = true ∧ m.enable_caching = true ∧
        ∃ fmt, m.fmt = some fmt ∧ allow_cache fmt = true) ∧
    (mp_media_play m false).caching = false ∧
    (m.enable_caching = false ∨ m.is_local_file = false →
      (mp_media_play m loop).caching = false ∧
        ((init_avformat m e).2 = true → (init_avformat m e).1.caching = false)) ∧
    (∀ b info ie, info.enable_caching = false ∨ info.is_local_file = false →
      (init_avformat (mp_media_init b info ie).1 e).1.caching = false) := by
  refine ⟨?_, ?_, ?_, ?_, ?_⟩
  · intro hok hc
    rw [init_avformat_caching m e hok] at hc
    split_ifs at hc with hen
    simp only [Bool.and_eq_true] at hc
    exact ⟨hc.1.1, hc.1.2, hen, hc.2⟩
  · intro hc
    rw [mp_media_play_caching m loop] at hc
    split at hc
    · rename_i fmt hf
      split_ifs at hc with hen
      simp only [Bool.and_eq_true] at hc
      exact ⟨hc.1.1, hc.1.2, hen, fmt, hf, hc.2⟩
    · cases hc
  · rw [mp_media_play_caching m false]
    split <;> simp
  · intro h
    constructor
    · rw [mp_media_play_caching m loop]
      split
      · rcases h with h | h <;> simp [h]
      · rfl
    · intro hok
      rw [init_avformat_caching m e hok]
      rcases h with h | h <;> simp [h]
  · intro b info ie h
    have hinit : (mp_media_init b info ie).1.caching = false ∧
        ((mp_media_init b info ie).1.enable_caching = false ∨
          (mp_media_init b info ie).1.is_local_file = false) := by
      unfold mp_media_init mp_media_init_internal
      split_ifs <;> simp_all [zero_media, init_config]
    generalize (mp_media_init b info ie).1 = m0 at hinit
    obtain ⟨hc0, hflags⟩ := hinit
    by_cases hok : (init_avformat m0 e).2 = true
    · rw [init_avformat_caching m0 e hok]
      rcases hflags with h | h <;> simp [h]
    · unfold init_avformat at hok ⊢
      split_ifs at hok ⊢ <;> first | exact hc0 | simp at hok

/-! ## What frame delivery logs -/

theorem video_deliver_log {m m' : mp_media} {preload : Bool} {frame : obs_source_frame}
    (h : video_deliver m preload frame = some m') :
    m'.log = m.log ++ [video_event preload frame] := by
  unfold video_deliver at h
  unfold video_event
  split_ifs at h with hp <;> cases h <;> simp [hp]

theorem video_store_log {m m' : mp_media} {preload : Bool} {e : video_env}
    (h : video_store m preload e = some m') :
    ∃ f, m'.log = m.log ++ [video_event preload f] ∧ f.timestamp = m.obsframe.timestamp := by
  unfold video_store at h
  split_ifs at h
  · split at h
    · cases h
    · exact (have hl := video_deliver_log h; ⟨_, hl, rfl⟩)
  · exact (have hl := video_deliver_log h; ⟨_, hl, rfl⟩)
  · exact (have hl := video_deliver_log h; ⟨_, hl, rfl⟩)

theorem video_keyframe_log {m m' : mp_media} {preload : Bool} {e : video_env}
    (h : video_keyframe m preload e = some m') :
    m'.log = m.log ∨
      ∃ f, m'.log = m.log ++ [video_event preload f] ∧
        f.timestamp = m.obsframe.timestamp := by
  unfold video_keyframe at h
  split_ifs at h
  · cases h
    exact Or.inl rfl
  · exact (have hl := video_store_log h; Or.inr hl)
  · exact (have hl := video_store_log h; Or.inr hl)

theorem video_stamp_log {m m' : mp_media} {flip preload : Bool} {e : video_env}
    (h : video_stamp m flip preload e = some m') :
    m'.log = m.log ∨
      ∃ f, m'.log = m.log ++ [video_event preload f] ∧
        f.timestamp = frame_timestamp m m.v.frame_pts := by
  unfold video_stamp at h
  exact (have hl := video_keyframe_log h; hl)

theorem video_format_stage_log {m m' : mp_media} {flip preload : Bool} {e : video_env}
    (h : video_format_stage m flip preload e = some m') :
    m'.log = m.log ∨
      ∃ f, m'.log = m.log ++ [video_event preload f] ∧
        f.timestamp = frame_timestamp m m.v.frame_pts := by
  unfold video_format_stage at h
  split_ifs at h
  · cases h
    exact Or.inl rfl
  · cases h
    exact Or.inl rfl
  · exact (have hl := video_stamp_log h; hl)
  · cases h
    exact Or.inl rfl
  · exact (have hl := video_stamp_log h; hl)

theorem video_convert_log {m m' : mp_media} {preload : Bool} {e : video_env}
    (h : video_convert m preload e = some m') :
    m'.log = m.log ∨
      ∃ f, m'.log = m.log ++ [video_event preload f] ∧
        f.timestamp = frame_timestamp m m.v.frame_pts := by
  unfold video_convert at h
  split_ifs at h
  · cases h
    exact Or.inl rfl
  · exact (have hl := video_format_stage_log h; hl)

/-- A call of `mp_media_next_video` on a stream decoded live logs nothing or
one frame, stamped from the PTS of the decoded frame; a frame that goes to the
video callback was due. -/
theorem next_video_live_log {m m' : mp_media} {preload : Bool} {e : video_env}
    (hlive : m.video.index_eof < 0 ∨ m.caching = false)
    (h : mp_media_next_video m preload e = some m') :
    m'.log = m.log ∨
      ∃ f, m'.log = m.log ++ [video_event preload f] ∧
        f.timestamp = frame_timestamp m m.v.frame_pts ∧
        (preload = false → mp_media_can_play_frame m m.v = true) := by
  unfold mp_media_next_video at h
  split_ifs at h with hw hp hplay hcb hr
  · cases h
    exact Or.inl rfl
  · cases h
    exact Or.inl rfl
  · cases h
    exact Or.inl rfl
  · have hc := video_convert_log h
    rcases hc with hl | ⟨f, hf, ht⟩
    · exact Or.inl hl
    · exact Or.inr ⟨f, hf, ht, fun _ => by simpa using hplay⟩
  · cases h
    exact Or.inl rfl
  · rcases video_convert_log h with hl | ⟨f, hf, ht⟩
    · exact Or.inl hl
    · refine Or.inr ⟨f, hf, ht, fun hpf => absurd hpf hp⟩

/-- Any call of `mp_media_next_video` logs nothing or one video event. -/
theorem next_video_log {m m' : mp_media} {preload : Bool} {e : video_env}
    (h : mp_media_next_video m preload e = some m') :
    m'.log = m.log ∨ ∃ f, m'.log = m.log ++ [video_event preload f] := by
  by_cases hlive : m.video.index_eof < 0 ∨ m.caching = false
  · rcases next_video_live_log hlive h with hl | ⟨f, hf, -⟩
    · exact Or.inl hl
    · exact Or.inr ⟨f, hf⟩
  · unfold mp_media_next_video at h
    split_ifs at h
    · cases h
      exact Or.inl rfl
    · split at h
      · cases h
      · exact (have hl := video_deliver_log h; Or.inr ⟨_, hl⟩)

/-! ## The delivery gate -/

theorem gate_closed_cursor_moves :
    (wrapped_media.video.index_eof < 0 ∨ wrapped_media.caching = false) ∧
      wrapped_media.v.frame_ready = false ∧ wrapped_media.video.index = 2 ∧
      ∃ m', mp_media_next_video wrapped_media false good_video_env = some m' ∧
        m'.video.index = 0 := by
  exact ⟨by decide, by decide, by decide, _, rfl, by decide⟩

/-- C5, as the code has it: for a stream on its first pass (`index_eof < 0`, or
caching off) and a non-preload call, when the decoded frame is not ready or
its PTS is above `next_pts_ns`, `mp_media_next_video` (resp.
`mp_media_next_audio`) logs no callback and leaves `frame_ready` and both
caches as they were; the session is unchanged altogether unless the cursor
stands at a positive `index_eof`, in which case the cursors and `next_wait`
are reset to 0.  Hence a call that logs a delivery had a ready frame with
PTS at most `next_pts_ns`. -/
theorem gate_holds_frames (m : mp_media) (e : video_env) :
    (m.video.index_eof < 0 ∨ m.caching = false →
      ¬ (m.v.frame_ready = true ∧ m.v.frame_pts ≤ m.next_pts_ns) →
      ∃ m', mp_media_next_video m false e = some m' ∧ m'.log = m.log ∧
        m'.v.frame_ready = m.v.frame_ready ∧ m'.video.data = m.video.data ∧
        m'.audio.data = m.audio.data ∧
        (¬ (m.video.index_eof > 0 ∧ m.video.index = m.video.index_eof) → m' = m) ∧
        (m.video.index_eof > 0 ∧ m.video.index = m.video.index_eof →
          m' = cache_wraparound m)) ∧
    (m.audio.index_eof < 0 ∨ m.caching = false →
      ¬ (m.a.frame_ready = true ∧ m.a.frame_pts ≤ m.next_pts_ns) →
      ∃ m', mp_media_next_audio m = some m' ∧ m'.log = m.log ∧
        m'.a.frame_ready = m.a.frame_ready ∧ m'.video.data = m.video.data ∧
        m'.audio.data = m.audio.data ∧
        (¬ (m.audio.index_eof > 0 ∧ m.audio.index = m.audio.index_eof) → m' = m) ∧
        (m.audio.index_eof > 0 ∧ m.audio.index = m.audio.index_eof →
          m' = cache_wraparound m)) ∧
    (m.video.index_eof < 0 ∨ m.caching = false →
      ∀ m', mp_media_next_video m false e = some m' → m'.log ≠ m.log →
        m.v.frame_ready = true ∧ m.v.frame_pts ≤ m.next_pts_ns) ∧
    (m.audio.index_eof < 0 ∨ m.caching = false →
      ∀ m', mp_media_next_audio m = some m' → m'.log ≠ m.log →
        m.a.frame_ready = true ∧ m.a.frame_pts ≤ m.next_pts_ns) := by
  have hv : m.video.index_eof < 0 ∨ m.caching = false →
      ¬ (m.v.frame_ready = true ∧ m.v.frame_pts ≤ m.next_pts_ns) →
      ∃ m', mp_media_next_video m false e = some m' ∧ m'.log = m.log ∧
        m'.v.frame_ready = m.v.frame_ready ∧ m'.video.data = m.video.data ∧
        m'.audio.data = m.audio.data ∧
        (¬ (m.video.index_eof > 0 ∧ m.video.index = m.video.index_eof) → m' = m) ∧
        (m.video.index_eof > 0 ∧ m.video.index = m.video.index_eof →
          m' = cache_wraparound m) := by
    intro hlive hgate
    have hplay : mp_media_can_play_frame m m.v = false := by
      unfold mp_media_can_play_frame
      by_cases hr : m.v.frame_ready = true
      · have : ¬ m.v.frame_pts ≤ m.next_pts_ns := fun hle => hgate ⟨hr, hle⟩
        simp [this]
      · simp [hr]
    by_cases hw : m.video.index_eof > 0 ∧ m.video.index = m.video.index_eof
    · refine ⟨cache_wraparound m, ?_, rfl, rfl, rfl, rfl, fun hn => absurd hw hn, fun _ => rfl⟩
      unfold mp_media_next_video
      rw [if_pos hw]
    · refine ⟨m, ?_, rfl, rfl, rfl, rfl, fun _ => rfl, fun hn => absurd hn hw⟩
      unfold mp_media_next_video
      rw [if_neg hw, if_pos hlive, if_pos rfl, if_pos hplay]
  have ha : m.audio.index_eof < 0 ∨ m.caching = false →
      ¬ (m.a.frame_ready = true ∧ m.a.frame_pts ≤ m.next_pts_ns) →
      ∃ m', mp_media_next_audio m = some m' ∧ m'.log = m.log ∧
        m'.a.frame_ready = m.a.frame_ready ∧ m'.video.data = m.video.data ∧
        m'.audio.data = m.audio.data ∧
        (¬ (m.audio.index_eof > 0 ∧ m.audio.index = m.audio.index_eof) → m' = m) ∧
        (m.audio.index_eof > 0 ∧ m.audio.index = m.audio.index_eof →
          m' = cache_wraparound m) := by
    intro hlive hgate
    have hplay : mp_media_can_play_frame m m.a = false := by
      unfold mp_media_can_play_frame
      by_cases hr : m.a.frame_ready = true
      · have : ¬ m.a.frame_pts ≤ m.next_pts_ns := fun hle => hgate ⟨hr, hle⟩
        simp [this]
      · simp [hr]
    by_cases hw : m.audio.index_eof > 0 ∧ m.audio.index = m.audio.index_eof
    · refine ⟨cache_wraparound m, ?_, rfl, rfl, rfl, rfl, fun hn => absurd hw hn, fun _ => rfl⟩
      unfold mp_media_next_audio
      rw [if_pos hw]
    · refine ⟨m, ?_, rfl, rfl, rfl, rfl, fun _ => rfl, fun hn => absurd hn hw⟩
      unfold mp_media_next_audio
      rw [if_neg hw, if_pos hlive, if_pos hplay]
  refine ⟨hv, ha, ?_, ?_⟩
  · intro hlive m' h hlog
    by_contra hgate
    obtain ⟨m'', h'', hl, -⟩ := hv hlive hgate
    rw [h] at h''
    cases h''
    exact hlog hl
  · intro hlive m' h hlog
    by_contra hgate
    obtain ⟨m'', h'', hl, -⟩ := ha hlive hgate
    rw [h] at h''
    cases h''
    exact hlog hl

/-! ## End of stream -/

theorem stops_append (l₁ l₂ : List event) : stops (l₁ ++ l₂) = stops l₁ + stops l₂ := by
  unfold stops
  exact List.count_append _ _ _

theorem stops_video_event (preload : Bool) (f : obs_source_frame) :
    stops [video_event preload f] = 0 := by
  unfold stops video_event
  split_ifs <;> simp

theorem next_video_stops {m m' : mp_media} {preload : Bool} {e : video_env}
    (h : mp_media_next_video m preload e = some m') : stops m'.log = stops m.log := by
  rcases next_video_log h with hl | ⟨f, hf⟩
  · rw [hl]
  · rw [hf, stops_append, stops_video_event]
    rfl

theorem reset_notify_stops {m m' : mp_media} {active stopping ok : Bool} {e : reset_env}
    (h : reset_notify m active stopping e = some (m', ok)) :
    stops m'.log = stops m.log + (if stopping = true ∧ m.stop_cb = true then 1 else 0) := by
  unfold reset_notify at h
  split at h
  · cases h
  · rename_i m1 hm1
    have hs : stops m1.log = stops m.log ∧ m1.stop_cb = m.stop_cb := by
      split_ifs at hm1
      · exact ⟨next_video_stops hm1, congrArg delivery_fields.stop_cb (next_video_clock hm1)⟩
      · cases hm1
        exact ⟨rfl, rfl⟩
    rw [hs.2] at h
    split_ifs at h with hc
    · cases h
      show stops (m1.log ++ [event.stop]) = _
      rw [stops_append, hs.1, if_pos hc]
      rfl
    · cases h
      rw [hs.1, if_neg hc]
      rfl

/-- The stop callback is invoked by `mp_media_reset` exactly when the frames
were prepared, `stopping` was set on entry and a stop callback is
registered. -/
theorem reset_stops {m m' : mp_media} {ok : Bool} {e : reset_env}
    (h : mp_media_reset m e = some (m', ok)) :
    ok = e.prepare.ok ∧
    stops m'.log = stops m.log +
      (if e.prepare.ok = true ∧ m.stopping = true ∧ m.stop_cb = true then 1 else 0) := by
  unfold mp_media_reset at h
  have hprep : (mp_media_prepare_frames (reset_rebase m e) e.prepare).2 = e.prepare.ok := rfl
  rw [hprep] at h
  have hmark : stops (m.log ++ [event.reset_mark]) = stops m.log := by
    rw [stops_append]
    rfl
  split_ifs at h with hok
  · cases h
    refine ⟨hok.symm, ?_⟩
    rw [if_neg (by simp [hok])]
    exact hmark
  · have hn := reset_notify_stops h
    obtain ⟨-, hres⟩ := reset_notify_clock h
    have hok' : e.prepare.ok = true := by simpa using hok
    refine ⟨hres.trans hok'.symm, ?_⟩
    rw [hn]
    have hlog : stops (reset_clock (mp_media_prepare_frames (reset_rebase m e) e.prepare).1
        m.active (reset_offset m e) e.now).log = stops m.log := by
      unfold reset_clock
      split_ifs <;> exact hmark
    have hcb : (reset_clock (mp_media_prepare_frames (reset_rebase m e) e.prepare).1
        m.active (reset_offset m e) e.now).stop_cb = m.stop_cb := by
      unfold reset_clock reset_rebase reset_flush mp_media_prepare_frames
      split_ifs <;> rfl
    rw [hlog, hcb]
    simp [hok']

theorem eof_looping_invokes_stop :
    racing_media.looping = true ∧ no_ready_frame racing_media ∧
      ∃ m', mp_media_eof racing_media restart_env = some (m', true) ∧
        stops racing_media.log = 0 ∧ stops m'.log = 1 := by
  exact ⟨by decide, by decide, _, rfl, by decide, by decide⟩

/-- C10, as the code has it: `mp_media_eof` returns true exactly when no
present stream has a ready frame, and returns false leaving the session
unchanged otherwise.  On end of stream with looping enabled it hands `active`
and `stopping` to the reset as they were, so the reset invokes the stop
callback only if `stopping` was already set on entry; with looping disabled it
sets `active = false` and `stopping = true` before the reset, so the reset
invokes the stop callback when its frame preparation succeeds and a stop
callback is registered. -/
theorem mp_media_eof_detects (m : mp_media) (e : reset_env) :
    (no_ready_frame m →
      mp_media_eof m e
        = (mp_media_reset (mp_media_eof_flags m) e).map (fun r => (r.1, true))) ∧
    (¬ no_ready_frame m → mp_media_eof m e = some (m, false)) ∧
    (m.looping = true →
      (mp_media_eof_flags m).active = m.active ∧
        (mp_media_eof_flags m).stopping = m.stopping) ∧
    (m.looping = false →
      (mp_media_eof_flags m).active = false ∧ (mp_media_eof_flags m).stopping = true) ∧
    (∀ m' ok, no_ready_frame m → mp_media_eof m e = some (m', ok) →
      ok = true ∧
      (m.looping = true →
        stops m'.log = stops m.log +
          (if e.prepare.ok = true ∧ m.stopping = true ∧ m.stop_cb = true then 1 else 0)) ∧
      (m.looping = false →
        stops m'.log = stops m.log +
          (if e.prepare.ok = true ∧ m.stop_cb = true then 1 else 0))) := by
  have hdet : no_ready_frame m →
      mp_media_eof m e
        = (mp_media_reset (mp_media_eof_flags m) e).map (fun r => (r.1, true)) := by
    intro hno
    unfold no_ready_frame at hno
    unfold mp_media_eof
    have heof : ((!m.has_video || !m.v.frame_ready) && (!m.has_audio || !m.a.frame_ready))
        = true := by
      obtain ⟨h1, h2⟩ := hno
      cases hv : m.has_video <;> cases hr : m.v.frame_ready <;> cases ha : m.has_audio <;>
        cases hs : m.a.frame_ready <;> simp_all
    simp only [heof, if_true]
    cases mp_media_reset (mp_media_eof_flags m) e with
    | none => rfl
    | some r => rfl
  have hflags_loop : m.looping = true →
      (mp_media_eof_flags m).active = m.active ∧
        (mp_media_eof_flags m).stopping = m.stopping := by
    intro hl
    unfold mp_media_eof_flags
    simp [hl]
  have hflags_stop : m.looping = false →
      (mp_media_eof_flags m).active = false ∧ (mp_media_eof_flags m).stopping = true := by
    intro hl
    unfold mp_media_eof_flags
    simp [hl]
  have hcb : (mp_media_eof_flags m).stop_cb = m.stop_cb ∧
      (mp_media_eof_flags m).log = m.log := by
    unfold mp_media_eof_flags
    split_ifs <;> exact ⟨rfl, rfl⟩
  refine ⟨hdet, ?_, hflags_loop, hflags_stop, ?_⟩
  · intro hready
    unfold no_ready_frame at hready
    unfold mp_media_eof
    have heof : ((!m.has_video || !m.v.frame_ready) && (!m.has_audio || !m.a.frame_ready))
        = false := by
      cases hv : m.has_video <;> cases hr : m.v.frame_ready <;> cases ha : m.has_audio <;>
        cases hs : m.a.frame_ready <;> simp_all
    simp [heof]
  · intro m' ok hno h
    rw [hdet hno] at h
    cases hr : mp_media_reset (mp_media_eof_flags m) e with
    | none =>
      rw [hr] at h
      cases h
    | some r =>
      rw [hr] at h
      simp only [Option.map_some', Option.some.injEq, Prod.mk.injEq] at h
      obtain ⟨hm, hok⟩ := h
      subst hm
      have hr' : mp_media_reset (mp_media_eof_flags m) e = some (r.1, r.2) := hr
      have hs := (reset_stops hr').2
      rw [hcb.1, hcb.2] at hs
      refine ⟨hok.symm, ?_, ?_⟩
      · intro hl
        rw [hs, (hflags_loop hl).2]
      · intro hl
        rw [hs, (hflags_stop hl).2]
        simp

/-! ## Delivered timestamps within one loop pass -/

theorem video_stamps_append (l₁ l₂ : List event) :
    video_stamps (l₁ ++ l₂) = video_stamps l₁ ++ video_stamps l₂ := by
  unfold video_stamps
  exact List.filterMap_append _ _ _

theorem audio_stamps_append (l₁ l₂ : List event) :
    audio_stamps (l₁ ++ l₂) = audio_stamps l₁ ++ audio_stamps l₂ := by
  unfold audio_stamps
  exact List.filterMap_append _ _ _

theorem pass_kept_of_same_clock {m m' : mp_media} (h : same_clock m m') :
    pass_kept m' = pass_kept m := by
  have h1 : m'.base_ts = m.base_ts := congrArg delivery_fields.base_ts h
  have h2 : m'.start_ts = m.start_ts := congrArg delivery_fields.start_ts h
  have h3 : m'.play_sys_ts = m.play_sys_ts := congrArg delivery_fields.play_sys_ts h
  have h4 : m'.base_sys_ts = m.base_sys_ts := congrArg delivery_fields.base_sys_ts h
  have h5 : m'.caching = m.caching := congrArg delivery_fields.caching h
  have h6 : m'.video.index_eof = m.video.index_eof :=
    congrArg delivery_fields.video_index_eof h
  have h7 : m'.audio.index_eof = m.audio.index_eof :=
    congrArg delivery_fields.audio_index_eof h
  unfold pass_kept
  rw [h1, h2, h3, h4, h5, h6, h7]

theorem frame_timestamp_of_pass_kept {m m' : mp_media} (h : pass_kept m' = pass_kept m)
    (pts : Int) : frame_timestamp m' pts = frame_timestamp m pts := by
  have h1 : m'.base_ts = m.base_ts := congrArg pass_fields.base_ts h
  have h2 : m'.start_ts = m.start_ts := congrArg pass_fields.start_ts h
  have h3 : m'.play_sys_ts = m.play_sys_ts := congrArg pass_fields.play_sys_ts h
  have h4 : m'.base_sys_ts = m.base_sys_ts := congrArg pass_fields.base_sys_ts h
  unfold frame_timestamp
  rw [h1, h2, h3, h4]

/-! The video stages leave the audio cache alone. -/

theorem video_deliver_audio {m m' : mp_media} {preload : Bool} {frame : obs_source_frame}
    (h : video_deliver m preload frame = some m') : m'.audio = m.audio := by
  unfold video_deliver at h
  split_ifs at h <;> cases h <;> rfl

theorem video_store_audio {m m' : mp_media} {preload : Bool} {e : video_env}
    (h : video_store m preload e = some m') : m'.audio = m.audio := by
  unfold video_store at h
  split_ifs at h
  · split at h
    · cases h
    · exact (have hl := video_deliver_audio h; hl)
  · exact (have hl := video_deliver_audio h; hl)
  · exact video_deliver_audio h

theorem video_keyframe_audio {m m' : mp_media} {preload : Bool} {e : video_env}
    (h : video_keyframe m preload e = some m') : m'.audio = m.audio := by
  unfold video_keyframe at h
  split_ifs at h
  · cases h
    rfl
  · exact (have hl := video_store_audio h; hl)
  · exact video_store_audio h

theorem video_stamp_audio {m m' : mp_media} {flip preload : Bool} {e : video_env}
    (h : video_stamp m flip preload e = some m') : m'.audio = m.audio := by
  unfold video_stamp at h
  exact (have hl := video_keyframe_audio h; hl)

theorem video_format_stage_audio {m m' : mp_media} {flip preload : Bool} {e : video_env}
    (h : video_format_stage m flip preload e = some m') : m'.audio = m.audio := by
  unfold video_format_stage at h
  split_ifs at h
  · cases h
    rfl
  · cases h
    rfl
  · exact (have hl := video_stamp_audio h; hl)
  · cases h
    rfl
  · exact video_stamp_audio h

theorem video_convert_audio {m m' : mp_media} {preload : Bool} {e : video_env}
    (h : video_convert m preload e = some m') : m'.audio = m.audio := by
  unfold video_convert at h
  split_ifs at h
  · cases h
    rfl
  · exact (have hl := video_format_stage_audio h; hl)

theorem next_video_audio {m m' : mp_media} {preload : Bool} {e : video_env}
    (hw : ¬ (m.video.index_eof > 0 ∧ m.video.index = m.video.index_eof))
    (h : mp_media_next_video m preload e = some m') : m'.audio = m.audio := by
  unfold mp_media_next_video at h
  rw [if_neg hw] at h
  split_ifs at h
  · cases h
    rfl
  · cases h
    rfl
  · exact (have hl := video_convert_audio h; hl)
  · cases h
    rfl
  · exact video_convert_audio h
  · split at h
    · cases h
    · exact (have hl := video_deliver_audio h; hl)

theorem next_audio_cached_log {m m' : mp_media} (h : next_audio_cached m = some m') :
    ∃ b, m'.log = m.log ++ [event.audio_cb b] := by
  unfold next_audio_cached at h
  split at h
  · cases h
  · split_ifs at h
    cases h
    exact ⟨_, rfl⟩

theorem next_audio_store_log {m m' : mp_media} {audio : obs_source_audio}
    (h : next_audio_store m audio = some m') :
    ∃ b, m'.log = m.log ++ [event.audio_cb b] := by
  unfold next_audio_store at h
  split_ifs at h
  · split at h
    · cases h
    · exact (have hl := next_audio_cached_log h; hl)
  · exact (have hl := next_audio_cached_log h; hl)

/-- Any call of `mp_media_next_audio` logs nothing or one audio event. -/
theorem next_audio_log {m m' : mp_media} (h : mp_media_next_audio m = some m') :
    m'.log = m.log ∨ ∃ b, m'.log = m.log ++ [event.audio_cb b] := by
  unfold mp_media_next_audio at h
  split_ifs at h
  · cases h
    exact Or.inl rfl
  · cases h
    exact Or.inl rfl
  · cases h
    exact Or.inl rfl
  · cases h
    exact Or.inl rfl
  · exact (have hl := next_audio_store_log h; Or.inr hl)
  · cases h
    exact Or.inr ⟨_, rfl⟩
  · exact Or.inr (next_audio_cached_log h)

/-- A call of `mp_media_next_audio` on a stream decoded live logs nothing or
one buffer, stamped from the PTS of the decoded frame, and keeps the cursor at
the end of a cache that is filling. -/
theorem next_audio_live_log {m m' : mp_media} (hlive : audio_live m)
    (h : mp_media_next_audio m = some m') :
    (m'.log = m.log ∨
      ∃ b, m'.log = m.log ++ [event.audio_cb b] ∧
        b.timestamp = frame_timestamp m m.a.frame_pts) ∧
    (m.caching = true → m'.audio.index = m'.audio.data.length) := by
  obtain ⟨hmode, hbook⟩ := hlive
  unfold mp_media_next_audio at h
  split_ifs at h with hw hplay hcb hfmt hc
  · cases h
    refine ⟨Or.inl rfl, fun hc => ?_⟩
    rcases hmode with hneg | hoff
    · omega
    · rw [hc] at hoff
      cases hoff
  · cases h
    exact ⟨Or.inl rfl, fun hc => (hbook hc).1⟩
  · cases h
    exact ⟨Or.inl rfl, fun hc => (hbook hc).1⟩
  · cases h
    exact ⟨Or.inl rfl, fun hc => (hbook hc).1⟩
  · have hcb' : m.a_cb = true := by simpa using hcb
    obtain ⟨m'', hm'', hlog, hidx, hlen⟩ := next_audio_store_at_end
      { m with a := { m.a with frame_ready := false } } (build_audio m) (hbook hc).1 hcb'
    rw [h] at hm''
    cases hm''
    refine ⟨Or.inr ⟨_, hlog, rfl⟩, fun _ => ?_⟩
    rw [hidx, hlen]
    have := (hbook hc).1
    simp only [this]
    push_cast
    rfl
  · cases h
    refine ⟨Or.inr ⟨_, rfl, rfl⟩, fun hc' => absurd hc' hc⟩

theorem reset_notify_log {m m' : mp_media} {active stopping ok : Bool} {e : reset_env}
    (h : reset_notify m active stopping e = some (m', ok)) :
    ∃ evs, m'.log = m.log ++ evs := by
  unfold reset_notify at h
  split at h
  · cases h
  · rename_i m1 hm1
    have hl : ∃ evs, m1.log = m.log ++ evs := by
      split_ifs at hm1
      · rcases next_video_log hm1 with hl | ⟨f, hf⟩
        · exact ⟨[], by rw [hl, List.append_nil]⟩
        · exact ⟨_, hf⟩
      · cases hm1
        exact ⟨[], by rw [List.append_nil]⟩
    obtain ⟨evs, hevs⟩ := hl
    split_ifs at h
    · cases h
      exact ⟨evs ++ [event.stop], by
        show m1.log ++ [event.stop] = _
        rw [hevs, List.append_assoc]⟩
    · cases h
      exact ⟨evs, hevs⟩

/-- Every `mp_media_reset` leaves its mark in the log. -/
theorem reset_log {m m' : mp_media} {ok : Bool} {e : reset_env}
    (h : mp_media_reset m e = some (m', ok)) :
    ∃ evs, m'.log = m.log ++ evs ∧ event.reset_mark ∈ evs := by
  unfold mp_media_reset at h
  split_ifs at h
  · cases h
    exact ⟨[event.reset_mark], rfl, List.mem_singleton.mpr rfl⟩
  · obtain ⟨evs, hevs⟩ := reset_notify_log h
    have hlog : (reset_clock (mp_media_prepare_frames (reset_rebase m e) e.prepare).1
        m.active (reset_offset m e) e.now).log = m.log ++ [event.reset_mark] := by
      unfold reset_clock
      split_ifs <;> rfl
    rw [hlog, List.append_assoc] at hevs
    exact ⟨_, hevs, List.mem_append_left _ (List.mem_singleton.mpr rfl)⟩

theorem eof_log {m m' : mp_media} {ok : Bool} {e : reset_env}
    (h : mp_media_eof m e = some (m', ok)) :
    (ok = false ∧ m' = m) ∨
      (ok = true ∧ ∃ evs, m'.log = m.log ++ evs ∧ event.reset_mark ∈ evs) := by
  unfold mp_media_eof at h
  simp only at h
  split_ifs at h
  · split at h
    · cases h
    · rename_i m2 ok2 hr
      cases h
      obtain ⟨evs, hevs, hmem⟩ := reset_log hr
      have hfl : (mp_media_eof_flags m).log = m.log := by
        unfold mp_media_eof_flags
        split_ifs <;> rfl
      rw [hfl] at hevs
      exact Or.inr ⟨rfl, evs, hevs, hmem⟩
  · cases h
    exact Or.inl ⟨rfl, rfl⟩

theorem thread_iter_finish_next {m m1 : mp_media} {e : iter_env}
    (h : thread_iter_finish m e = thread_step.next m1) :
    m1 = mp_media_calc_next_ns m ∨
      ∃ evs, m1.log = m.log ++ evs ∧ event.reset_mark ∈ evs := by
  unfold thread_iter_finish at h
  split at h
  · cases h
  · rename_i m2 he
    cases h
    rcases eof_log he with ⟨hf, -⟩ | ⟨-, hr⟩
    · cases hf
    · exact Or.inr hr
  · rename_i m2 he
    cases h
    rcases eof_log he with ⟨-, hm⟩ | ⟨hf, -⟩
    · rw [hm]
      exact Or.inl rfl
    · cases hf

theorem video_stamps_video_event (f : obs_source_frame) :
    video_stamps [video_event false f] = [f.timestamp] := rfl

theorem video_stamps_audio_cb (b : obs_source_audio) :
    video_stamps [event.audio_cb b] = [] := rfl

theorem audio_stamps_video_event (f : obs_source_frame) :
    audio_stamps [video_event false f] = [] := rfl

theorem audio_stamps_audio_cb (b : obs_source_audio) :
    audio_stamps [event.audio_cb b] = [b.timestamp] := rfl

theorem live_branch_of_live {m : mp_media} (h : video_live m ∨ audio_live m) :
    m.audio.index_eof < 0 ∨ m.video.index_eof < 0 ∨ m.caching = false := by
  unfold video_live audio_live at h
  rcases h with (h | h) | ⟨h | h, -⟩
  · exact Or.inr (Or.inl h)
  · exact Or.inr (Or.inr h)
  · exact Or.inl h
  · exact Or.inr (Or.inr h)

theorem video_live_congr {m m' : mp_media} (h : pass_kept m' = pass_kept m) :
    video_live m' ↔ video_live m := by
  have h5 : m'.caching = m.caching := congrArg pass_fields.caching h
  have h6 : m'.video.index_eof = m.video.index_eof := congrArg pass_fields.video_index_eof h
  unfold video_live
  rw [h5, h6]

theorem audio_live_congr {m m' : mp_media} (h : pass_kept m' = pass_kept m)
    (ha : m'.audio.index = m.audio.index ∧ m'.audio.data = m.audio.data) :
    audio_live m' ↔ audio_live m := by
  have h5 : m'.caching = m.caching := congrArg pass_fields.caching h
  have h6 : m'.video.index_eof = m.video.index_eof := congrArg pass_fields.video_index_eof h
  have h7 : m'.audio.index_eof = m.audio.index_eof := congrArg pass_fields.audio_index_eof h
  unfold audio_live
  rw [h5, h6, h7, ha.1, ha.2]

theorem thread_iter_prepare_next {fuel : Nat} {m m1 : mp_media} {e : iter_env}
    (hbranch : m.audio.index_eof < 0 ∨ m.video.index_eof < 0 ∨ m.caching = false)
    (h : thread_iter_prepare fuel m e = thread_step.next m1) :
    (m1.log = m.log ∧ pass_kept m1 = pass_kept m ∧ m1.v.frame_pts = e.prepare.v.frame_pts ∧
        m1.a.frame_pts = e.prepare.a.frame_pts ∧ m1.audio = m.audio) ∨
      ∃ evs, m1.log = m.log ++ evs ∧ event.reset_mark ∈ evs := by
  unfold thread_iter_prepare at h
  rw [if_pos hbranch] at h
  split_ifs at h
  rcases thread_iter_finish_next h with hm | hr
  · rw [hm]
    exact Or.inl ⟨rfl, rfl, rfl, rfl, rfl⟩
  · exact Or.inr hr

theorem thread_iter_audio_next {fuel : Nat} {m m1 : mp_media} {e : iter_env}
    (hbranch : m.audio.index_eof < 0 ∨ m.video.index_eof < 0 ∨ m.caching = false)
    (h : thread_iter_audio fuel m e = thread_step.next m1) :
    ∃ evs, m1.log = m.log ++ evs ∧
      (event.reset_mark ∈ evs ∨
        (pass_kept m1 = pass_kept m ∧ m1.v.frame_pts = e.prepare.v.frame_pts ∧
          m1.a.frame_pts = e.prepare.a.frame_pts ∧ video_stamps evs = [] ∧
          (audio_live m →
            (audio_stamps evs = [] ∨ audio_stamps evs = [frame_timestamp m m.a.frame_pts]) ∧
            (m.caching = true → m1.audio.index = m1.audio.data.length)))) := by
  unfold thread_iter_audio at h
  split_ifs at h with hha
  · split at h
    · cases h
    · rename_i m3 hm3
      have hc := next_audio_clock hm3
      have hpk := pass_kept_of_same_clock hc
      have hbranch3 : m3.audio.index_eof < 0 ∨ m3.video.index_eof < 0 ∨ m3.caching = false := by
        have h5 : m3.caching = m.caching := congrArg pass_fields.caching hpk
        have h6 : m3.video.index_eof = m.video.index_eof :=
          congrArg pass_fields.video_index_eof hpk
        have h7 : m3.audio.index_eof = m.audio.index_eof :=
          congrArg pass_fields.audio_index_eof hpk
        rw [h5, h6, h7]
        exact hbranch
      have hlog3 : ∃ l3, m3.log = m.log ++ l3 ∧ video_stamps l3 = [] ∧
          (audio_live m →
            (audio_stamps l3 = [] ∨ audio_stamps l3 = [frame_timestamp m m.a.frame_pts]) ∧
            (m.caching = true → m3.audio.index = m3.audio.data.length)) := by
        rcases next_audio_log hm3 with hl | ⟨b, hb⟩
        · refine ⟨[], by rw [hl, List.append_nil], rfl, fun hlive => ?_⟩
          exact ⟨Or.inl rfl, (next_audio_live_log hlive hm3).2⟩
        · refine ⟨_, hb, rfl, fun hlive => ?_⟩
          obtain ⟨hst, hbk⟩ := next_audio_live_log hlive hm3
          refine ⟨?_, hbk⟩
          rcases hst with hl | ⟨b', hb', ht⟩
          · rw [hl] at hb
            have := congrArg List.length hb
            simp at this
          · rw [hb] at hb'
            have hbb := List.append_cancel_left hb'
            simp only [List.cons.injEq, event.audio_cb.injEq, and_true] at hbb
            subst hbb
            exact Or.inr (by rw [audio_stamps_audio_cb, ht])
      obtain ⟨l3, hl3, hv3, ha3⟩ := hlog3
      rcases thread_iter_prepare_next hbranch3 h with ⟨hl, hp, hvp, hap, hau⟩ | ⟨evs, hevs, hmem⟩
      · refine ⟨l3, by rw [hl, hl3], Or.inr ⟨hp.trans hpk, hvp, hap, hv3, fun hlive => ?_⟩⟩
        obtain ⟨hs, hbk⟩ := ha3 hlive
        exact ⟨hs, fun hcach => by rw [hau]; exact hbk hcach⟩
      · exact ⟨l3 ++ evs, by rw [hevs, hl3, List.append_assoc],
          Or.inl (List.mem_append_right _ hmem)⟩
  · rcases thread_iter_prepare_next hbranch h with ⟨hl, hp, hvp, hap, hau⟩ | ⟨evs, hevs, hmem⟩
    · refine ⟨[], by rw [hl, List.append_nil], Or.inr ⟨hp, hvp, hap, rfl, fun hlive => ?_⟩⟩
      refine ⟨Or.inl rfl, fun hcach => ?_⟩
      rw [hau]
      exact (hlive.2 hcach).1
    · exact ⟨evs, hevs, Or.inl hmem⟩

theorem next_video_keeps_audio_live {m m' : mp_media} {e : video_env}
    (h : mp_media_next_video m false e = some m') (hlive : audio_live m) :
    audio_live m' ∧ frame_timestamp m' m'.a.frame_pts = frame_timestamp m m.a.frame_pts ∧
      m'.caching = m.caching := by
  have hc := next_video_clock h
  have hpk := pass_kept_of_same_clock hc
  have h5 : m'.caching = m.caching := congrArg pass_fields.caching hpk
  have h6 : m'.video.index_eof = m.video.index_eof := congrArg pass_fields.video_index_eof hpk
  have h7 : m'.audio.index_eof = m.audio.index_eof := congrArg pass_fields.audio_index_eof hpk
  have hpts : m'.a.frame_pts = m.a.frame_pts := congrArg delivery_fields.a_frame_pts hc
  refine ⟨?_, by rw [hpts, frame_timestamp_congr hc], h5⟩
  obtain ⟨hmode, hbook⟩ := hlive
  unfold audio_live
  rw [h5, h6, h7]
  refine ⟨hmode, fun hcach => ?_⟩
  obtain ⟨hidx, hnw⟩ := hbook hcach
  have hau : m'.audio = m.audio := next_video_audio (fun hw => hnw hw.1) h
  rw [hau]
  exact ⟨hidx, hnw⟩

theorem thread_iter_video_next {fuel : Nat} {m m1 : mp_media} {e : iter_env}
    (hlive : video_live m ∨ audio_live m)
    (h : thread_iter_video fuel m e = thread_step.next m1) :
    ∃ evs, m1.log = m.log ++ evs ∧ (event.reset_mark ∈ evs ∨ iter_pumped m m1 e evs) := by
  unfold thread_iter_video at h
  split_ifs at h with hhv
  · split at h
    · cases h
    · rename_i m2 hm2
      have hc := next_video_clock hm2
      have hpk := pass_kept_of_same_clock hc
      have hbranch2 : m2.audio.index_eof < 0 ∨ m2.video.index_eof < 0 ∨ m2.caching = false := by
        have h5 : m2.caching = m.caching := congrArg pass_fields.caching hpk
        have h6 : m2.video.index_eof = m.video.index_eof :=
          congrArg pass_fields.video_index_eof hpk
        have h7 : m2.audio.index_eof = m.audio.index_eof :=
          congrArg pass_fields.audio_index_eof hpk
        rw [h5, h6, h7]
        exact live_branch_of_live hlive
      have hlog2 : ∃ l2, m2.log = m.log ++ l2 ∧ audio_stamps l2 = [] ∧
          (video_live m →
            video_stamps l2 = [] ∨ video_stamps l2 = [frame_timestamp m m.v.frame_pts]) := by
        rcases next_video_log hm2 with hl | ⟨f, hf⟩
        · exact ⟨[], by rw [hl, List.append_nil], rfl, fun _ => Or.inl rfl⟩
        · refine ⟨_, hf, rfl, fun hvl => ?_⟩
          rcases next_video_live_log hvl hm2 with hl | ⟨f', hf', ht, -⟩
          · rw [hl] at hf
            have := congrArg List.length hf
            simp at this
          · rw [hf] at hf'
            have hff := List.append_cancel_left hf'
            simp only [video_event, Bool.false_eq_true, if_false, List.cons.injEq,
              event.video.injEq, and_true] at hff
            subst hff
            exact Or.inr (by rw [video_stamps_video_event, ht])
      obtain ⟨l2, hl2, ha2, hv2⟩ := hlog2
      obtain ⟨evs, hevs, hres⟩ := thread_iter_audio_next hbranch2 h
      refine ⟨l2 ++ evs, by rw [hevs, hl2, List.append_assoc], ?_⟩
      rcases hres with hmem | ⟨hp, hvp, hap, hvs, haud⟩
      · exact Or.inl (List.mem_append_right _ hmem)
      · refine Or.inr ⟨hp.trans hpk, hvp, hap, fun hvl => ?_, fun hal => ?_⟩
        · rw [video_stamps_append, hvs, List.append_nil]
          exact hv2 hvl
        · obtain ⟨hal2, hts, hcach⟩ := next_video_keeps_audio_live hm2 hal
          obtain ⟨hs, hbk⟩ := haud hal2
          rw [audio_stamps_append, ha2, List.nil_append, ← hts]
          exact ⟨hs, fun hcm => hbk (hcach.trans hcm)⟩
  · obtain ⟨evs, hevs, hres⟩ := thread_iter_audio_next (live_branch_of_live hlive) h
    refine ⟨evs, hevs, ?_⟩
    rcases hres with hmem | ⟨hp, hvp, hap, hvs, haud⟩
    · exact Or.inl hmem
    · exact Or.inr ⟨hp, hvp, hap, fun _ => Or.inl hvs, haud⟩

/-! The log only grows. -/

theorem log_extends_refl (m : mp_media) : log_extends m m :=
  ⟨[], by rw [List.append_nil]⟩

theorem log_extends_of_eq {m m' : mp_media} (h : m'.log = m.log) : log_extends m m' :=
  ⟨[], by rw [h, List.append_nil]⟩

theorem log_extends_trans {a b c : mp_media} (h1 : log_extends a b) (h2 : log_extends b c) :
    log_extends a c := by
  obtain ⟨e1, h1⟩ := h1
  obtain ⟨e2, h2⟩ := h2
  exact ⟨e1 ++ e2, by rw [h2, h1, List.append_assoc]⟩

theorem next_video_extends {m m' : mp_media} {preload : Bool} {e : video_env}
    (h : mp_media_next_video m preload e = some m') : log_extends m m' := by
  rcases next_video_log h with hl | ⟨f, hf⟩
  · exact log_extends_of_eq hl
  · exact ⟨_, hf⟩

theorem next_audio_extends {m m' : mp_media}
    (h : mp_media_next_audio m = some m') : log_extends m m' := by
  rcases next_audio_log h with hl | ⟨f, hf⟩
  · exact log_extends_of_eq hl
  · exact ⟨_, hf⟩

theorem sleepto_effect (m : mp_media) (now : Int) :
    ∃ sl, (mp_media_sleepto m now).1.log = m.log ++ sl ∧ video_stamps sl = [] ∧
      audio_stamps sl = [] ∧ event.reset_mark ∉ sl ∧
      pass_kept (mp_media_sleepto m now).1 = pass_kept m ∧
      (mp_media_sleepto m now).1.v = m.v ∧ (mp_media_sleepto m now).1.a = m.a ∧
      (mp_media_sleepto m now).1.audio = m.audio ∧
      (mp_media_sleepto m now).1.video = m.video := by
  unfold mp_media_sleepto
  simp only []
  split_ifs
  · exact ⟨[], by simp, rfl, rfl, by simp, rfl, rfl, rfl, rfl, rfl⟩
  · exact ⟨_, rfl, rfl, rfl, by simp, rfl, rfl, rfl, rfl, rfl⟩
  · exact ⟨_, rfl, rfl, rfl, by simp, rfl, rfl, rfl, rfl, rfl⟩

theorem catch_up_loop_extends (fuel : Nat) :
    ∀ (m m' : mp_media) (t : Int), catch_up_loop fuel m t = thread_step.next m' →
      log_extends m m' := by
  induction fuel with
  | zero =>
    intro m m' t h
    unfold catch_up_loop at h
    cases h
  | succ n ih =>
    intro m m' t h
    unfold catch_up_loop at h
    simp only [] at h
    split_ifs at h with h1 h2 h3
    · split at h
      · cases h
      · rename_i m2 hm2
        exact log_extends_trans (log_extends_trans ⟨_, rfl⟩ (next_audio_extends hm2))
          (ih _ _ _ h)
    · split at h
      · cases h
      · rename_i m2 hm2
        exact log_extends_trans (log_extends_trans ⟨_, rfl⟩ (next_audio_extends hm2))
          (ih _ _ _ h)
    · split at h
      · cases h
      · rename_i m2 hm2
        exact log_extends_trans (log_extends_trans ⟨_, rfl⟩ (next_audio_extends hm2))
          (ih _ _ _ h)
    · cases h
      exact log_extends_refl _

theorem thread_iter_replay_extends {fuel : Nat} {m m' : mp_media}
    (h : thread_iter_replay fuel m = thread_step.next m') : log_extends m m' := by
  unfold thread_iter_replay at h
  simp only [] at h
  split at h
  · rename_i m2 hm2
    cases h
    split_ifs at hm2
    · exact (have hl := catch_up_loop_extends fuel _ _ _ hm2; hl)
    · cases hm2
      exact ⟨_, rfl⟩
  · rename_i r hr
    exact absurd h (hr m')

theorem thread_iter_finish_extends {m m' : mp_media} {e : iter_env}
    (h : thread_iter_finish m e = thread_step.next m') : log_extends m m' := by
  rcases thread_iter_finish_next h with hm | ⟨evs, hevs, -⟩
  · rw [hm]
    exact log_extends_of_eq rfl
  · exact ⟨evs, hevs⟩

theorem thread_iter_prepare_extends {fuel : Nat} {m m' : mp_media} {e : iter_env}
    (h : thread_iter_prepare fuel m e = thread_step.next m') : log_extends m m' := by
  unfold thread_iter_prepare at h
  split_ifs at h
  · exact (have hl := thread_iter_finish_extends h; hl)
  · split at h
    · rename_i m2 hm2
      exact log_extends_trans (thread_iter_replay_extends hm2) (thread_iter_finish_extends h)
    · rename_i r hr
      rw [h] at hr
      exact absurd rfl (hr m')

theorem thread_iter_audio_extends {fuel : Nat} {m m' : mp_media} {e : iter_env}
    (h : thread_iter_audio fuel m e = thread_step.next m') : log_extends m m' := by
  unfold thread_iter_audio at h
  split_ifs at h
  · split at h
    · cases h
    · rename_i m2 hm2
      exact log_extends_trans (next_audio_extends hm2) (thread_iter_prepare_extends h)
  · exact thread_iter_prepare_extends h

theorem thread_iter_video_extends {fuel : Nat} {m m' : mp_media} {e : iter_env}
    (h : thread_iter_video fuel m e = thread_step.next m') : log_extends m m' := by
  unfold thread_iter_video at h
  split_ifs at h
  · split at h
    · cases h
    · rename_i m2 hm2
      exact log_extends_trans (next_video_extends hm2) (thread_iter_audio_extends h)
  · exact thread_iter_audio_extends h

theorem thread_iter_flags_extends {fuel : Nat} {m m' : mp_media} {ia tmo : Bool}
    {e : iter_env} (h : thread_iter_flags fuel m ia tmo e = thread_step.next m') :
    log_extends m m' := by
  unfold thread_iter_flags at h
  split_ifs at h
  · split at h
    · cases h
    · rename_i m2 ok hr
      cases h
      obtain ⟨evs, hevs, -⟩ := reset_log hr
      exact ⟨evs, hevs⟩
  · exact (have hl := thread_iter_video_extends h; hl)
  · cases h
    exact log_extends_of_eq rfl

theorem thread_iter_extends {fuel : Nat} {m m' : mp_media} {e : iter_env}
    (h : mp_media_thread_iter fuel m e = thread_step.next m') : log_extends m m' := by
  unfold mp_media_thread_iter at h
  split_ifs at h
  · exact thread_iter_flags_extends h
  · obtain ⟨sl, hsl, -⟩ := sleepto_effect m e.now
    exact log_extends_trans ⟨sl, hsl⟩ (thread_iter_flags_extends h)

theorem thread_loop_extends (fuel : Nat) (es : List iter_env) :
    ∀ (m m' : mp_media), mp_media_thread_loop fuel m es = thread_step.next m' →
      log_extends m m' := by
  induction es with
  | nil =>
    intro m m' h
    unfold mp_media_thread_loop at h
    cases h
    exact log_extends_refl _
  | cons e es ih =>
    intro m m' h
    unfold mp_media_thread_loop at h
    split at h
    · rename_i m2 hm2
      exact log_extends_trans (thread_iter_extends hm2) (ih _ _ h)
    · rename_i r hr
      rw [h] at hr
      exact absurd rfl (hr m')

theorem audio_live_of_pumped {m m1 : mp_media} (hpk : pass_kept m1 = pass_kept m)
    (hal : audio_live m) (hbk : m.caching = true → m1.audio.index = m1.audio.data.length) :
    audio_live m1 := by
  have h5 : m1.caching = m.caching := congrArg pass_fields.caching hpk
  have h6 : m1.video.index_eof = m.video.index_eof := congrArg pass_fields.video_index_eof hpk
  have h7 : m1.audio.index_eof = m.audio.index_eof := congrArg pass_fields.audio_index_eof hpk
  unfold audio_live at hal ⊢
  rw [h5, h6, h7]
  exact ⟨hal.1, fun hc => ⟨hbk hc, (hal.2 hc).2⟩⟩

theorem thread_iter_flags_pass {fuel : Nat} {m m1 : mp_media} {ia tmo : Bool} {e : iter_env}
    (hlive : video_live m ∨ audio_live m)
    (h : thread_iter_flags fuel m ia tmo e = thread_step.next m1) :
    ∃ evs, m1.log = m.log ++ evs ∧ (event.reset_mark ∈ evs ∨ iter_pass m m1 e evs) := by
  unfold thread_iter_flags at h
  split_ifs at h
  · split at h
    · cases h
    · rename_i m2 ok hr
      cases h
      obtain ⟨evs, hevs, hmem⟩ := reset_log hr
      exact ⟨evs, hevs, Or.inl hmem⟩
  · obtain ⟨evs, hevs, hres⟩ :=
      thread_iter_video_next (m := { m with reset := false, kill := false }) hlive h
    refine ⟨evs, hevs, ?_⟩
    rcases hres with hmem | ⟨hpk, hvp, hap, hvid, haud⟩
    · exact Or.inl hmem
    · refine Or.inr ⟨hpk, fun hvl => Or.inr ⟨hvid hvl, hvp⟩, fun hal => ?_⟩
      obtain ⟨hs, hbk⟩ := haud hal
      exact ⟨audio_live_of_pumped hpk hal hbk, Or.inr ⟨hs, hap⟩⟩
  · cases h
    refine ⟨[], by simp, Or.inr ⟨rfl, fun _ => Or.inl ⟨rfl, rfl⟩, fun hal => ?_⟩⟩
    exact ⟨hal, Or.inl ⟨rfl, rfl⟩⟩

theorem iter_pass_after_sleep {m ms m1 : mp_media} {e : iter_env} {sl evs : List event}
    (hpk : pass_kept ms = pass_kept m) (hv : ms.v = m.v) (ha : ms.a = m.a)
    (hau : ms.audio = m.audio) (hsv : video_stamps sl = []) (hsa : audio_stamps sl = [])
    (h : iter_pass ms m1 e evs) : iter_pass m m1 e (sl ++ evs) := by
  obtain ⟨hp, hvid, haud⟩ := h
  have hvl : video_live ms ↔ video_live m := video_live_congr hpk
  have hal : audio_live ms ↔ audio_live m := audio_live_congr hpk (by rw [hau]; exact ⟨rfl, rfl⟩)
  have hts : ∀ p, frame_timestamp ms p = frame_timestamp m p :=
    frame_timestamp_of_pass_kept hpk
  refine ⟨hp.trans hpk, fun hl => ?_, fun hl => ?_⟩
  · have := hvid (hvl.mpr hl)
    rw [video_stamps_append, hsv, List.nil_append, ← hv, ← hts]
    exact this
  · have := haud (hal.mpr hl)
    rw [audio_stamps_append, hsa, List.nil_append, ← ha, ← hts]
    exact this

theorem thread_iter_pass {fuel : Nat} {m m1 : mp_media} {e : iter_env}
    (hlive : video_live m ∨ audio_live m)
    (h : mp_media_thread_iter fuel m e = thread_step.next m1) :
    ∃ evs, m1.log = m.log ++ evs ∧ (event.reset_mark ∈ evs ∨ iter_pass m m1 e evs) := by
  unfold mp_media_thread_iter at h
  split_ifs at h
  · exact thread_iter_flags_pass hlive h
  · obtain ⟨sl, hsl, hsv, hsa, hnm, hpk, hv, ha, hau, -⟩ := sleepto_effect m e.now
    have hlive' : video_live (mp_media_sleepto m e.now).1 ∨
        audio_live (mp_media_sleepto m e.now).1 := by
      rcases hlive with hl | hl
      · exact Or.inl ((video_live_congr hpk).mpr hl)
      · exact Or.inr ((audio_live_congr hpk (by rw [hau]; exact ⟨rfl, rfl⟩)).mpr hl)
    obtain ⟨evs, hevs, hres⟩ := thread_iter_flags_pass hlive' h
    refine ⟨sl ++ evs, by rw [hevs, hsl, List.append_assoc], ?_⟩
    rcases hres with hmem | hpass
    · exact Or.inl (List.mem_append_right _ hmem)
    · exact Or.inr (iter_pass_after_sleep hpk hv ha hau hsv hsa hpass)

theorem sublist_cons_insert {α : Type} {ps l : List α} (x y : α)
    (h : ps.Sublist (x :: l)) : ps.Sublist (x :: y :: l) :=
  h.trans (List.Sublist.cons₂ x (List.sublist_cons_self y l))

/-- Along iterations of the worker loop that log no reset, the timestamps
delivered for a stream decoded live are the stamps of a subsequence of the PTS
values its decoder held, in the order the decoder produced them. -/
theorem thread_loop_pass (fuel : Nat) (es : List iter_env) :
    ∀ (m m' : mp_media) (evs : List event),
      mp_media_thread_loop fuel m es = thread_step.next m' →
      (video_live m ∨ audio_live m) → m'.log = m.log ++ evs → event.reset_mark ∉ evs →
      pass_kept m' = pass_kept m ∧
      (video_live m →
        ∃ ps : List Int, video_stamps evs = ps.map (frame_timestamp m) ∧
          ps.Sublist (m.v.frame_pts :: es.map (fun e => e.prepare.v.frame_pts))) ∧
      (audio_live m → audio_live m' ∧
        ∃ ps : List Int, audio_stamps evs = ps.map (frame_timestamp m) ∧
          ps.Sublist (m.a.frame_pts :: es.map (fun e => e.prepare.a.frame_pts))) := by
  induction es with
  | nil =>
    intro m m' evs h _ hlog _
    unfold mp_media_thread_loop at h
    cases h
    have hnil : evs = [] := by
      have := congrArg List.length hlog
      simpa using this
    subst hnil
    exact ⟨rfl, fun _ => ⟨[], rfl, List.nil_sublist _⟩,
      fun hal => ⟨hal, [], rfl, List.nil_sublist _⟩⟩
  | cons e es ih =>
    intro m m' evs h hlive hlog hpass
    unfold mp_media_thread_loop at h
    cases hm1 : mp_media_thread_iter fuel m e with
    | exit m2 r =>
      rw [hm1] at h
      cases h
    | undefined =>
      rw [hm1] at h
      cases h
    | no_fuel =>
      rw [hm1] at h
      cases h
    | next m1 =>
      rw [hm1] at h
      simp only at h
      obtain ⟨evs1, hevs1, hres⟩ := thread_iter_pass hlive hm1
      obtain ⟨evs2, hevs2⟩ := thread_loop_extends fuel es _ _ h
      have hsplit : evs = evs1 ++ evs2 := by
        rw [hevs2, hevs1, List.append_assoc] at hlog
        exact (List.append_cancel_left hlog).symm
      subst hsplit
      have hpass1 : event.reset_mark ∉ evs1 := fun hm => hpass (List.mem_append_left _ hm)
      have hpass2 : event.reset_mark ∉ evs2 := fun hm => hpass (List.mem_append_right _ hm)
      rcases hres with hmem | ⟨hpk1, hvid, haud⟩
      · exact absurd hmem hpass1
      · have hlive1 : video_live m1 ∨ audio_live m1 := by
          rcases hlive with hl | hl
          · exact Or.inl ((video_live_congr hpk1).mpr hl)
          · exact Or.inr (haud hl).1
        obtain ⟨hpk2, hv2, ha2⟩ := ih m1 m' evs2 h hlive1 hevs2 hpass2
        have hts : ∀ p, frame_timestamp m1 p = frame_timestamp m p :=
          frame_timestamp_of_pass_kept hpk1
        have hfun : frame_timestamp m1 = frame_timestamp m := funext hts
        refine ⟨hpk2.trans hpk1, fun hvl => ?_, fun hal => ?_⟩
        · obtain ⟨ps2, hps2, hsub2⟩ := hv2 ((video_live_congr hpk1).mpr hvl)
          rw [hfun] at hps2
          rw [video_stamps_append]
          rcases hvid hvl with ⟨hs1, hkeep⟩ | ⟨hs1 | hs1, hnew⟩
          · rw [hkeep] at hsub2
            exact ⟨ps2, by rw [hs1, hps2, List.nil_append], sublist_cons_insert _ _ hsub2⟩
          · rw [hnew] at hsub2
            exact ⟨ps2, by rw [hs1, hps2, List.nil_append], List.Sublist.cons _ hsub2⟩
          · rw [hnew] at hsub2
            exact ⟨m.v.frame_pts :: ps2, by rw [hs1, hps2]; rfl, List.Sublist.cons₂ _ hsub2⟩
        · obtain ⟨hal1, hcase⟩ := haud hal
          obtain ⟨hal', ps2, hps2, hsub2⟩ := ha2 hal1
          rw [hfun] at hps2
          rw [audio_stamps_append]
          refine ⟨hal', ?_⟩
          rcases hcase with ⟨hs1, hkeep⟩ | ⟨hs1 | hs1, hnew⟩
          · rw [hkeep] at hsub2
            exact ⟨ps2, by rw [hs1, hps2, List.nil_append], sublist_cons_insert _ _ hsub2⟩
          · rw [hnew] at hsub2
            exact ⟨ps2, by rw [hs1, hps2, List.nil_append], List.Sublist.cons _ hsub2⟩
          · rw [hnew] at hsub2
            exact ⟨m.a.frame_pts :: ps2, by rw [hs1, hps2]; rfl, List.Sublist.cons₂ _ hsub2⟩

theorem frame_timestamp_exact {m : mp_media} {pts : Int} (h : stamp_fits m pts) :
    frame_timestamp m pts = m.base_ts + pts - m.start_ts + m.play_sys_ts - m.base_sys_ts := by
  unfold stamp_fits UINT64_MAX at h
  unfold frame_timestamp wrapU64 wrapI64
  omega

theorem stamps_sorted {m : mp_media} {ps l : List Int} (hsub : ps.Sublist l)
    (hsorted : l.Pairwise (fun a b => a ≤ b)) (hfit : ∀ p ∈ l, stamp_fits m p) :
    (ps.map (frame_timestamp m)).Pairwise (fun a b => a ≤ b) := by
  rw [List.pairwise_map]
  have hps : ps.Pairwise (fun a b => a ≤ b) := hsorted.sublist hsub
  refine hps.imp_of_mem ?_
  intro a b ha hb hab
  rw [frame_timestamp_exact (hfit a (hsub.subset ha)),
    frame_timestamp_exact (hfit b (hsub.subset hb))]
  omega

theorem stamps_follow_decoder_back :
    ∃ m', mp_media_thread_loop 0 pass_media
        [pump_env (ready_decode 5) zero_decode, pump_env (ready_decode 20) zero_decode]
          = thread_step.next m' ∧
      video_stamps m'.log = [4010, 4005] ∧ event.reset_mark ∉ m'.log := by
  exact ⟨_, rfl, by decide, by decide⟩

/-- C2, as the code has it: over iterations of the worker that perform no
reset, the timestamps delivered through the video callback (resp. the audio
callback) for a stream decoded live are `base_ts + pts - start_ts +
play_sys_ts - base_sys_ts` for a subsequence `pts` of the PTS values its
decoder reported, in the order it reported them; so two frames delivered one
after the other have non-decreasing timestamps when the decoder's PTS values
are non-decreasing and the timestamps fit 64 bits. -/
theorem live_pass_stamps (fuel : Nat) (m m' : mp_media) (es : List iter_env)
    (evs : List event)
    (hrun : mp_media_thread_loop fuel m es = thread_step.next m')
    (hlog : m'.log = m.log ++ evs) (hpass : event.reset_mark ∉ evs) :
    (video_live m →
      (∃ ps : List Int, video_stamps evs = ps.map (frame_timestamp m) ∧
        ps.Sublist (m.v.frame_pts :: es.map (fun e => e.prepare.v.frame_pts))) ∧
      ((m.v.frame_pts :: es.map (fun e => e.prepare.v.frame_pts)).Pairwise
          (fun a b => a ≤ b) →
        (∀ p ∈ m.v.frame_pts :: es.map (fun e => e.prepare.v.frame_pts), stamp_fits m p) →
        (video_stamps evs).Pairwise (fun a b => a ≤ b))) ∧
    (audio_live m →
      (∃ ps : List Int, audio_stamps evs = ps.map (frame_timestamp m) ∧
        ps.Sublist (m.a.frame_pts :: es.map (fun e => e.prepare.a.frame_pts))) ∧
      ((m.a.frame_pts :: es.map (fun e => e.prepare.a.frame_pts)).Pairwise
          (fun a b => a ≤ b) →
        (∀ p ∈ m.a.frame_pts :: es.map (fun e => e.prepare.a.frame_pts), stamp_fits m p) →
        (audio_stamps evs).Pairwise (fun a b => a ≤ b))) := by
  constructor
  · intro hvl
    obtain ⟨-, hv, -⟩ := thread_loop_pass fuel es m m' evs hrun (Or.inl hvl) hlog hpass
    obtain ⟨ps, hps, hsub⟩ := hv hvl
    refine ⟨⟨ps, hps, hsub⟩, fun hsorted hfit => ?_⟩
    rw [hps]
    exact stamps_sorted hsub hsorted hfit
  · intro hal
    obtain ⟨-, -, ha⟩ := thread_loop_pass fuel es m m' evs hrun (Or.inr hal) hlog hpass
    obtain ⟨-, ps, hps, hsub⟩ := ha hal
    refine ⟨⟨ps, hps, hsub⟩, fun hsorted hfit => ?_⟩
    rw [hps]
    exact stamps_sorted hsub hsorted hfit

theorem live_pass_stamps_witness :
    video_stamps ((loop_result pass_media
        [pump_env (ready_decode 15) zero_decode, pump_env (ready_decode 20) zero_decode]).log.drop
          pass_media.log.length) = [4010, 4015] ∧
      (video_stamps ((loop_result pass_media
        [pump_env (ready_decode 15) zero_decode, pump_env (ready_decode 20) zero_decode]).log.drop
          pass_media.log.length)).Pairwise (fun a b => a ≤ b) := by
  have h := live_pass_stamps 0 pass_media
    (loop_result pass_media
      [pump_env (ready_decode 15) zero_decode, pump_env (ready_decode 20) zero_decode])
    [pump_env (ready_decode 15) zero_decode, pump_env (ready_decode 20) zero_decode]
    ((loop_result pass_media
      [pump_env (ready_decode 15) zero_decode, pump_env (ready_decode 20) zero_decode]).log.drop
        pass_media.log.length)
    (by decide) (by decide) (by decide)
  exact ⟨by decide, (h.1 (by decide)).2 (by decide) (by decide)⟩

/-! ## Cache replay -/

/-! What the video stages do to the caches. -/

theorem video_deliver_effect {m m' : mp_media} {preload : Bool} {frame : obs_source_frame}
    (h : video_deliver m preload frame = some m') :
    m'.audio = m.audio ∧ m'.next_wait = m.next_wait ∧ m'.v = m.v ∧ m'.video = m.video ∧
      m'.log = m.log ++ [video_event preload frame] := by
  unfold video_deliver at h
  unfold video_event
  split_ifs at h with hp <;> cases h <;> simp [hp]

theorem video_store_effect {m m' : mp_media} {preload : Bool} {e : video_env}
    (h : video_store m preload e = some m') : cache_effect m m' preload ∧ m'.v.frame_ready = m.v.frame_ready := by
  unfold video_store at h
  unfold cache_effect
  split_ifs at h with hc hi
  · split at h
    · cases h
    · obtain ⟨ha, hw, hv, hvid, hl⟩ := video_deliver_effect h
      refine ⟨⟨ha, hw, Or.inr ⟨_, hl, fun hf => ?_, fun _ => ?_⟩⟩, by rw [hv]⟩
      · rw [hc] at hf
        cases hf
      · rw [hvid]
        exact ⟨rfl, rfl, rfl⟩
  · obtain ⟨ha, hw, hv, hvid, hl⟩ := video_deliver_effect h
    refine ⟨⟨ha, hw, Or.inr ⟨_, hl, fun hf => ?_, fun _ => ?_⟩⟩, by rw [hv]⟩
    · rw [hc] at hf
      cases hf
    · rw [hvid]
      exact ⟨rfl, rfl, rfl⟩
  · obtain ⟨ha, hw, hv, hvid, hl⟩ := video_deliver_effect h
    exact ⟨⟨ha, hw, Or.inr ⟨_, hl, fun _ => hvid, fun ht => absurd ht hc⟩⟩, by rw [hv]⟩

theorem video_keyframe_effect {m m' : mp_media} {preload : Bool} {e : video_env}
    (h : video_keyframe m preload e = some m') : cache_effect m m' preload ∧ m'.v.frame_ready = m.v.frame_ready := by
  unfold video_keyframe at h
  split_ifs at h
  · cases h
    exact ⟨⟨rfl, rfl, Or.inl ⟨rfl, rfl⟩⟩, rfl⟩
  · exact (have hl := video_store_effect h; hl)
  · exact video_store_effect h

theorem video_stamp_effect {m m' : mp_media} {flip preload : Bool} {e : video_env}
    (h : video_stamp m flip preload e = some m') : cache_effect m m' preload ∧ m'.v.frame_ready = m.v.frame_ready := by
  unfold video_stamp at h
  exact (have hl := video_keyframe_effect h; hl)

theorem video_format_stage_effect {m m' : mp_media} {flip preload : Bool} {e : video_env}
    (h : video_format_stage m flip preload e = some m') : cache_effect m m' preload ∧ m'.v.frame_ready = m.v.frame_ready := by
  unfold video_format_stage at h
  split_ifs at h
  · cases h
    exact ⟨⟨rfl, rfl, Or.inl ⟨rfl, rfl⟩⟩, rfl⟩
  · cases h
    exact ⟨⟨rfl, rfl, Or.inl ⟨rfl, rfl⟩⟩, rfl⟩
  · exact (have hl := video_stamp_effect h; hl)
  · cases h
    exact ⟨⟨rfl, rfl, Or.inl ⟨rfl, rfl⟩⟩, rfl⟩
  · exact video_stamp_effect h

theorem video_convert_effect {m m' : mp_media} {preload : Bool} {e : video_env}
    (h : video_convert m preload e = some m') : cache_effect m m' preload ∧ m'.v.frame_ready = m.v.frame_ready := by
  unfold video_convert at h
  split_ifs at h
  · cases h
    exact ⟨⟨rfl, rfl, Or.inl ⟨rfl, rfl⟩⟩, rfl⟩
  · exact (have hl := video_format_stage_effect h; hl)


/-- What a call of `mp_media_next_video` does to the caches: the wraparound,
a live call, or the replay of the entry under the cursor. -/
theorem next_video_effect {m m' : mp_media} {preload : Bool} {e : video_env}
    (h : mp_media_next_video m preload e = some m') :
    (m.video.index_eof > 0 ∧ m.video.index = m.video.index_eof ∧ m' = cache_wraparound m) ∨
    (¬ (m.video.index_eof > 0 ∧ m.video.index = m.video.index_eof) ∧
      (m.video.index_eof < 0 ∨ m.caching = false) ∧ cache_effect m m' preload ∧
      (preload = true → m'.v.frame_ready = m.v.frame_ready)) ∨
    (¬ (m.video.index_eof > 0 ∧ m.video.index = m.video.index_eof) ∧
      ¬ (m.video.index_eof < 0 ∨ m.caching = false) ∧
      ∃ f, darray_get m.video.data m.video.index = some f ∧
        m'.log = m.log ++ [video_event preload f] ∧
        m'.video = { m.video with index := m.video.index + 1 } ∧
        m'.audio = m.audio ∧ m'.next_wait = m.next_wait ∧ m'.v = m.v) := by
  unfold mp_media_next_video at h
  split_ifs at h with hw hlive hp hplay hcb hr
  · cases h
    exact Or.inl ⟨hw.1, hw.2, rfl⟩
  · cases h
    exact Or.inr (Or.inl ⟨hw, hlive, ⟨rfl, rfl, Or.inl ⟨rfl, rfl⟩⟩, fun _ => rfl⟩)
  · cases h
    exact Or.inr (Or.inl ⟨hw, hlive, ⟨rfl, rfl, Or.inl ⟨rfl, rfl⟩⟩,
      fun hpt => by rw [hp] at hpt; cases hpt⟩)
  · have hc := (video_convert_effect h).1
    exact Or.inr (Or.inl ⟨hw, hlive, hc, fun hpt => by rw [hp] at hpt; cases hpt⟩)
  · cases h
    exact Or.inr (Or.inl ⟨hw, hlive, ⟨rfl, rfl, Or.inl ⟨rfl, rfl⟩⟩, fun _ => rfl⟩)
  · have hc := video_convert_effect h
    exact Or.inr (Or.inl ⟨hw, hlive, hc.1, fun _ => hc.2⟩)
  · split at h
    · cases h
    · rename_i f hf
      obtain ⟨ha, hwt, hv, hvid, hl⟩ := video_deliver_effect h
      exact Or.inr (Or.inr ⟨hw, hlive, f, hf, hl, hvid, ha, hwt, hv⟩)

/-- A call of `mp_media_next_audio` that is not the wraparound leaves the video
cache and `next_wait` alone. -/
theorem next_audio_cached_video {m m' : mp_media} (h : next_audio_cached m = some m') :
    m'.video = m.video ∧ m'.next_wait = m.next_wait ∧
      m'.audio.data.length = m.audio.data.length ∧
      m'.audio.index_eof = m.audio.index_eof := by
  unfold next_audio_cached at h
  split at h
  · cases h
  · split_ifs at h
    cases h
    exact ⟨rfl, rfl, by simp, rfl⟩

/-- C15. In cache-replay mode (caching on, `audio.index_eof >= 0`,
`audio.index < audio.index_eof`) the buffer that `mp_media_next_audio`
delivers is the cached entry at the old `audio.index` with its timestamp
rewritten to `base_ts + dec_frame_pts - start_ts + play_sys_ts - base_sys_ts`,
`dec_frame_pts` being the decode-time PTS retained in the entry, which is not
modified; the rewritten entry is also what the cache holds afterwards, and
`audio.index` advances by exactly 1.  The call delivers whenever the cursor is
inside the cache and an audio callback is registered. -/
theorem next_audio_replays_entry (m : mp_media)
    (hc : m.caching = true) (heof : 0 ≤ m.audio.index_eof)
    (hlt : m.audio.index < m.audio.index_eof) :
    (∀ m', mp_media_next_audio m = some m' →
      ∃ entry b, darray_get m.audio.data m.audio.index = some entry ∧
        m'.log = m.log ++ [event.audio_cb b] ∧
        b = { entry with timestamp := frame_timestamp m entry.dec_frame_pts } ∧
        b.dec_frame_pts = entry.dec_frame_pts ∧
        (stamp_fits m entry.dec_frame_pts →
          b.timestamp = m.base_ts + entry.dec_frame_pts - m.start_ts + m.play_sys_ts
            - m.base_sys_ts) ∧
        m'.audio.index = m.audio.index + 1 ∧
        darray_get m'.audio.data m.audio.index = some b ∧
        m'.audio.data.length = m.audio.data.length) ∧
    (0 ≤ m.audio.index → m.audio.index < m.audio.data.length → m.a_cb = true →
      ∃ m', mp_media_next_audio m = some m') := by
  have hw : ¬ (m.audio.index_eof > 0 ∧ m.audio.index = m.audio.index_eof) := by omega
  have hlive : ¬ (m.audio.index_eof < 0 ∨ m.caching = false) := by
    rw [hc]
    simp only [Bool.true_eq_false, or_false, not_lt]
    exact heof
  have hcall : mp_media_next_audio m = next_audio_cached m := by
    unfold mp_media_next_audio
    rw [if_neg hw, if_neg hlive]
  rw [hcall]
  constructor
  · intro m' h
    unfold next_audio_cached at h
    cases hg : darray_get m.audio.data m.audio.index with
    | none =>
      rw [hg] at h
      cases h
    | some entry =>
      rw [hg] at h
      simp only at h
      split_ifs at h
      cases h
      refine ⟨entry, _, rfl, rfl, rfl, rfl, fun hfit => frame_timestamp_exact hfit, rfl, ?_, ?_⟩
      · unfold darray_get at hg ⊢
        split_ifs at hg with h0
        simp only [h0, if_true]
        have hlen : m.audio.index.toNat < m.audio.data.length := by
          rcases Nat.lt_or_ge m.audio.index.toNat m.audio.data.length with hl | hl
          · exact hl
          · rw [List.get?_eq_none.mpr hl] at hg
            cases hg
        simp [List.getElem?_set_self, hlen]
      · simp
  · intro h0 hlen hcb
    unfold next_audio_cached
    have hget : ∃ entry, darray_get m.audio.data m.audio.index = some entry := by
      unfold darray_get
      rw [if_pos h0]
      have hl : m.audio.index.toNat < m.audio.data.length := by omega
      exact ⟨m.audio.data.get ⟨_, hl⟩, List.get?_eq_get hl⟩
    obtain ⟨entry, hentry⟩ := hget
    rw [hentry]
    simp [hcb]

theorem next_audio_replays_entry_witness :
    ∃ m', mp_media_next_audio replay_media = some m' ∧
      audio_stamps m'.log = [4030] ∧ m'.audio.index = 1 ∧
      m'.audio.data = [cached_audio 0 4030, cached_audio 10 4010] := by
  have h := next_audio_replays_entry replay_media (by decide) (by decide) (by decide)
  obtain ⟨m', hm'⟩ := h.2 (by decide) (by decide) (by decide)
  obtain ⟨entry, b, -, -, -, -, -, hidx, -, -⟩ := h.1 m' hm'
  have hval : mp_media_next_audio replay_media = some
      { replay_media with
        audio := { replay_media.audio with
          data := [cached_audio 0 4030, cached_audio 10 4010], index := 1 }
        log := [event.audio_cb (cached_audio 0 4030)] } := by decide
  rw [hval] at hm'
  cases hm'
  exact ⟨_, hval, by decide, hidx, rfl⟩

/-- C20. Once a stream's `index_eof >= 0` its cache is closed for writes: a
call of `mp_media_next_video` (with or without preload) on a session with
`video.index_eof >= 0` leaves the video cache as it is, and a call of
`mp_media_next_audio` on a session with `audio.index_eof >= 0` appends nothing
to the audio cache, whose number of entries is unchanged; neither call
changes the number of entries of the other stream's cache. -/
theorem closed_cache_keeps_length (m m' : mp_media) :
    (∀ preload e, 0 ≤ m.video.index_eof → mp_media_next_video m preload e = some m' →
      m'.video.data = m.video.data ∧ m'.video.data.length = m.video.data.length ∧
      m'.audio.data = m.audio.data) ∧
    (0 ≤ m.audio.index_eof → mp_media_next_audio m = some m' →
      m'.audio.data.length = m.audio.data.length ∧ m'.video.data = m.video.data) := by
  constructor
  · intro preload e heof h
    have hdata : m'.video.data = m.video.data ∧ m'.audio.data = m.audio.data := by
      rcases next_video_effect h with ⟨-, -, hm⟩ | ⟨-, hlive, ⟨ha, -, hv⟩, -⟩ |
          ⟨-, -, f, -, -, hv, ha, -, -⟩
      · rw [hm]
        exact ⟨rfl, rfl⟩
      · have hc : m.caching = false := by
          rcases hlive with hl | hl
          · omega
          · exact hl
        rcases hv with ⟨-, hv⟩ | ⟨f, -, hv, -⟩
        · rw [hv, ha]
          exact ⟨rfl, rfl⟩
        · rw [hv hc, ha]
          exact ⟨rfl, rfl⟩
      · rw [hv, ha]
        exact ⟨rfl, rfl⟩
    exact ⟨hdata.1, by rw [hdata.1], hdata.2⟩
  · intro heof h
    unfold mp_media_next_audio at h
    split_ifs at h with hw hlive hplay hcb hfmt hc
    · cases h
      exact ⟨rfl, rfl⟩
    · cases h
      exact ⟨rfl, rfl⟩
    · cases h
      exact ⟨rfl, rfl⟩
    · cases h
      exact ⟨rfl, rfl⟩
    · rcases hlive with hl | hl
      · omega
      · rw [hl] at hc
        cases hc
    · cases h
      exact ⟨rfl, rfl⟩
    · have hl := next_audio_cached_video h
      exact ⟨hl.2.2.1, by rw [hl.1]⟩

theorem closed_cache_keeps_length_witness :
    (∃ mv, mp_media_next_video replay_media false good_video_env = some mv ∧
      event.video (cached_frame 4000) ∈ mv.log ∧
      mv.video.data = replay_media.video.data) ∧
    (∃ ma, mp_media_next_audio replay_media = some ma ∧
      event.audio_cb (cached_audio 0 4030) ∈ ma.log ∧ ma.audio.data.length = 2) := by
  have hv : ∃ mv, mp_media_next_video replay_media false good_video_env = some mv ∧
      event.video (cached_frame 4000) ∈ mv.log := ⟨_, rfl, by decide⟩
  have ha : ∃ ma, mp_media_next_audio replay_media = some ma ∧
      event.audio_cb (cached_audio 0 4030) ∈ ma.log := ⟨_, rfl, by decide⟩
  obtain ⟨mv, hmv, hlv⟩ := hv
  obtain ⟨ma, hma, hla⟩ := ha
  exact ⟨⟨mv, hmv, hlv,
      ((closed_cache_keeps_length replay_media mv).1 false good_video_env (by decide) hmv).1⟩,
    ⟨ma, hma, hla, ((closed_cache_keeps_length replay_media ma).2 (by decide) hma).1⟩⟩

/-! What a reset does to the caches. -/

/-- The steps of `reset_notify`: the preload call when the session was not
active, is a local file and has a preload callback; then the stop callback
when a stop was pending and a stop callback is registered. -/
theorem reset_notify_effect {m m' : mp_media} {active stopping ok : Bool} {e : reset_env}
    (h : reset_notify m active stopping e = some (m', ok)) :
    ok = true ∧
    ∃ m2,
      ((active = false ∧ m.is_local_file = true ∧ m.v_preload_cb = true ∧
          mp_media_next_video m true e.video = some m2) ∨
        (¬ (active = false ∧ m.is_local_file = true ∧ m.v_preload_cb = true) ∧ m2 = m)) ∧
      ((stopping = true ∧ m2.stop_cb = true ∧
          m' = { m2 with log := m2.log ++ [event.stop] }) ∨
        (¬ (stopping = true ∧ m2.stop_cb = true) ∧ m' = m2)) := by
  unfold reset_notify at h
  split at h
  · cases h
  · rename_i m2 hm2
    have hpre : (active = false ∧ m.is_local_file = true ∧ m.v_preload_cb = true ∧
          mp_media_next_video m true e.video = some m2) ∨
        (¬ (active = false ∧ m.is_local_file = true ∧ m.v_preload_cb = true) ∧ m2 = m) := by
      split_ifs at hm2 with hp
      · exact Or.inl ⟨hp.1, hp.2.1, hp.2.2, hm2⟩
      · cases hm2
        exact Or.inr ⟨hp, rfl⟩
    split_ifs at h with hs
    · cases h
      exact ⟨rfl, m2, hpre, Or.inl ⟨hs.1, hs.2, rfl⟩⟩
    · cases h
      exact ⟨rfl, _, hpre, Or.inr ⟨hs, rfl⟩⟩

/-- The steps of `mp_media_reset` as far as the caches, the log and the
decoders are concerned: `m1` is the session when the frames were prepared,
`m2` the session after the preload call, if there is one. -/
theorem reset_effect {m m' : mp_media} {ok : Bool} {e : reset_env}
    (h : mp_media_reset m e = some (m', ok)) :
    ok = e.prepare.ok ∧
    ∃ m1 m2, m1.video = m.video ∧ m1.audio = m.audio ∧ m1.next_wait = m.next_wait ∧
      m1.caching = m.caching ∧ m1.log = m.log ++ [event.reset_mark] ∧
      m1.v = e.prepare.v ∧ m1.a = e.prepare.a ∧ m1.active = m.active ∧
      ((ok = true ∧ m.active = false ∧ m.is_local_file = true ∧ m.v_preload_cb = true ∧
          mp_media_next_video m1 true e.video = some m2) ∨
        (¬ (ok = true ∧ m.active = false ∧ m.is_local_file = true ∧
            m.v_preload_cb = true) ∧ m2 = m1)) ∧
      ((ok = true ∧ m.stopping = true ∧ m.stop_cb = true ∧
          m' = { m2 with log := m2.log ++ [event.stop] }) ∨
        (¬ (ok = true ∧ m.stopping = true ∧ m.stop_cb = true) ∧ m' = m2)) := by
  unfold mp_media_reset at h
  have hprep : (mp_media_prepare_frames (reset_rebase m e) e.prepare).2 = e.prepare.ok := rfl
  rw [hprep] at h
  split_ifs at h with hok
  · cases h
    refine ⟨hok.symm, (mp_media_prepare_frames (reset_rebase m e) e.prepare).1,
      (mp_media_prepare_frames (reset_rebase m e) e.prepare).1,
      rfl, rfl, rfl, rfl, rfl, rfl, rfl, rfl, Or.inr ⟨?_, rfl⟩, Or.inr ⟨?_, rfl⟩⟩
    · simp
    · simp
  · have hok' : e.prepare.ok = true := by simpa using hok
    obtain ⟨hres, m2, hpre, hstop⟩ := reset_notify_effect h
    have hfields : ∀ (act : Bool) (off now : Int),
        (reset_clock (mp_media_prepare_frames (reset_rebase m e) e.prepare).1 act off now).video
          = m.video ∧
        (reset_clock (mp_media_prepare_frames (reset_rebase m e) e.prepare).1 act off now).audio
          = m.audio ∧
        (reset_clock (mp_media_prepare_frames (reset_rebase m e) e.prepare).1 act off
          now).next_wait = m.next_wait ∧
        (reset_clock (mp_media_prepare_frames (reset_rebase m e) e.prepare).1 act off
          now).caching = m.caching ∧
        (reset_clock (mp_media_prepare_frames (reset_rebase m e) e.prepare).1 act off now).log
          = m.log ++ [event.reset_mark] ∧
        (reset_clock (mp_media_prepare_frames (reset_rebase m e) e.prepare).1 act off now).v
          = e.prepare.v ∧
        (reset_clock (mp_media_prepare_frames (reset_rebase m e) e.prepare).1 act off now).a
          = e.prepare.a ∧
        (reset_clock (mp_media_prepare_frames (reset_rebase m e) e.prepare).1 act off
          now).active = m.active ∧
        (reset_clock (mp_media_prepare_frames (reset_rebase m e) e.prepare).1 act off
          now).is_local_file = m.is_local_file ∧
        (reset_clock (mp_media_prepare_frames (reset_rebase m e) e.prepare).1 act off
          now).v_preload_cb = m.v_preload_cb ∧
        (reset_clock (mp_media_prepare_frames (reset_rebase m e) e.prepare).1 act off
          now).stop_cb = m.stop_cb := by
      intro act off now
      unfold reset_clock reset_rebase reset_flush mp_media_prepare_frames
      split_ifs <;> exact ⟨rfl, rfl, rfl, rfl, rfl, rfl, rfl, rfl, rfl, rfl, rfl⟩
    obtain ⟨f1, f2, f3, f4, f5, f6, f7, f8, f9, f10, f11⟩ :=
      hfields m.active (reset_offset m e) e.now
    have hcb2 : m2.stop_cb = m.stop_cb := by
      rcases hpre with ⟨-, -, -, hnv⟩ | ⟨-, h2⟩
      · have hk := next_video_clock hnv
        have hk' := congrArg delivery_fields.stop_cb hk
        exact hk'.trans f11
      · rw [h2]
        exact f11
    refine ⟨hres.trans hok'.symm, _, m2, f1, f2, f3, f4, f5, f6, f7, f8, ?_, ?_⟩
    · rcases hpre with ⟨ha, hl, hp, hnv⟩ | ⟨hn, h2⟩
      · rw [f9] at hl
        rw [f10] at hp
        exact Or.inl ⟨hres, ha, hl, hp, hnv⟩
      · rw [f9, f10] at hn
        exact Or.inr ⟨fun hx => hn ⟨hx.2.1, hx.2.2.1, hx.2.2.2⟩, h2⟩
    · rcases hstop with ⟨hs, hcb, hm'⟩ | ⟨hn, hm'⟩
      · rw [hcb2] at hcb
        exact Or.inl ⟨hres, hs, hcb, hm'⟩
      · rw [hcb2] at hn
        exact Or.inr ⟨fun hx => hn ⟨hx.2.1, hx.2.2⟩, hm'⟩

/-! ## The cursors at end of stream -/

theorem mp_media_eof_of_no_ready {m : mp_media} (e : reset_env) (hno : no_ready_frame m) :
    mp_media_eof m e
      = (mp_media_reset (mp_media_eof_flags m) e).map (fun r => (r.1, true)) := by
  unfold no_ready_frame at hno
  unfold mp_media_eof
  have heof : ((!m.has_video || !m.v.frame_ready) && (!m.has_audio || !m.a.frame_ready))
      = true := by
    obtain ⟨h1, h2⟩ := hno
    cases hv : m.has_video <;> cases hr : m.v.frame_ready <;> cases ha : m.has_audio <;>
      cases hs : m.a.frame_ready <;> simp_all
  simp only [heof, if_true]
  cases mp_media_reset (mp_media_eof_flags m) e with
  | none => rfl
  | some r => rfl

theorem mp_media_eof_flags_caches (m : mp_media) :
    (mp_media_eof_flags m).video = { m.video with index_eof := m.video.index, index := 0 } ∧
    (mp_media_eof_flags m).audio = { m.audio with index_eof := m.audio.index, index := 0 } ∧
    (mp_media_eof_flags m).next_wait = 0 ∧
    (mp_media_eof_flags m).caching = m.caching ∧
    (mp_media_eof_flags m).is_local_file = m.is_local_file ∧
    (mp_media_eof_flags m).v_preload_cb = m.v_preload_cb ∧
    (mp_media_eof_flags m).log = m.log ∧
    (m.looping = true → (mp_media_eof_flags m).active = m.active) := by
  unfold mp_media_eof_flags
  split_ifs with hl
  · refine ⟨rfl, rfl, rfl, rfl, rfl, rfl, rfl, fun h => ?_⟩
    rw [hl] at h
    cases h
  · exact ⟨rfl, rfl, rfl, rfl, rfl, rfl, rfl, fun _ => rfl⟩

/-- The cursors over a call of `mp_media_eof` that detects end of stream (no
present stream has a ready frame).  Lines 607-611 set `video.index_eof` to the
value `video.index` had on entry and `audio.index_eof` to the value
`audio.index` had on entry, and `video.index`, `audio.index` and `next_wait`
to 0, leaving the cached entries: that is the session on which
`mp_media_reset` is then called.  When `mp_media_eof` returns, the two
`index_eof`, `audio.index` and `next_wait` still have these values;
`video.index` is 0, or 1 when the preload delivery of that reset went through
the video cache. -/
theorem mp_media_eof_freezes_cursors (m : mp_media) (e : reset_env)
    (hno : no_ready_frame m) :
    mp_media_eof m e
      = (mp_media_reset (mp_media_eof_flags m) e).map (fun r => (r.1, true)) ∧
    (mp_media_eof_flags m).video.index_eof = m.video.index ∧
    (mp_media_eof_flags m).audio.index_eof = m.audio.index ∧
    (mp_media_eof_flags m).video.index = 0 ∧
    (mp_media_eof_flags m).audio.index = 0 ∧
    (mp_media_eof_flags m).next_wait = 0 ∧
    (mp_media_eof_flags m).video.data = m.video.data ∧
    (mp_media_eof_flags m).audio.data = m.audio.data ∧
    (∀ m' ok, mp_media_eof m e = some (m', ok) →
      m'.video.index_eof = m.video.index ∧ m'.audio.index_eof = m.audio.index ∧
      m'.audio.index = 0 ∧ m'.next_wait = 0 ∧
      (m'.video.index = 0 ∨ m'.video.index = 1) ∧
      (m.caching = false ∨ (m.looping = true ∧ m.active = true) ∨
          m.is_local_file = false ∨ m.v_preload_cb = false → m'.video.index = 0)) := by
  obtain ⟨fv, fa, fw, fc, fl, fp, -, fact⟩ := mp_media_eof_flags_caches m
  refine ⟨mp_media_eof_of_no_ready e hno, by rw [fv], by rw [fa], by rw [fv], by rw [fa], fw,
    by rw [fv], by rw [fa], ?_⟩
  intro m' ok h
  rw [mp_media_eof_of_no_ready e hno] at h
  cases hr : mp_media_reset (mp_media_eof_flags m) e with
  | none =>
    rw [hr] at h
    cases h
  | some r =>
    rw [hr] at h
    simp only [Option.map_some', Option.some.injEq, Prod.mk.injEq] at h
    obtain ⟨hm, -⟩ := h
    subst hm
    have hr' : mp_media_reset (mp_media_eof_flags m) e = some (r.1, r.2) := hr
    obtain ⟨-, m1, m2, h1v, h1a, h1w, h1c, -, -, -, -, hpre, hstop⟩ := reset_effect hr'
    have hlast : r.1.video = m2.video ∧ r.1.audio = m2.audio ∧ r.1.next_wait = m2.next_wait := by
      rcases hstop with ⟨-, -, -, hm'⟩ | ⟨-, hm'⟩
      · rw [hm']
        exact ⟨rfl, rfl, rfl⟩
      · rw [hm']
        exact ⟨rfl, rfl, rfl⟩
    obtain ⟨hlv, hla, hlw⟩ := hlast
    rw [hlv, hla, hlw]
    rw [fv] at h1v
    rw [fa] at h1a
    rw [fw] at h1w
    rw [fc] at h1c
    rcases hpre with ⟨-, hact, hloc, hcb, hnv⟩ | ⟨-, h2⟩
    · rw [fl] at hloc
      rw [fp] at hcb
      rcases next_video_effect hnv with ⟨hgt, hidx, -⟩ | ⟨-, -, ⟨ha, hw, hv⟩, -⟩ |
          ⟨-, hnl, f, -, -, hv, ha, hw, -⟩
      · rw [h1v] at hgt hidx
        simp only at hgt hidx
        omega
      · rw [ha, hw, h1a, h1w]
        rcases hv with ⟨-, hv⟩ | ⟨f, -, hoff, hon⟩
        · rw [hv, h1v]
          exact ⟨rfl, rfl, rfl, rfl, Or.inl rfl, fun _ => rfl⟩
        · cases hc : m.caching with
          | false =>
            rw [hoff (h1c.trans hc), h1v]
            exact ⟨rfl, rfl, rfl, rfl, Or.inl rfl, fun _ => rfl⟩
          | true =>
            obtain ⟨-, hi, he⟩ := hon (h1c.trans hc)
            rw [he, hi, h1v]
            refine ⟨rfl, rfl, rfl, rfl, Or.inr rfl, fun hx => ?_⟩
            rcases hx with hx | ⟨hx1, hx2⟩ | hx | hx
            · cases hx
            · rw [fact hx1, hx2] at hact
              cases hact
            · rw [hx] at hloc
              cases hloc
            · rw [hx] at hcb
              cases hcb
      · rw [hv, ha, hw, h1v, h1a, h1w]
        refine ⟨rfl, rfl, rfl, rfl, Or.inr rfl, fun hx => ?_⟩
        rcases hx with hx | ⟨hx1, hx2⟩ | hx | hx
        · rw [h1c, hx] at hnl
          simp at hnl
        · rw [fact hx1, hx2] at hact
          cases hact
        · rw [hx] at hloc
          cases hloc
        · rw [hx] at hcb
          cases hcb
    · rw [h2, h1v, h1a, h1w]
      exact ⟨rfl, rfl, rfl, rfl, Or.inl rfl, fun _ => rfl⟩

theorem mp_media_eof_freezes_cursors_witness :
    ∃ m', mp_media_eof pass_end_media restart_env = some (m', true) ∧
      m'.video.index_eof = 3 ∧ m'.audio.index_eof = 1 ∧ m'.audio.index = 0 ∧
      m'.next_wait = 0 ∧ m'.video.index = 0 := by
  have h := mp_media_eof_freezes_cursors pass_end_media restart_env (by decide)
  have hval : ∃ m', mp_media_eof pass_end_media restart_env = some (m', true) := ⟨_, rfl⟩
  obtain ⟨m', hm'⟩ := hval
  obtain ⟨h1, h2, h3, h4, -, h6⟩ := h.2.2.2.2.2.2.2.2 m' true hm'
  exact ⟨m', hm', h1, h2, h3, h4, h6 (Or.inr (Or.inl ⟨by decide, by decide⟩))⟩

/-! ## Opening the container -/

theorem init_avformat_fails {m : mp_media} {ae : avformat_env}
    (hfail : ae.open_input_ret < 0 ∨ ae.find_stream_info_ret < 0 ∨
      (ae.has_video = false ∧ ae.has_audio = false)) :
    ∃ m1, init_avformat m ae = (m1, false) ∧ m1.log = m.log ∧ m1.stop_cb = m.stop_cb := by
  unfold init_avformat
  split_ifs with h1 h2 h3 h4
  · exact ⟨_, rfl, rfl, rfl⟩
  · exact ⟨_, rfl, rfl, rfl⟩
  · exact ⟨_, rfl, rfl, rfl⟩
  · rcases hfail with h | h | h
    · exact absurd h h1
    · exact absurd h h2
    · exact absurd h h3
  · rcases hfail with h | h | h
    · exact absurd h h1
    · exact absurd h h2
    · exact absurd h h3

theorem init_succeeds_on_unopened :
    (mp_media_init 0 (local_info 100) good_init_env).2 = true ∧
    (mp_media_init 0 (local_info 100) good_init_env).1.thread_valid = true ∧
    unopened.open_input_ret < 0 ∧
    ∃ m', mp_media_thread_start 0 (mp_media_init 0 (local_info 100) good_init_env).1
        unopened restart_env [] = thread_step.exit m' false ∧
      m'.log = [event.stop] := by
  exact ⟨by decide, by decide, by decide, _, rfl, by decide⟩

/-- C12, as the code has it: `mp_media_init` does not open the container.  It
returns true exactly when the mutex, the semaphore and the worker thread were
created, whatever the container is, and the worker thread is then started.
The container is opened by `init_avformat` inside the worker: if it cannot be
opened, or no stream information is found, or neither an audio nor a video
decoder can be initialised, `init_avformat` returns false and the worker
returns at once, before any reset and before its loop, delivering no frame;
`mp_media_thread_start` then invokes the stop callback if one is registered,
and the thread ends. -/
theorem open_failure_ends_worker (fuel : Nat) (m : mp_media) (ae : avformat_env)
    (re : reset_env) (es : List iter_env)
    (hfail : ae.open_input_ret < 0 ∨ ae.find_stream_info_ret < 0 ∨
      (ae.has_video = false ∧ ae.has_audio = false)) :
    (∀ b info ie,
      ((mp_media_init b info ie).2 = true ↔
        (ie.mutex_init_ret = 0 ∧ ie.sem_init_ret = 0 ∧ ie.pthread_create_ret = 0)) ∧
      ((mp_media_init b info ie).2 = true →
        (mp_media_init b info ie).1.thread_valid = true)) ∧
    (init_avformat m ae).2 = false ∧
    (∃ m1, mp_media_thread fuel m ae re es = thread_step.exit m1 false ∧ m1.log = m.log) ∧
    ∃ m', mp_media_thread_start fuel m ae re es = thread_step.exit m' false ∧
      m'.log = m.log ++ (if m.stop_cb = true then [event.stop] else []) := by
  obtain ⟨m1, hm1, hlog, hcb⟩ := init_avformat_fails (m := m) hfail
  have hthread : mp_media_thread fuel m ae re es = thread_step.exit m1 false := by
    unfold mp_media_thread
    rw [hm1]
    rfl
  refine ⟨fun b info ie => ⟨mp_media_init_ok_iff b info ie, fun hok => ?_⟩, by rw [hm1],
    ⟨m1, hthread, hlog⟩, ?_⟩
  · obtain ⟨h1, h2, h3⟩ := (mp_media_init_ok_iff b info ie).mp hok
    unfold mp_media_init mp_media_init_internal
    simp [h1, h2, h3]
  · unfold mp_media_thread_start
    rw [hthread]
    simp only
    rw [hcb]
    split_ifs with hs
    · exact ⟨_, rfl, by rw [← hlog]⟩
    · exact ⟨_, rfl, by rw [hlog, List.append_nil]⟩

theorem open_failure_ends_worker_witness :
    (∃ m', mp_media_thread_start 0 (mp_media_init 0 (local_info 100) good_init_env).1
        streamless restart_env [pump_env (ready_decode 0) zero_decode]
          = thread_step.exit m' false ∧
      m'.log = [event.stop]) ∧
    (mp_media_init 0 (local_info 100) good_init_env).2 = true := by
  have h := open_failure_ends_worker 0 (mp_media_init 0 (local_info 100) good_init_env).1
    streamless restart_env [pump_env (ready_decode 0) zero_decode]
    (Or.inr (Or.inr ⟨by decide, by decide⟩))
  obtain ⟨m', hm', hlog⟩ := h.2.2.2
  exact ⟨⟨m', hm', by rw [hlog]; decide⟩, by decide⟩

/-! ## Failures of frame preparation -/

theorem stops_sleepto (m : mp_media) (now : Int) :
    stops (mp_media_sleepto m now).1.log = stops m.log ∧
    (mp_media_sleepto m now).1.kill = m.kill ∧
    (mp_media_sleepto m now).1.reset = m.reset := by
  unfold mp_media_sleepto
  simp only []
  split_ifs
  · exact ⟨rfl, rfl, rfl⟩
  · refine ⟨?_, rfl, rfl⟩
    show stops (m.log ++ _) = _
    rw [stops_append]
    rfl
  · refine ⟨?_, rfl, rfl⟩
    show stops (m.log ++ _) = _
    rw [stops_append]
    rfl

/-- A reset requested through the reset flag whose frame preparation fails
leaves the worker loop running, and no stop callback is invoked. -/
theorem flagged_reset_failure_continues (fuel : Nat) (m : mp_media) (e : iter_env)
    (hkill : m.kill = false) (hreset : m.reset = true)
    (hfail : e.reset.prepare.ok = false)
    (hwake : m.active = true ∨ ¬ e.sem_wait_ret < 0) :
    ∃ m', mp_media_thread_iter fuel m e = thread_step.next m' ∧
      stops m'.log = stops m.log := by
  have hflags : ∀ (ms : mp_media) (ia tmo : Bool), ms.kill = false → ms.reset = true →
      ∃ m', thread_iter_flags fuel ms ia tmo e = thread_step.next m' ∧
        stops m'.log = stops ms.log := by
    intro ms ia tmo hk hr
    unfold thread_iter_flags
    rw [if_neg (by simp [hk]), if_pos hr]
    unfold mp_media_reset
    have hprep : ∀ x : mp_media, (mp_media_prepare_frames x e.reset.prepare).2 = false :=
      fun _ => hfail
    rw [if_pos (hprep _)]
    refine ⟨_, rfl, ?_⟩
    show stops (ms.log ++ [event.reset_mark]) = _
    rw [stops_append]
    rfl
  unfold mp_media_thread_iter
  split_ifs with ha hs
  · rcases hwake with hw | hw
    · rw [hw] at ha
      cases ha
    · exact absurd hs hw
  · exact hflags m false false hkill hreset
  · obtain ⟨h1, h2, h3⟩ := stops_sleepto m e.now
    obtain ⟨m', hm', hst⟩ := hflags (mp_media_sleepto m e.now).1 true
      (mp_media_sleepto m e.now).2 (h2.trans hkill) (h3.trans hreset)
    exact ⟨m', hm', hst.trans h1⟩

/-- The reset of `mp_media_eof` whose frame preparation fails leaves the worker
loop running, and no stop callback is invoked. -/
theorem eof_reset_failure_continues (m : mp_media) (e : iter_env)
    (hno : no_ready_frame m) (hfail : e.reset.prepare.ok = false) :
    ∃ m', thread_iter_finish m e = thread_step.next m' ∧ stops m'.log = stops m.log ∧
      (m.looping = false → m'.active = false ∧ m'.stopping = false) := by
  unfold thread_iter_finish
  rw [mp_media_eof_of_no_ready e.reset hno]
  unfold mp_media_reset
  have hprep : ∀ x : mp_media, (mp_media_prepare_frames x e.reset.prepare).2 = false :=
    fun _ => hfail
  rw [if_pos (hprep _)]
  refine ⟨_, rfl, ?_, ?_⟩
  · show stops ((mp_media_eof_flags m).log ++ [event.reset_mark]) = _
    rw [stops_append, (mp_media_eof_flags_caches m).2.2.2.2.2.2.1]
    rfl
  · intro hl
    show (reset_flush (mp_media_eof_flags m) e.reset).active = false ∧ _
    unfold reset_flush mp_media_eof_flags
    simp [hl]
    rfl

/-- C13, at the failing input.  A play command on a playing session sets the
reset flag; `mp_media_prepare_frames` fails inside the reset that the worker
then makes: the iteration ends with the loop still running and the stop
callback, which is registered, has not been invoked.  The same happens when it
fails inside the reset that `mp_media_eof` makes at the end of a pass.  When
it fails in the pump, the worker returns false and `mp_media_thread_start`
invokes the stop callback. -/
theorem reset_failure_goes_unreported :
    ((mp_media_play pass_media false).reset = true ∧
      failing_reset_iter.reset.prepare.ok = false ∧
      ∃ m', mp_media_thread_iter 0 (mp_media_play pass_media false) failing_reset_iter
          = thread_step.next m' ∧
        m'.stop_cb = true ∧ stops m'.log = 0) ∧
    (no_ready_frame pass_end_media ∧
      ∃ m', mp_media_thread_iter 0 pass_end_media failing_reset_iter = thread_step.next m' ∧
        m'.stop_cb = true ∧ stops m'.log = 0 ∧ event.reset_mark ∈ m'.log) ∧
    (failing_pump_iter.prepare.ok = false ∧
      ∃ m', mp_media_thread_start 0
          (mp_media_play (mp_media_init 0 (local_info 100) good_init_env).1 false)
          (opened big_format) restart_env [failing_pump_iter] = thread_step.exit m' false ∧
        stops m'.log = 1) := by
  refine ⟨⟨by decide, by decide, _, rfl, by decide, by decide⟩,
    ⟨by decide, _, rfl, by decide, by decide, by decide⟩,
    ⟨by decide, _, rfl, by decide⟩⟩

/-- C11, at the failing input.  A non-looping playing session delivers its last
frame, the pump finds the stream ended, and `mp_media_eof` detects end of
stream and resets; `mp_media_prepare_frames` fails inside that reset.  The
session is left inactive with `stopping` cleared and the worker keeps waiting,
but the stop callback, which is registered, has not been invoked, and is not
in the iterations that follow.  When the preparation succeeds it is invoked
once. -/
theorem eof_reset_failure_loses_stop :
    (pass_media.looping = false ∧ pass_media.active = true ∧ pass_media.stop_cb = true ∧
      failing_reset_iter.reset.prepare.ok = false) ∧
    (∃ m', mp_media_thread_loop 0 pass_media [failing_reset_iter, ending_iter, ending_iter]
        = thread_step.next m' ∧
      video_stamps m'.log = [4010] ∧ event.reset_mark ∈ m'.log ∧ stops m'.log = 0 ∧
      m'.active = false ∧ m'.stopping = false) ∧
    (∃ m', mp_media_thread_loop 0 pass_media [ending_iter, ending_iter, ending_iter]
        = thread_step.next m' ∧
      video_stamps m'.log = [4010] ∧ stops m'.log = 1 ∧ m'.active = false) := by
  exact ⟨by decide, ⟨_, rfl, by decide, by decide, by decide, by decide, by decide⟩,
    ⟨_, rfl, by decide, by decide, by decide⟩⟩

/-- C16, at the failing input.  A looping session with caching on plays a
first pass of two video frames and two audio buffers (timestamps 4000 and
4010), reaches end of stream, and replays; the end-of-stream reset has moved
`base_ts` from 0 to 20.  The audio buffers of the replay carry timestamps
recomputed with the new clock values (4020, 4030); the video frames of the
replay carry the timestamps stored in the first pass (4000, 4010), not the
recomputed ones. -/
theorem replay_video_keeps_stored_stamp :
    (∃ m', mp_media_thread_loop 0 fill_media
        [pump_env (ready_decode 10) (ready_decode 10), loop_end_iter 20,
          ending_iter, ending_iter] = thread_step.next m' ∧
      m'.base_ts = 20 ∧ m'.video.index_eof = 2 ∧ m'.audio.index_eof = 2 ∧
      audio_stamps m'.log = [4000, 4010, 4020, 4030] ∧
      video_stamps m'.log = [4000, 4010, 4000, 4010]) ∧
    (replay_media.caching = true ∧ 0 ≤ replay_media.video.index_eof ∧
      replay_media.video.index < replay_media.video.index_eof ∧
      frame_timestamp replay_media 0 = 4030 ∧
      ∃ m', mp_media_next_video replay_media false good_video_env = some m' ∧
        m'.log = [event.video (cached_frame 4000)]) := by
  exact ⟨⟨_, rfl, by decide, by decide, by decide, by decide, by decide⟩,
    by decide, by decide, by decide, by decide, _, rfl, by decide⟩

/-- C18, at the failing input.  A stop command reaches a looping session with
caching on whose video cache is still filling (here empty, cursor 0).  The
reset that follows makes the preload delivery: the decoder's ready flag is
left set, but the frame has been appended to the video cache and the cursor
has advanced to 1.  The next call without preload hands the same decoded frame
to the video callback and appends it again, so the cache holds it twice. -/
theorem preload_writes_cache :
    (fill_media.caching = true ∧ fill_media.video.data = [] ∧ fill_media.video.index = 0) ∧
    ∃ m1, mp_media_thread_iter 0 (mp_media_stop fill_media) ending_iter
        = thread_step.next m1 ∧
      preload_stamps m1.log = [4000] ∧ video_stamps m1.log = [] ∧
      m1.v.frame_ready = true ∧
      m1.video.data.map (fun f => f.timestamp) = [4000] ∧ m1.video.index = 1 ∧
      ∃ m2, mp_media_next_video m1 false good_video_env = some m2 ∧
        video_stamps m2.log = [4000] ∧
        m2.video.data.map (fun f => f.timestamp) = [4000, 4000] ∧ m2.video.index = 2 := by
  exact ⟨by decide, _, rfl, by decide, by decide, by decide, by decide, by decide,
    _, rfl, by decide, by decide, by decide⟩

/-! ## Bottom-up frames -/

/-- The frame that the later stages of `mp_media_next_video` deliver: the one
in `m->obsframe`, or with caching on its copy for the cache. -/
theorem video_store_frame {m m' : mp_media} {preload : Bool} {e : video_env}
    (h : video_store m preload e = some m') :
    m'.log = m.log ++ [video_event preload
      (if m.caching = true then video_new_frame m e else m.obsframe)] := by
  unfold video_store at h
  split_ifs at h with hc hi
  · rw [if_pos hc]
    split at h
    · cases h
    · exact (have hl := (video_deliver_effect h).2.2.2.2; hl)
  · rw [if_pos hc]
    exact (have hl := (video_deliver_effect h).2.2.2.2; hl)
  · rw [if_neg hc]
    exact (video_deliver_effect h).2.2.2.2

theorem video_keyframe_frame {m m' : mp_media} {preload : Bool} {e : video_env}
    (h : video_keyframe m preload e = some m') :
    m'.log = m.log ∨
      m'.log = m.log ++ [video_event preload
        (if m.caching = true then video_new_frame m e else m.obsframe)] := by
  unfold video_keyframe at h
  split_ifs at h
  · cases h
    exact Or.inl rfl
  · exact (have hl := video_store_frame h; Or.inr hl)
  · exact Or.inr (video_store_frame h)

theorem video_stamp_frame {m m' : mp_media} {flip preload : Bool} {e : video_env}
    (h : video_stamp m flip preload e = some m') :
    m'.log = m.log ∨
      ∃ f, m'.log = m.log ++ [video_event preload f] ∧ f.flip = flip ∧
        (m.caching = false →
          f.data = m.obsframe.data ∧ f.linesize = m.obsframe.linesize) ∧
        (m.caching = true → f.data = e.copy_data ∧ f.linesize = e.copy_linesize) := by
  unfold video_stamp at h
  have hl := video_keyframe_frame h
  rcases hl with hl | hl
  · exact Or.inl hl
  · refine Or.inr ⟨_, hl, ?_, ?_, ?_⟩
    · simp only
      split_ifs <;> rfl
    · intro hc
      simp only [hc, Bool.false_eq_true, if_false, and_self]
    · intro hc
      simp only [hc, if_true]
      exact ⟨rfl, rfl⟩

theorem video_format_stage_frame {m m' : mp_media} {flip preload : Bool} {e : video_env}
    (h : video_format_stage m flip preload e = some m') :
    m'.log = m.log ∨
      ∃ f, m'.log = m.log ++ [video_event preload f] ∧ f.flip = flip ∧
        (m.caching = false →
          f.data = m.obsframe.data ∧ f.linesize = m.obsframe.linesize) ∧
        (m.caching = true → f.data = e.copy_data ∧ f.linesize = e.copy_linesize) := by
  unfold video_format_stage at h
  split_ifs at h
  · cases h
    exact Or.inl rfl
  · cases h
    exact Or.inl rfl
  · exact (have hl := video_stamp_frame h; hl)
  · cases h
    exact Or.inl rfl
  · exact video_stamp_frame h

theorem video_convert_frame {m m' : mp_media} {preload : Bool} {e : video_env}
    (h : video_convert m preload e = some m') :
    m'.log = m.log ∨
      ∃ f, m'.log = m.log ++ [video_event preload f] ∧ f.flip = (video_planes m).2 ∧
        (m.caching = false →
          f.data = (video_planes m).1.data ∧ f.linesize = (video_planes m).1.linesize) ∧
        (m.caching = true → f.data = e.copy_data ∧ f.linesize = e.copy_linesize) := by
  unfold video_convert at h
  split_ifs at h
  · cases h
    exact Or.inl rfl
  · exact (have hl := video_format_stage_frame h; hl)

/-- The frame that a live call of `mp_media_next_video` delivers has the flip
flag that lines 363-390 computed; without caching it has the planes and
strides they wrote, with caching those of the copy made for the cache. -/
theorem next_video_live_frame {m m' : mp_media} {preload : Bool} {e : video_env}
    (hw : ¬ (m.video.index_eof > 0 ∧ m.video.index = m.video.index_eof))
    (hlive : m.video.index_eof < 0 ∨ m.caching = false)
    (h : mp_media_next_video m preload e = some m') :
    m'.log = m.log ∨
      ∃ f, m'.log = m.log ++ [video_event preload f] ∧ f.flip = (video_planes m).2 ∧
        (m.caching = false →
          f.data = (video_planes m).1.data ∧ f.linesize = (video_planes m).1.linesize) ∧
        (m.caching = true → f.data = e.copy_data ∧ f.linesize = e.copy_linesize) := by
  unfold mp_media_next_video at h
  rw [if_neg hw, if_pos hlive] at h
  split_ifs at h
  · cases h
    exact Or.inl rfl
  · cases h
    exact Or.inl rfl
  · exact (have hl := video_convert_frame h; hl)
  · cases h
    exact Or.inl rfl
  · exact video_convert_frame h

theorem wrapU32_c_abs {x : Int} (h1 : INT32_MIN < x) (h2 : x ≤ INT32_MAX) :
    wrapU32 (c_abs x) = |x| := by
  unfold INT32_MIN at h1
  unfold INT32_MAX at h2
  unfold wrapU32 c_abs wrapI32
  rcases abs_cases x with ⟨ha, _⟩ | ⟨ha, _⟩ <;> rw [ha] <;> split_ifs <;> omega

/-- Lines 363-390 without scaler: the flip flag, the strides and the planes
written into `m->obsframe`. -/
theorem video_planes_direct (m : mp_media) (hsw : m.swscale = false) :
    (video_planes m).2
      = (decide (m.v.frame.linesize.getD 0 0 < 0) && decide (m.v.frame.linesize.getD 1 0 = 0)) ∧
    (video_planes m).1.linesize
      = (List.range MAX_AV_PLANES).map (fun i => wrapU32 (c_abs (m.v.frame.linesize.getD i 0))) ∧
    ((video_planes m).2 = true →
      (video_planes m).1.data
        = ((List.range MAX_AV_PLANES).map (fun i => m.v.frame.data.getD i 0)).set 0
            (m.v.frame.data.getD 0 0
              - wrapU32 (wrapU32 (c_abs (m.v.frame.linesize.getD 0 0))
                  * (m.v.frame.height - 1)))) ∧
    ((video_planes m).2 = false →
      (video_planes m).1.data
        = (List.range MAX_AV_PLANES).map (fun i => m.v.frame.data.getD i 0)) := by
  have hflip : (video_planes m).2
      = (decide (m.v.frame.linesize.getD 0 0 < 0)
          && decide (m.v.frame.linesize.getD 1 0 = 0)) := by
    unfold video_planes
    simp only [hsw, Bool.false_eq_true, if_false]
  refine ⟨hflip, ?_, ?_, ?_⟩
  · unfold video_planes
    simp only [hsw, Bool.false_eq_true, if_false]
    split_ifs <;> rfl
  · intro hf
    rw [hflip] at hf
    unfold video_planes
    simp only [hsw, Bool.false_eq_true, if_false, hf, if_true]
    rfl
  · intro hf
    rw [hflip] at hf
    unfold video_planes
    simp only [hsw, Bool.false_eq_true, if_false, hf]

theorem video_event_inj {preload : Bool} {f g : obs_source_frame}
    (h : video_event preload f = video_event preload g) : f = g := by
  unfold video_event at h
  split_ifs at h <;> cases h <;> rfl

theorem planes_getD (g : Nat → Int) (v : Int) :
    (((List.range MAX_AV_PLANES).map g).set 0 v).getD 0 0 = v ∧
    (∀ i, 0 < i → i < MAX_AV_PLANES →
      (((List.range MAX_AV_PLANES).map g).set 0 v).getD i 0 = g i) ∧
    (∀ i, i < MAX_AV_PLANES → ((List.range MAX_AV_PLANES).map g).getD i 0 = g i) := by
  have hr : List.range MAX_AV_PLANES = [0, 1, 2, 3, 4, 5, 6, 7] := by decide
  rw [hr]
  refine ⟨rfl, ?_, ?_⟩
  · intro i h0 h8
    unfold MAX_AV_PLANES at h8
    interval_cases i <;> rfl
  · intro i h8
    unfold MAX_AV_PLANES at h8
    interval_cases i <;> rfl

theorem planar_bottom_up_not_flipped :
    (stride_media [-64, -32, -32, 0, 0, 0, 0, 0]).v.frame.linesize.getD 0 0 < 0 ∧
    ∃ m' f, mp_media_next_video (stride_media [-64, -32, -32, 0, 0, 0, 0, 0]) false
        good_video_env = some m' ∧
      m'.log = [event.video f] ∧ f.flip = false ∧ f.data.getD 0 0 = 10000 ∧
      f.linesize = [64, 32, 32, 0, 0, 0, 0, 0] := by
  exact ⟨by decide, _, _, rfl, rfl, by decide, by decide, by decide⟩

/-- C17, as the code has it: for a frame decoded live and delivered without
scaler, the flip flag is set exactly when the plane-0 stride is negative and
the plane-1 stride is 0 (a bottom-up frame of a single plane); a frame with
negative strides on several planes is delivered with the flag clear.  Without
caching the delivered frame reports every plane's stride as the absolute value
of the decoder's stride, keeps the base pointers of planes 1 to 7, and has its
plane-0 base pointer moved back by `|stride| * (height - 1)` when the flag is
set and unchanged when it is clear; with caching on the delivered frame is the
copy made for the cache, with the planes and strides of that copy and the same
flip flag. -/
theorem next_video_flip (m m' : mp_media) (preload : Bool) (e : video_env)
    (f : obs_source_frame)
    (hw : ¬ (m.video.index_eof > 0 ∧ m.video.index = m.video.index_eof))
    (hlive : m.video.index_eof < 0 ∨ m.caching = false)
    (hsw : m.swscale = false)
    (hstride : ∀ i, INT32_MIN < m.v.frame.linesize.getD i 0 ∧
      m.v.frame.linesize.getD i 0 ≤ INT32_MAX)
    (hsize : m.v.frame.linesize.getD 0 0 < 0 →
      0 ≤ |m.v.frame.linesize.getD 0 0| * (m.v.frame.height - 1) ∧
      |m.v.frame.linesize.getD 0 0| * (m.v.frame.height - 1) ≤ 4294967295)
    (hcall : mp_media_next_video m preload e = some m')
    (hlog : m'.log = m.log ++ [video_event preload f]) :
    (f.flip = true ↔
      (m.v.frame.linesize.getD 0 0 < 0 ∧ m.v.frame.linesize.getD 1 0 = 0)) ∧
    (m.v.frame.linesize.getD 0 0 ≥ 0 → f.flip = false) ∧
    (m.caching = false →
      f.linesize = (List.range MAX_AV_PLANES).map (fun i => |m.v.frame.linesize.getD i 0|) ∧
      (∀ i, 0 < i → i < MAX_AV_PLANES → f.data.getD i 0 = m.v.frame.data.getD i 0) ∧
      (m.v.frame.linesize.getD 0 0 < 0 ∧ m.v.frame.linesize.getD 1 0 = 0 →
        f.data.getD 0 0 = m.v.frame.data.getD 0 0
          - |m.v.frame.linesize.getD 0 0| * (m.v.frame.height - 1)) ∧
      (¬ (m.v.frame.linesize.getD 0 0 < 0 ∧ m.v.frame.linesize.getD 1 0 = 0) →
        f.data.getD 0 0 = m.v.frame.data.getD 0 0)) ∧
    (m.caching = true → f.data = e.copy_data ∧ f.linesize = e.copy_linesize) := by
  obtain ⟨hflip, hls, hdt, hdf⟩ := video_planes_direct m hsw
  have hframe : f.flip = (video_planes m).2 ∧
      (m.caching = false →
        f.data = (video_planes m).1.data ∧ f.linesize = (video_planes m).1.linesize) ∧
      (m.caching = true → f.data = e.copy_data ∧ f.linesize = e.copy_linesize) := by
    rcases next_video_live_frame hw hlive hcall with hl | ⟨g, hg, h1, h2, h3⟩
    · rw [hl] at hlog
      have := congrArg List.length hlog
      simp at this
    · rw [hg] at hlog
      have hfg : g = f := video_event_inj (List.singleton_inj.mp (List.append_cancel_left hlog))
      rw [← hfg]
      exact ⟨h1, h2, h3⟩
  obtain ⟨hf1, hf2, hf3⟩ := hframe
  have hiff : f.flip = true ↔
      (m.v.frame.linesize.getD 0 0 < 0 ∧ m.v.frame.linesize.getD 1 0 = 0) := by
    rw [hf1, hflip]
    simp
  refine ⟨hiff, ?_, ?_, hf3⟩
  · intro hge
    cases hfl : f.flip with
    | false => rfl
    | true =>
      have := (hiff.mp hfl).1
      omega
  · intro hc
    obtain ⟨hd, hl⟩ := hf2 hc
    refine ⟨?_, ?_, ?_, ?_⟩
    · rw [hl, hls]
      apply List.map_congr_left
      intro i _
      exact wrapU32_c_abs (hstride i).1 (hstride i).2
    · intro i h0 h8
      rw [hd]
      cases hv : (video_planes m).2 with
      | true =>
        rw [hdt hv]
        exact (planes_getD _ _).2.1 i h0 h8
      | false =>
        rw [hdf hv]
        exact (planes_getD _ 0).2.2 i h8
    · intro hneg
      have hv : (video_planes m).2 = true := by
        rw [← hf1]
        exact hiff.mpr hneg
      rw [hd, hdt hv, (planes_getD _ _).1, wrapU32_c_abs (hstride 0).1 (hstride 0).2]
      obtain ⟨hs1, hs2⟩ := hsize hneg.1
      have hwrap : wrapU32 (|m.v.frame.linesize.getD 0 0| * (m.v.frame.height - 1))
          = |m.v.frame.linesize.getD 0 0| * (m.v.frame.height - 1) := by
        unfold wrapU32
        omega
      rw [hwrap]
    · intro hnot
      have hv : (video_planes m).2 = false := by
        rw [← hf1]
        cases hfl : f.flip with
        | false => rfl
        | true => exact absurd (hiff.mp hfl) hnot
      rw [hd, hdf hv]
      exact (planes_getD _ 0).2.2 0 (by decide)

theorem next_video_flip_witness :
    ∃ m' f, mp_media_next_video (stride_media [-64, 0, 0, 0, 0, 0, 0, 0]) false
        good_video_env = some m' ∧
      m'.log = [event.video f] ∧ f.flip = true ∧ f.data.getD 0 0 = 10000 - 64 * 15 ∧
      f.linesize = [64, 0, 0, 0, 0, 0, 0, 0] := by
  have hval : ∃ m' f, mp_media_next_video (stride_media [-64, 0, 0, 0, 0, 0, 0, 0]) false
      good_video_env = some m' ∧ m'.log = [event.video f] := ⟨_, _, rfl, rfl⟩
  obtain ⟨m', f, hm', hlog⟩ := hval
  have h := next_video_flip (stride_media [-64, 0, 0, 0, 0, 0, 0, 0]) m' false good_video_env f
    (by decide) (by decide) (by decide)
    (by
      intro i
      have hcases : i < 8 ∨ 8 ≤ i := Nat.lt_or_ge i 8
      rcases hcases with hi | hi
      · interval_cases i <;> decide
      · have : (stride_media [-64, 0, 0, 0, 0, 0, 0, 0]).v.frame.linesize.getD i 0 = 0 := by
          apply List.getD_eq_default
          exact hi
        rw [this]
        decide)
    (by intro _; decide) hm' hlog
  refine ⟨m', f, hm', hlog, h.1.mpr (by decide), ?_, ?_⟩
  · have h0 := (h.2.2.1 (by decide)).2.2.1 (by decide)
    rw [h0]
    decide
  · rw [(h.2.2.1 (by decide)).1]
    decide

/-! ## The video cache over a first pass and over a replay -/

theorem sleep_ms_silent (m : mp_media) (ms : Int) :
    silent_step m { m with log := m.log ++ [event.sleep_ms ms] } [event.sleep_ms ms] :=
  ⟨rfl, by simp, rfl, rfl, rfl, Or.inl rfl⟩

theorem video_stamps_eq_map (l : List event) :
    video_stamps l = (video_frames l).map (fun f => f.timestamp) := by
  induction l with
  | nil => rfl
  | cons ev l ih =>
    cases ev <;> simp [video_stamps, video_frames, List.filterMap_cons] <;>
      simpa [video_stamps, video_frames] using ih

/-- The preload call leaves the ready flag of the video decoder. -/
theorem preload_keeps_ready {m m' : mp_media} {e : video_env}
    (h : mp_media_next_video m true e = some m') : m'.v.frame_ready = m.v.frame_ready := by
  rcases next_video_effect h with ⟨-, -, hm⟩ | ⟨-, -, -, hr⟩ | ⟨-, -, f, -, -, -, -, -, hv⟩
  · rw [hm]
    rfl
  · exact hr rfl
  · rw [hv]

/-- What a reset logs: its mark, then at most one preload delivery, made only
when the session was not active and is a local file with a preload callback,
then at most one stop callback.  It leaves `active` as it is. -/
theorem reset_logs {m m' : mp_media} {ok : Bool} {e : reset_env}
    (h : mp_media_reset m e = some (m', ok)) :
    m'.active = m.active ∧
    ∃ pre st, m'.log = m.log ++ [event.reset_mark] ++ pre ++ st ∧
      (pre = [] ∨ (m.active = false ∧ m.is_local_file = true ∧ m.v_preload_cb = true ∧
        ∃ f, pre = [event.preload f])) ∧
      (st = [] ∨ (m.stopping = true ∧ m.stop_cb = true ∧ st = [event.stop])) := by
  obtain ⟨-, m1, m2, -, -, -, -, h1l, -, -, h1a, hpre, hstop⟩ := reset_effect h
  have h2 : m2.active = m1.active ∧ ∃ pre, m2.log = m1.log ++ pre ∧
      (pre = [] ∨ (m.active = false ∧ m.is_local_file = true ∧ m.v_preload_cb = true ∧
        ∃ f, pre = [event.preload f])) := by
    rcases hpre with ⟨-, ha, hl, hp, hnv⟩ | ⟨-, h2⟩
    · have hk := next_video_clock hnv
      refine ⟨congrArg delivery_fields.active hk, ?_⟩
      rcases next_video_log hnv with hlog | ⟨f, hlog⟩
      · exact ⟨[], by rw [hlog, List.append_nil], Or.inl rfl⟩
      · exact ⟨[event.preload f], hlog, Or.inr ⟨ha, hl, hp, f, rfl⟩⟩
    · rw [h2]
      exact ⟨rfl, [], by rw [List.append_nil], Or.inl rfl⟩
  obtain ⟨h2a, pre, h2l, h2p⟩ := h2
  rcases hstop with ⟨-, hs, hcb, hm'⟩ | ⟨-, hm'⟩
  · rw [hm']
    refine ⟨h2a.trans h1a, pre, [event.stop], ?_, h2p, Or.inr ⟨hs, hcb, rfl⟩⟩
    show m2.log ++ [event.stop] = _
    rw [h2l, h1l]
  · rw [hm']
    refine ⟨h2a.trans h1a, pre, [], ?_, h2p, Or.inl rfl⟩
    rw [h2l, h1l, List.append_nil]

/-- While the session is not active, an iteration of the worker hands nothing
to the video callback or to the audio callback, and leaves it inactive. -/
theorem inactive_iter_silent {fuel : Nat} {m m' : mp_media} {e : iter_env}
    (hact : m.active = false) (h : mp_media_thread_iter fuel m e = thread_step.next m') :
    m'.active = false ∧
      ∃ evs, m'.log = m.log ++ evs ∧ video_stamps evs = [] ∧ audio_stamps evs = [] := by
  unfold mp_media_thread_iter at h
  rw [if_pos hact] at h
  split_ifs at h
  unfold thread_iter_flags at h
  split_ifs at h with hk hr hx
  · split at h
    · cases h
    · rename_i m2 ok hreset
      cases h
      obtain ⟨ha, pre, st, hl, hp, hs⟩ := reset_logs hreset
      refine ⟨ha.trans hact, [event.reset_mark] ++ pre ++ st, ?_, ?_, ?_⟩
      · rw [hl]
        simp [List.append_assoc]
      · rcases hp with hp | ⟨-, -, -, f, hp⟩ <;> rcases hs with hs | ⟨-, -, hs⟩ <;>
          rw [hp, hs] <;> rfl
      · rcases hp with hp | ⟨-, -, -, f, hp⟩ <;> rcases hs with hs | ⟨-, -, hs⟩ <;>
          rw [hp, hs] <;> rfl
  · exact absurd hx.1 (by simp)
  · cases h
    exact ⟨hact, [], by simp, rfl, rfl⟩

theorem inactive_loop_silent (fuel : Nat) (es : List iter_env) :
    ∀ (m m' : mp_media), m.active = false →
      mp_media_thread_loop fuel m es = thread_step.next m' →
      m'.active = false ∧
        ∃ evs, m'.log = m.log ++ evs ∧ video_stamps evs = [] ∧ audio_stamps evs = [] := by
  induction es with
  | nil =>
    intro m m' hact h
    unfold mp_media_thread_loop at h
    cases h
    exact ⟨hact, [], by simp, rfl, rfl⟩
  | cons e es ih =>
    intro m m' hact h
    unfold mp_media_thread_loop at h
    cases hm1 : mp_media_thread_iter fuel m e with
    | next m1 =>
      rw [hm1] at h
      obtain ⟨ha1, evs1, hl1, hv1, hs1⟩ := inactive_iter_silent hact hm1
      obtain ⟨ha2, evs2, hl2, hv2, hs2⟩ := ih _ _ ha1 h
      refine ⟨ha2, evs1 ++ evs2, by rw [hl2, hl1, List.append_assoc], ?_, ?_⟩
      · rw [video_stamps_append, hv1, hv2]
        rfl
      · rw [audio_stamps_append, hs1, hs2]
        rfl
    | exit m1 r =>
      rw [hm1] at h
      cases h
    | undefined =>
      rw [hm1] at h
      cases h
    | no_fuel =>
      rw [hm1] at h
      cases h

/-! ## The wraparound -/

theorem second_play_delivers_at_eof_cursor :
    ∃ m1, mp_media_thread_loop 0 pass_media [ending_iter] = thread_step.next m1 ∧
      (mp_media_play m1 false).video.index_eof = 0 ∧
      (mp_media_play m1 false).video.index = 0 ∧
      (mp_media_play m1 false).caching = false ∧
      video_stamps (mp_media_play m1 false).log = [4010] ∧
      ∃ m2, mp_media_thread_iter 0 (mp_media_play m1 false)
          (pump_env (ready_decode 10) zero_decode) = thread_step.next m2 ∧
        video_stamps m2.log = [4010, 4000] := by
  exact ⟨_, rfl, by decide, by decide, by decide, by decide, _, rfl, by decide⟩

/-- C21, as the code has it: when a stream's `index_eof` is positive and its
`index` equals `index_eof`, the next call of `mp_media_next_video` (with or
without preload) resp. `mp_media_next_audio` is the wraparound: it sets
`video.index`, `audio.index` and `next_wait` to 0, invokes no callback and
leaves everything else, the cached entries included.  With `index_eof = 0`
there is no wraparound: with caching off the call is a live call, which
leaves both cursors and `next_wait` as they are, leaves the session unchanged
when the decoded frame is not ready or not yet due, and consumes the frame
when it is (for audio: delivers it when an audio callback is registered and
the sample format is known). -/
theorem wraparound_at_positive_eof (m : mp_media) :
    (m.video.index_eof > 0 → m.video.index = m.video.index_eof →
      ∀ preload e, mp_media_next_video m preload e = some (cache_wraparound m)) ∧
    (m.audio.index_eof > 0 → m.audio.index = m.audio.index_eof →
      mp_media_next_audio m = some (cache_wraparound m)) ∧
    ((cache_wraparound m).video.index = 0 ∧ (cache_wraparound m).audio.index = 0 ∧
      (cache_wraparound m).next_wait = 0 ∧ (cache_wraparound m).log = m.log ∧
      (cache_wraparound m).video.data = m.video.data ∧
      (cache_wraparound m).audio.data = m.audio.data ∧
      (cache_wraparound m).v = m.v ∧ (cache_wraparound m).a = m.a) ∧
    (m.video.index_eof = 0 → m.caching = false →
      ∀ e m', mp_media_next_video m false e = some m' →
        m'.video = m.video ∧ m'.audio = m.audio ∧ m'.next_wait = m.next_wait ∧
        (mp_media_can_play_frame m m.v = false → m' = m) ∧
        (mp_media_can_play_frame m m.v = true → m'.v.frame_ready = false)) ∧
    (m.audio.index_eof = 0 → m.caching = false →
      (mp_media_can_play_frame m m.a = false → mp_media_next_audio m = some m) ∧
      (mp_media_can_play_frame m m.a = true → m.a_cb = true →
        (build_audio m).format ≠ audio_format.UNKNOWN →
        mp_media_next_audio m = some { m with
          a := { m.a with frame_ready := false }
          log := m.log ++ [event.audio_cb (build_audio m)] })) := by
  refine ⟨fun h1 h2 preload e => ?_, fun h1 h2 => ?_,
    ⟨rfl, rfl, rfl, rfl, rfl, rfl, rfl, rfl⟩, ?_, ?_⟩
  · unfold mp_media_next_video
    rw [if_pos ⟨h1, h2⟩]
  · unfold mp_media_next_audio
    rw [if_pos ⟨h1, h2⟩]
  · intro h0 hc e m' h
    have hw : ¬ (m.video.index_eof > 0 ∧ m.video.index = m.video.index_eof) := by omega
    have hlive : m.video.index_eof < 0 ∨ m.caching = false := Or.inr hc
    unfold mp_media_next_video at h
    rw [if_neg hw, if_pos hlive, if_pos rfl] at h
    split_ifs at h with hplay hcb
    · cases h
      exact ⟨rfl, rfl, rfl, fun _ => rfl, fun ht => by rw [hplay] at ht; cases ht⟩
    · cases h
      exact ⟨rfl, rfl, rfl, fun hf => absurd hf hplay, fun _ => rfl⟩
    · obtain ⟨⟨ha, hwt, hv⟩, hr⟩ := video_convert_effect h
      refine ⟨?_, ha, hwt, fun hf => absurd hf hplay, fun _ => hr⟩
      rcases hv with ⟨-, hv⟩ | ⟨f, -, hoff, -⟩
      · exact hv
      · exact hoff hc
  · intro h0 hc
    have hw : ¬ (m.audio.index_eof > 0 ∧ m.audio.index = m.audio.index_eof) := by omega
    have hlive : m.audio.index_eof < 0 ∨ m.caching = false := Or.inr hc
    refine ⟨fun hplay => ?_, fun hplay hcb hfmt => ?_⟩
    · unfold mp_media_next_audio
      rw [if_neg hw, if_pos hlive, if_pos hplay]
    · unfold mp_media_next_audio
      rw [if_neg hw, if_pos hlive, if_neg (by simp [hplay]), if_neg (by simp [hcb]),
        if_neg hfmt, if_neg (by simp [hc])]

/-! ## The sleep to the deadline -/

theorem preload_stamps_append (l₁ l₂ : List event) :
    preload_stamps (l₁ ++ l₂) = preload_stamps l₁ ++ preload_stamps l₂ := by
  unfold preload_stamps
  rw [List.filterMap_append]

/-- An iteration whose sleep timed out does not enter the pump: it is the
iteration of the flags alone. -/
theorem timeout_iter_flags (fuel : Nat) (m : mp_media) (e : iter_env)
    (hact : m.active = true) (hto : (mp_media_sleepto m e.now).2 = true) :
    mp_media_thread_iter fuel m e =
      if m.kill = true then
        thread_step.exit
          (clear_cache { (mp_media_sleepto m e.now).1 with reset := false, kill := false }) true
      else if m.reset = true then
        match mp_media_reset
            { (mp_media_sleepto m e.now).1 with reset := false, kill := false } e.reset with
        | none => thread_step.undefined
        | some (m2, _) => thread_step.next m2
      else thread_step.next { (mp_media_sleepto m e.now).1 with reset := false, kill := false } := by
  obtain ⟨-, hk, hr⟩ := stops_sleepto m e.now
  unfold mp_media_thread_iter
  rw [if_neg (by simp [hact])]
  unfold thread_iter_flags
  rw [hto, hk, hr]
  simp

/-- C22.  For a clock reading `t` (with `t + 200000000` within `uint64_t`): if
`next_ns` is 0, `mp_media_sleepto` sets `next_ns` to `t`, does not sleep and
returns false; otherwise it sleeps until `min(next_ns, t + 200000000)`, which
is never later than 200 ms after `t`, changes nothing else, and returns true
exactly when `next_ns - t > 200000000`.  On an iteration of the worker whose
sleep returned true the control flags are read next and the pump is skipped:
nothing goes to the video, preload or audio callback, the iteration does not
depend on what the decoders would produce, and with no kill or reset request
pending it changes nothing but the log of the sleep, so the clock is as it
was; a pending kill or reset request is served as on any iteration. -/
theorem sleepto_slices (m : mp_media) (t : Int) (ht : 0 ≤ t)
    (hfit : t + 200000000 ≤ UINT64_MAX) (hn : inU64 m.next_ns) :
    (m.next_ns = 0 → mp_media_sleepto m t = ({ m with next_ns := t }, false)) ∧
    (m.next_ns ≠ 0 →
      (mp_media_sleepto m t).1
        = { m with log := m.log ++ [event.sleepto_ns (min m.next_ns (t + 200000000))] } ∧
      min m.next_ns (t + 200000000) ≤ t + 200000000 ∧
      ((mp_media_sleepto m t).2 = true ↔ m.next_ns - t > 200000000)) ∧
    ((mp_media_sleepto m t).2 = true → m.active = true →
      ∀ fuel e, e.now = t →
        (m.kill = false → m.reset = false →
          mp_media_thread_iter fuel m e = thread_step.next
            { m with log := m.log ++ [event.sleepto_ns (t + 200000000)] }) ∧
        (∀ m', mp_media_thread_iter fuel m e = thread_step.next m' →
          ∃ evs, m'.log = m.log ++ evs ∧ video_stamps evs = [] ∧
            preload_stamps evs = [] ∧ audio_stamps evs = []) ∧
        (∀ e', e'.now = t → e'.reset = e.reset →
          mp_media_thread_iter fuel m e' = mp_media_thread_iter fuel m e)) := by
  unfold inU64 UINT64_MAX at hn
  unfold UINT64_MAX at hfit
  have hslept : m.next_ns ≠ 0 →
      (mp_media_sleepto m t).1
        = { m with log := m.log ++ [event.sleepto_ns (min m.next_ns (t + 200000000))] } ∧
      ((mp_media_sleepto m t).2 = true ↔ m.next_ns - t > 200000000) := by
    intro hne
    unfold mp_media_sleepto
    simp only [if_neg hne]
    have hsub : m.next_ns > t → wrapU64 (m.next_ns - t) = m.next_ns - t := by
      intro hgt
      unfold wrapU64
      omega
    have hadd : wrapU64 (t + 200000000) = t + 200000000 := by
      unfold wrapU64
      omega
    by_cases hlate : m.next_ns > t ∧ wrapU64 (m.next_ns - t) > 200000000
    · rw [if_pos hlate]
      have h2 := hlate.2
      rw [hsub hlate.1] at h2
      have hmin : min m.next_ns (t + 200000000) = t + 200000000 := by
        rw [min_eq_right]
        omega
      rw [hmin, hadd]
      exact ⟨rfl, by simp; omega⟩
    · rw [if_neg hlate]
      have hle : ¬ m.next_ns - t > 200000000 := by
        intro hgt
        apply hlate
        have h1 : m.next_ns > t := by omega
        exact ⟨h1, by rw [hsub h1]; exact hgt⟩
      have hmin : min m.next_ns (t + 200000000) = m.next_ns := by
        rw [min_eq_left]
        omega
      rw [hmin]
      exact ⟨rfl, by simp; omega⟩
  refine ⟨fun h0 => ?_, fun hne => ⟨(hslept hne).1, min_le_right _ _, (hslept hne).2⟩, ?_⟩
  · unfold mp_media_sleepto
    rw [if_pos h0]
  · intro hto hact fuel e hnow
    have hne : m.next_ns ≠ 0 := by
      intro h0
      unfold mp_media_sleepto at hto
      rw [if_pos h0] at hto
      cases hto
    obtain ⟨hstate, hiff⟩ := hslept hne
    have hgt := hiff.mp hto
    have hmin : min m.next_ns (t + 200000000) = t + 200000000 := by
      rw [min_eq_right]
      omega
    rw [hmin] at hstate
    have hiter : ∀ e' : iter_env, e'.now = t →
        mp_media_thread_iter fuel m e' =
          if m.kill = true then
            thread_step.exit (clear_cache
              { m with log := m.log ++ [event.sleepto_ns (t + 200000000)],
                       reset := false, kill := false }) true
          else if m.reset = true then
            match mp_media_reset
                { m with log := m.log ++ [event.sleepto_ns (t + 200000000)],
                         reset := false, kill := false } e'.reset with
            | none => thread_step.undefined
            | some (m2, _) => thread_step.next m2
          else thread_step.next
            { m with log := m.log ++ [event.sleepto_ns (t + 200000000)],
                     reset := false, kill := false } := by
      intro e' hnow'
      have h := timeout_iter_flags fuel m e' hact (by rw [hnow']; exact hto)
      rw [hnow', hstate] at h
      exact h
    refine ⟨fun hk hr => ?_, fun m' h => ?_, fun e' hnow' hreset => ?_⟩
    · rw [hiter e hnow, if_neg (by simp [hk]), if_neg (by simp [hr])]
      congr 1
      cases m
      simp only at hk hr
      subst hk
      subst hr
      rfl
    · rw [hiter e hnow] at h
      split_ifs at h with hk hr
      · split at h
        · cases h
        · rename_i m2 ok hreset
          cases h
          obtain ⟨-, pre, st, hl, hp, hs⟩ := reset_logs hreset
          have hpre : pre = [] := by
            rcases hp with hp | ⟨ha, -⟩
            · exact hp
            · rw [hact] at ha
              cases ha
          refine ⟨[event.sleepto_ns (t + 200000000)] ++ [event.reset_mark] ++ pre ++ st, ?_,
            ?_, ?_, ?_⟩
          · rw [hl]
            simp [List.append_assoc]
          · rcases hs with hs | ⟨-, -, hs⟩ <;> rw [hpre, hs] <;> rfl
          · rcases hs with hs | ⟨-, -, hs⟩ <;> rw [hpre, hs] <;> rfl
          · rcases hs with hs | ⟨-, -, hs⟩ <;> rw [hpre, hs] <;> rfl
      · cases h
        exact ⟨[event.sleepto_ns (t + 200000000)], rfl, rfl, rfl, rfl⟩
    · rw [hiter e hnow, hiter e' hnow', hreset]

theorem sleepto_slices_witness :
    (mp_media_sleepto waiting_media 2000).2 = true ∧
    mp_media_thread_iter 0 waiting_media (pump_env (ready_decode 15) zero_decode)
      = thread_step.next
          { waiting_media with log := waiting_media.log ++ [event.sleepto_ns 200002000] } := by
  have h := sleepto_slices waiting_media 2000 (by decide) (by decide) (by decide)
  have hto : (mp_media_sleepto waiting_media 2000).2 = true := (h.2.1 (by decide)).2.2.mpr (by decide)
  exact ⟨hto, (h.2.2 hto (by decide) 0 (pump_env (ready_decode 15) zero_decode) rfl).1
    (by decide) (by decide)⟩

/-! ## The catch-up loop -/

theorem catch_up_loop_succ (n : Nat) (m : mp_media) (ts : Int) :
    catch_up_loop (n + 1) m ts =
      if ts < m.video.refresh_rate_ns then
        match mp_media_next_audio
            { (catch_up_round m ts).1 with
              log := (catch_up_round m ts).1.log
                ++ [event.sleep_ms (wrapU32 (Int.tdiv (catch_up_round m ts).2.2 1000000))] } with
        | none => thread_step.undefined
        | some m2 =>
          catch_up_loop n m2 (wrapI64 ((catch_up_round m ts).2.1 + (catch_up_round m ts).2.2))
      else thread_step.next m := by
  unfold catch_up_round
  rw [catch_up_loop]
  split_ifs <;> simp only []

theorem sleeps_append (l₁ l₂ : List event) : sleeps (l₁ ++ l₂) = sleeps l₁ ++ sleeps l₂ := by
  unfold sleeps
  rw [List.filterMap_append]

/-- In replay a call of `mp_media_next_audio` keeps the refresh intervals, the
caching mode and a zero `next_wait`, and makes no sleep. -/
theorem next_audio_replay_keeps {m m' : mp_media} (hc : m.caching = true)
    (he : 0 ≤ m.audio.index_eof) (h : mp_media_next_audio m = some m') :
    m'.audio.refresh_rate_ns = m.audio.refresh_rate_ns ∧
    m'.video.refresh_rate_ns = m.video.refresh_rate_ns ∧
    (m.next_wait = 0 → m'.next_wait = 0) ∧
    m'.caching = true ∧ 0 ≤ m'.audio.index_eof ∧
    ∃ evs, m'.log = m.log ++ evs ∧ sleeps evs = [] := by
  have hlive : ¬ (m.audio.index_eof < 0 ∨ m.caching = false) := by
    rw [hc]
    simp only [Bool.true_eq_false, or_false, not_lt]
    exact he
  unfold mp_media_next_audio at h
  split_ifs at h with hw
  · cases h
    exact ⟨rfl, rfl, fun _ => rfl, hc, he, [], by simp [cache_wraparound], rfl⟩
  · unfold next_audio_cached at h
    split at h
    · cases h
    · split_ifs at h
      cases h
      exact ⟨rfl, rfl, fun h0 => h0, hc, he, _, rfl, rfl⟩

theorem sleep_ms_arg {x : Int} (h0 : 0 ≤ x) (h1 : x ≤ INT32_MAX) :
    wrapU32 (Int.tdiv x 1000000) = x / 1000000 := by
  unfold INT32_MAX at h1
  rw [Int.tdiv_eq_ediv h0 (by norm_num)]
  unfold wrapU32
  omega

/-- The first round of the catch-up loop sleeps for the audio interval. -/
theorem catch_up_round_first (m : mp_media) (hw : m.next_wait = 0)
    (hA : 0 < m.audio.refresh_rate_ns) (hfitA : m.audio.refresh_rate_ns ≤ INT32_MAX) :
    catch_up_round m 0 = (m, 0, m.audio.refresh_rate_ns) := by
  unfold INT32_MAX at hfitA
  have h64 : wrapI64 (m.audio.refresh_rate_ns - 0) = m.audio.refresh_rate_ns := by
    unfold wrapI64
    omega
  have h32 : wrapI32 m.audio.refresh_rate_ns = m.audio.refresh_rate_ns := by
    unfold wrapI32
    omega
  unfold catch_up_round
  rw [h64, if_pos hA, if_neg (by omega), h32]

/-- The round that starts when the audio interval has been slept sleeps for
what is left of the video interval. -/
theorem catch_up_round_second (m : mp_media)
    (hAV : m.audio.refresh_rate_ns < m.video.refresh_rate_ns)
    (hfitV : m.video.refresh_rate_ns - m.audio.refresh_rate_ns ≤ INT32_MAX) :
    catch_up_round m m.audio.refresh_rate_ns
      = (m, m.audio.refresh_rate_ns, m.video.refresh_rate_ns - m.audio.refresh_rate_ns) := by
  unfold INT32_MAX at hfitV
  have h0 : wrapI64 (m.audio.refresh_rate_ns - m.audio.refresh_rate_ns) = 0 := by
    unfold wrapI64
    omega
  have h64 : wrapI64 (m.video.refresh_rate_ns - m.audio.refresh_rate_ns)
      = m.video.refresh_rate_ns - m.audio.refresh_rate_ns := by
    unfold wrapI64
    omega
  have h32 : wrapI32 (m.video.refresh_rate_ns - m.audio.refresh_rate_ns)
      = m.video.refresh_rate_ns - m.audio.refresh_rate_ns := by
    unfold wrapI32
    omega
  unfold catch_up_round
  rw [h0, if_neg (by omega), h64, h32]

/-- With intervals that fit an `int`, the catch-up loop is two rounds: a sleep
of the audio interval and an audio delivery, then a sleep of the rest of the
video interval and an audio delivery. -/
theorem catch_up_loop_two_rounds (m : mp_media) (n : Nat)
    (hc : m.caching = true) (he : 0 ≤ m.audio.index_eof) (hw : m.next_wait = 0)
    (hA : 0 < m.audio.refresh_rate_ns)
    (hAV : m.audio.refresh_rate_ns < m.video.refresh_rate_ns)
    (hfitA : m.audio.refresh_rate_ns ≤ INT32_MAX)
    (hfitV : m.video.refresh_rate_ns - m.audio.refresh_rate_ns ≤ INT32_MAX) :
    catch_up_loop (n + 3) m 0 =
      match mp_media_next_audio
          { m with log := m.log ++ [event.sleep_ms (m.audio.refresh_rate_ns / 1000000)] } with
      | none => thread_step.undefined
      | some m2 =>
        match mp_media_next_audio
            { m2 with log := m2.log ++ [event.sleep_ms
                ((m.video.refresh_rate_ns - m.audio.refresh_rate_ns) / 1000000)] } with
        | none => thread_step.undefined
        | some m3 => thread_step.next m3 := by
  have hV : (0 : Int) < m.video.refresh_rate_ns := by omega
  rw [catch_up_loop_succ, if_pos hV, catch_up_round_first m hw hA hfitA]
  simp only
  rw [sleep_ms_arg (le_of_lt hA) hfitA]
  cases h1 : mp_media_next_audio
      { m with log := m.log ++ [event.sleep_ms (m.audio.refresh_rate_ns / 1000000)] } with
  | none => rfl
  | some m2 =>
    simp only
    obtain ⟨ra, rv, rw0, rc, re, -⟩ := next_audio_replay_keeps
      (m := { m with log := m.log ++ [event.sleep_ms (m.audio.refresh_rate_ns / 1000000)] })
      hc he h1
    have ra' : m2.audio.refresh_rate_ns = m.audio.refresh_rate_ns := ra
    have rv' : m2.video.refresh_rate_ns = m.video.refresh_rate_ns := rv
    have hts : wrapI64 (0 + m.audio.refresh_rate_ns) = m2.audio.refresh_rate_ns := by
      unfold INT32_MAX at hfitA
      rw [ra']
      unfold wrapI64
      omega
    rw [hts, catch_up_loop_succ, if_pos (by rw [ra', rv']; exact hAV),
      catch_up_round_second m2 (by rw [ra', rv']; exact hAV) (by rw [ra', rv']; exact hfitV)]
    simp only
    rw [ra', rv', sleep_ms_arg (by omega) hfitV]
    cases h2 : mp_media_next_audio
        { m2 with log := m2.log ++ [event.sleep_ms
            ((m.video.refresh_rate_ns - m.audio.refresh_rate_ns) / 1000000)] } with
    | none => rfl
    | some m3 =>
      simp only
      obtain ⟨-, rv3, -⟩ := next_audio_replay_keeps
        (m := { m2 with log := m2.log ++ [event.sleep_ms
            ((m.video.refresh_rate_ns - m.audio.refresh_rate_ns) / 1000000)] })
        rc re h2
      have rv3' : m3.video.refresh_rate_ns = m.video.refresh_rate_ns := rv3.trans rv'
      have hts2 : wrapI64 (m.audio.refresh_rate_ns
          + (m.video.refresh_rate_ns - m.audio.refresh_rate_ns)) = m.video.refresh_rate_ns := by
        unfold INT32_MAX at hfitA hfitV
        unfold wrapI64
        omega
      rw [hts2, catch_up_loop_succ, if_neg (by rw [rv3']; omega)]

theorem catch_up_loop_mono (fuel : Nat) :
    ∀ (m m' : mp_media) (ts : Int), catch_up_loop fuel m ts = thread_step.next m' →
      catch_up_loop (fuel + 1) m ts = thread_step.next m' := by
  induction fuel with
  | zero =>
    intro m m' ts h
    unfold catch_up_loop at h
    cases h
  | succ n ih =>
    intro m m' ts h
    rw [catch_up_loop_succ] at h ⊢
    split_ifs at h ⊢ with hlt
    · cases hn : mp_media_next_audio
          { (catch_up_round m ts).1 with
            log := (catch_up_round m ts).1.log
              ++ [event.sleep_ms (wrapU32 (Int.tdiv (catch_up_round m ts).2.2 1000000))] } with
      | none =>
        rw [hn] at h
        cases h
      | some m2 =>
        rw [hn] at h
        simp only at h ⊢
        exact ih _ _ _ h
    · exact h

theorem catch_up_loop_mono_add (k : Nat) :
    ∀ (fuel : Nat) (m m' : mp_media) (ts : Int),
      catch_up_loop fuel m ts = thread_step.next m' →
      catch_up_loop (fuel + k) m ts = thread_step.next m' := by
  induction k with
  | zero =>
    intro fuel m m' ts h
    exact h
  | succ k ih =>
    intro fuel m m' ts h
    exact catch_up_loop_mono (fuel + k) m m' ts (ih fuel m m' ts h)

theorem slow_video_second_sleep :
    slow_video_media.caching = true ∧ 0 ≤ slow_video_media.video.index_eof ∧
    0 ≤ slow_video_media.audio.index_eof ∧
    slow_video_media.video.refresh_rate_ns > slow_video_media.audio.refresh_rate_ns ∧
    slow_video_media.audio.refresh_rate_ns = 10000000 ∧
    ∃ m', catch_up_loop 3 slow_video_media 0 = thread_step.next m' ∧
      sleeps m'.log = [10, 20] := by
  exact ⟨by decide, by decide, by decide, by decide, by decide, _, rfl, by decide⟩

/-- A round of the catch-up loop that starts past the audio interval with a
rest of the video interval that the `int` `sleeping_time` truncates to 0
sleeps 0 ms and leaves `time_spent` where it was: in replay the loop does not
end from there. -/
theorem catch_up_loop_stuck (fuel : Nat) :
    ∀ (m m' : mp_media) (ts : Int), m.caching = true → 0 ≤ m.audio.index_eof →
      ts < m.video.refresh_rate_ns → ¬ (wrapI64 (m.audio.refresh_rate_ns - ts) > 0) →
      wrapI32 (wrapI64 (m.video.refresh_rate_ns - ts)) = 0 → inI64 ts →
      catch_up_loop fuel m ts ≠ thread_step.next m' := by
  induction fuel with
  | zero =>
    intro m m' ts _ _ _ _ _ _ h
    unfold catch_up_loop at h
    cases h
  | succ n ih =>
    intro m m' ts hc he hlt hna hz hts h
    have hround : catch_up_round m ts = (m, ts, 0) := by
      unfold catch_up_round
      rw [if_neg hna, hz]
    rw [catch_up_loop_succ, if_pos hlt, hround] at h
    simp only at h
    cases hn : mp_media_next_audio
        { m with log := m.log ++ [event.sleep_ms (wrapU32 (Int.tdiv 0 1000000))] } with
    | none =>
      rw [hn] at h
      cases h
    | some m2 =>
      rw [hn] at h
      simp only at h
      obtain ⟨ra, rv, -, rc, re, -⟩ := next_audio_replay_keeps
        (m := { m with log := m.log ++ [event.sleep_ms (wrapU32 (Int.tdiv 0 1000000))] })
        hc he hn
      have ra' : m2.audio.refresh_rate_ns = m.audio.refresh_rate_ns := ra
      have rv' : m2.video.refresh_rate_ns = m.video.refresh_rate_ns := rv
      have hback : wrapI64 (ts + 0) = ts := by
        rw [add_zero]
        exact wrapI64_of_inI64 hts
      rw [hback] at h
      exact ih m2 m' ts rc re (by rw [rv']; exact hlt) (by rw [ra']; exact hna)
        (by rw [rv']; exact hz) hts h

/-- In replay with a video interval of 5 s and an audio interval of 23219954 ns
the catch-up loop does not end: after sleeps of 23 ms and 681 ms, 4294967296 ns
of the video interval are left, which `sleeping_time` truncates to 0. -/
theorem catch_up_loop_never_ends (m : mp_media) (hc : m.caching = true)
    (he : 0 ≤ m.audio.index_eof) (hw : m.next_wait = 0)
    (hA : m.audio.refresh_rate_ns = 23219954) (hV : m.video.refresh_rate_ns = 5000000000)
    (fuel : Nat) (m' : mp_media) : catch_up_loop fuel m 0 ≠ thread_step.next m' := by
  intro h
  cases fuel with
  | zero =>
    unfold catch_up_loop at h
    cases h
  | succ n =>
    rw [catch_up_loop_succ, if_pos (by rw [hV]; decide),
      catch_up_round_first m hw (by rw [hA]; decide) (by rw [hA]; decide)] at h
    simp only at h
    cases h1 : mp_media_next_audio
        { m with log := m.log
          ++ [event.sleep_ms (wrapU32 (Int.tdiv m.audio.refresh_rate_ns 1000000))] } with
    | none =>
      rw [h1] at h
      cases h
    | some m2 =>
      rw [h1] at h
      simp only at h
      obtain ⟨ra, rv, -, rc, re, -⟩ := next_audio_replay_keeps
        (m := { m with log := m.log
          ++ [event.sleep_ms (wrapU32 (Int.tdiv m.audio.refresh_rate_ns 1000000))] })
        hc he h1
      have ra' : m2.audio.refresh_rate_ns = 23219954 := ra.trans hA
      have rv' : m2.video.refresh_rate_ns = 5000000000 := rv.trans hV
      rw [hA] at h
      have hts1 : wrapI64 (0 + 23219954) = 23219954 := by decide
      rw [hts1] at h
      cases n with
      | zero =>
        unfold catch_up_loop at h
        cases h
      | succ k =>
        have hround : catch_up_round m2 23219954 = (m2, 23219954, 681812750) := by
          unfold catch_up_round
          rw [ra', rv']
          rfl
        rw [catch_up_loop_succ, if_pos (by rw [rv']; decide), hround] at h
        simp only at h
        cases h2 : mp_media_next_audio
            { m2 with log := m2.log
              ++ [event.sleep_ms (wrapU32 (Int.tdiv 681812750 1000000))] } with
        | none =>
          rw [h2] at h
          cases h
        | some m3 =>
          rw [h2] at h
          simp only at h
          obtain ⟨ra3, rv3, -, rc3, re3, -⟩ := next_audio_replay_keeps
            (m := { m2 with log := m2.log
              ++ [event.sleep_ms (wrapU32 (Int.tdiv 681812750 1000000))] })
            rc re h2
          have ra3' : m3.audio.refresh_rate_ns = 23219954 := ra3.trans ra'
          have rv3' : m3.video.refresh_rate_ns = 5000000000 := rv3.trans rv'
          have hts2 : wrapI64 (23219954 + 681812750) = 705032704 := by decide
          rw [hts2] at h
          exact catch_up_loop_stuck k m3 m' 705032704 rc3 re3 (by rw [rv3']; decide)
            (by rw [ra3']; decide) (by rw [rv3']; decide) (by decide) h

/-- C25, at the failing input.  In replay with `next_wait = 0`, a video
interval of 5000000000 ns and an audio interval of 23219954 ns, the catch-up
loop never ends, whatever the number of rounds: it is still running after 40
rounds, and so does the worker iteration stay in it.  After the first two
rounds `time_spent` is 705032704, the rest of the video interval is
4294967296, and the `int` `sleeping_time` is 0 from then on. -/
theorem catch_up_loop_spins :
    (still_video_media.video.refresh_rate_ns > still_video_media.audio.refresh_rate_ns ∧
      still_video_media.next_wait = 0) ∧
    (∀ fuel m', catch_up_loop fuel still_video_media 0 ≠ thread_step.next m') ∧
    catch_up_loop 40 still_video_media 0 = thread_step.no_fuel ∧
    mp_media_thread_iter 40 still_video_media ending_iter = thread_step.no_fuel ∧
    wrapI32 (wrapI64 (5000000000 - 705032704)) = 0 := by
  refine ⟨by decide, fun fuel m' => ?_, by decide, by decide, by decide⟩
  exact catch_up_loop_never_ends still_video_media (by decide) (by decide) (by decide)
    (by decide) (by decide) fuel m'

/-! ## The bounds of the cache arrays -/

theorem darray_get_in_bounds {α : Type} (l : List α) (i : Int) (h0 : 0 ≤ i)
    (hlt : i < l.length) : ∃ y, darray_get l i = some y := by
  unfold darray_get
  have hn : i.toNat < l.length := by omega
  rw [if_pos h0, List.get?_eq_getElem?, List.getElem?_eq_getElem hn]
  exact ⟨_, rfl⟩

theorem video_deliver_defined (m : mp_media) (preload : Bool) (frame : obs_source_frame)
    (hcb : m.v_cb = true) (hpre : m.v_preload_cb = true) :
    ∃ m', video_deliver m preload frame = some m' := by
  unfold video_deliver
  split_ifs with hp h1 h2
  · rw [hpre] at h1
    cases h1
  · exact ⟨_, rfl⟩
  · rw [hcb] at h2
    cases h2
  · exact ⟨_, rfl⟩

theorem video_store_defined (m : mp_media) (preload : Bool) (e : video_env)
    (hcb : m.v_cb = true) (hpre : m.v_preload_cb = true)
    (hidx : m.caching = true → m.video.index = m.video.data.length) :
    ∃ m', video_store m preload e = some m' := by
  unfold video_store
  split_ifs with hc hpos
  · obtain ⟨y, hy⟩ := darray_get_pred_length m.video.data m.video.index (hidx hc) hpos
    simp only [hy]
    exact video_deliver_defined _ preload _ hcb hpre
  · exact video_deliver_defined _ preload _ hcb hpre
  · exact video_deliver_defined _ preload _ hcb hpre

theorem video_keyframe_defined (m : mp_media) (preload : Bool) (e : video_env)
    (hcb : m.v_cb = true) (hpre : m.v_preload_cb = true)
    (hidx : m.caching = true → m.video.index = m.video.data.length) :
    ∃ m', video_keyframe m preload e = some m' := by
  unfold video_keyframe
  split_ifs
  · exact ⟨_, rfl⟩
  · exact video_store_defined _ preload e hcb hpre hidx
  · exact video_store_defined _ preload e hcb hpre hidx

theorem video_stamp_defined (m : mp_media) (flip preload : Bool) (e : video_env)
    (hcb : m.v_cb = true) (hpre : m.v_preload_cb = true)
    (hidx : m.caching = true → m.video.index = m.video.data.length) :
    ∃ m', video_stamp m flip preload e = some m' := by
  unfold video_stamp
  exact video_keyframe_defined _ preload e hcb hpre hidx

theorem video_format_stage_defined (m : mp_media) (flip preload : Bool) (e : video_env)
    (hcb : m.v_cb = true) (hpre : m.v_preload_cb = true)
    (hidx : m.caching = true → m.video.index = m.video.data.length) :
    ∃ m', video_format_stage m flip preload e = some m' := by
  unfold video_format_stage
  split_ifs
  · exact ⟨_, rfl⟩
  · exact ⟨_, rfl⟩
  · exact video_stamp_defined _ flip preload e hcb hpre hidx
  · exact ⟨_, rfl⟩
  · exact video_stamp_defined _ flip preload e hcb hpre hidx

theorem video_convert_defined (m : mp_media) (preload : Bool) (e : video_env)
    (hcb : m.v_cb = true) (hpre : m.v_preload_cb = true)
    (hidx : m.caching = true → m.video.index = m.video.data.length) :
    ∃ m', video_convert m preload e = some m' := by
  unfold video_convert
  split_ifs
  · exact ⟨_, rfl⟩
  · exact video_format_stage_defined _ _ preload e hcb hpre hidx

/-- With caching on, the bookkeeping of the claim and registered callbacks,
every cache access of `mp_media_next_video` and `mp_media_next_audio` is within
bounds (the call is defined) unless the stream's cache was closed with no
entry. -/
theorem cache_access_in_bounds (m : mp_media) (hc : m.caching = true) :
    (cache_books m.video → m.video.index_eof ≠ 0 → m.v_cb = true → m.v_preload_cb = true →
      ∀ preload e, ∃ m', mp_media_next_video m preload e = some m') ∧
    (cache_books m.audio → m.audio.index_eof ≠ 0 → m.a_cb = true →
      ∃ m', mp_media_next_audio m = some m') := by
  constructor
  · intro hb h0 hcb hpre preload e
    unfold mp_media_next_video
    split_ifs with hw hlive hp hplay hv hr
    · exact ⟨_, rfl⟩
    · exact ⟨_, rfl⟩
    · exact ⟨_, rfl⟩
    · refine video_convert_defined _ preload e hcb hpre (fun _ => ?_)
      rcases hb with ⟨-, hi⟩ | ⟨he, -⟩
      · exact hi
      · rcases hlive with hl | hl
        · omega
        · rw [hc] at hl
          cases hl
    · exact ⟨_, rfl⟩
    · refine video_convert_defined _ preload e hcb hpre (fun _ => ?_)
      rcases hb with ⟨-, hi⟩ | ⟨he, -⟩
      · exact hi
      · rcases hlive with hl | hl
        · omega
        · rw [hc] at hl
          cases hl
    · rcases hb with ⟨hneg, -⟩ | ⟨he, hlen, hi0, hile⟩
      · exact absurd (Or.inl hneg) hlive
      · have hlt : m.video.index < m.video.data.length := by
          have hne : m.video.index ≠ m.video.index_eof := fun heq => hw ⟨by omega, heq⟩
          omega
        obtain ⟨y, hy⟩ := darray_get_in_bounds m.video.data m.video.index hi0 hlt
        simp only [hy]
        exact video_deliver_defined _ preload _ hcb hpre
  · intro hb h0 hcb
    unfold mp_media_next_audio
    split_ifs with hw hlive hplay ha hfmt
    · exact ⟨_, rfl⟩
    · exact ⟨_, rfl⟩
    · exact ⟨_, rfl⟩
    · exact ⟨_, rfl⟩
    · rcases hb with ⟨-, hi⟩ | ⟨he, -⟩
      · obtain ⟨m', hm', -⟩ := next_audio_store_at_end
          { m with a := { m.a with frame_ready := false } } (build_audio m) hi hcb
        exact ⟨m', hm'⟩
      · rcases hlive with hl | hl
        · omega
        · rw [hc] at hl
          cases hl
    · rcases hb with ⟨hneg, -⟩ | ⟨he, hlen, hi0, hile⟩
      · exact absurd (Or.inl hneg) hlive
      · have hlt : m.audio.index < m.audio.data.length := by
          have hne : m.audio.index ≠ m.audio.index_eof := fun heq => hw ⟨by omega, heq⟩
          omega
        obtain ⟨y, hy⟩ := darray_get_in_bounds m.audio.data m.audio.index hi0 hlt
        unfold next_audio_cached
        simp only [hy, hcb]
        exact ⟨_, rfl⟩

/-- C24, at the failing input.  A session with caching on whose audio cache
(resp. video cache) was closed with no entry satisfies the bookkeeping
(`index_eof = 0` entries, `index = 0`), and the call of `mp_media_next_audio`
(resp. `mp_media_next_video`) reads `array[0]` of the empty cache.  The worker
reaches that state: on a looping session with caching on whose audio frames
have an unknown sample format, the first pass caches two video frames and no
audio buffer, the end of stream closes the audio cache with `index_eof = 0`,
and the first replay iteration makes the access. -/
theorem empty_closed_cache_is_read :
    (empty_audio_media.caching = true ∧ cache_books empty_audio_media.audio ∧
      cache_books empty_audio_media.video ∧ empty_audio_media.a_cb = true ∧
      mp_media_next_audio empty_audio_media = none) ∧
    (empty_video_media.caching = true ∧ cache_books empty_video_media.video ∧
      cache_books empty_video_media.audio ∧ empty_video_media.v_cb = true ∧
      mp_media_next_video empty_video_media false good_video_env = none) ∧
    (∃ m1, mp_media_thread_loop 0 unknown_audio_media
        [pump_env (ready_decode 10) (unknown_audio_decode 10), loop_end_iter 20]
          = thread_step.next m1 ∧
      m1.caching = true ∧ cache_books m1.video ∧ cache_books m1.audio ∧
      m1.video.index_eof = 2 ∧ m1.audio.index_eof = 0 ∧ m1.audio.data = [] ∧
      mp_media_thread_iter 0 m1 ending_iter = thread_step.undefined) := by
  exact ⟨⟨by decide, by decide, by decide, by decide, by decide⟩,
    ⟨by decide, by decide, by decide, by decide, by decide⟩,
    ⟨_, rfl, by decide, by decide, by decide, by decide, by decide, by decide, by decide⟩⟩

/-- In replay a call of `mp_media_next_audio` that returns is an
`audio_replay_step`. -/
theorem next_audio_replay_step {x x1 : mp_media} (hc : x.caching = true)
    (he : 0 ≤ x.audio.index_eof) (h : mp_media_next_audio x = some x1) :
    audio_replay_step x x1 := by
  unfold mp_media_next_audio at h
  by_cases hw : x.audio.index_eof > 0 ∧ x.audio.index = x.audio.index_eof
  · rw [if_pos hw] at h
    cases h
    exact Or.inl ⟨hw.1, hw.2, rfl⟩
  · rw [if_neg hw, if_neg (by rw [hc]; simp; omega)] at h
    unfold next_audio_cached at h
    cases hg : darray_get x.audio.data x.audio.index with
    | none =>
      rw [hg] at h
      cases h
    | some entry =>
      rw [hg] at h
      simp only at h
      split_ifs at h
      cases h
      exact Or.inr ⟨hw, entry, hg, rfl, rfl, rfl⟩

/-! ## The two rounds of the catch-up loop -/

/-- C23, as the code has it: in cache replay with
`video.refresh_rate_ns > audio.refresh_rate_ns > 0`, `next_wait = 0` and
intervals that fit the `int` `sleeping_time`, the catch-up loop is exactly two
rounds, and three rounds of fuel are enough for it: it sleeps
`audio.refresh_rate_ns` and calls `mp_media_next_audio`, then sleeps
`video.refresh_rate_ns - audio.refresh_rate_ns` and calls
`mp_media_next_audio` again (both sleeps are passed to `os_sleep_ms` in whole
milliseconds).  Each of the two calls is an `audio_replay_step`: it hands the
cached entry under the audio cursor, restamped, to the audio callback and
advances the audio cursor, or, with the audio cursor at
`audio.index_eof > 0`, rewinds both cursors and delivers nothing.
The first sleep is the audio interval; the second is longer than the audio
interval when the video interval is more than twice the audio interval. -/
theorem catch_up_sleeps (m : mp_media)
    (hc : m.caching = true) (he : 0 ≤ m.audio.index_eof) (hw : m.next_wait = 0)
    (hA : 0 < m.audio.refresh_rate_ns)
    (hAV : m.audio.refresh_rate_ns < m.video.refresh_rate_ns)
    (hfitA : m.audio.refresh_rate_ns ≤ INT32_MAX)
    (hfitV : m.video.refresh_rate_ns - m.audio.refresh_rate_ns ≤ INT32_MAX) :
    (catch_up_round m 0).2.2 = m.audio.refresh_rate_ns ∧
    (∀ m2 : mp_media, m2.audio.refresh_rate_ns = m.audio.refresh_rate_ns →
      m2.video.refresh_rate_ns = m.video.refresh_rate_ns →
      (catch_up_round m2 m.audio.refresh_rate_ns).2.2
        = m.video.refresh_rate_ns - m.audio.refresh_rate_ns) ∧
    (∀ fuel, catch_up_loop (fuel + 3) m 0 =
      match mp_media_next_audio
          { m with log := m.log ++ [event.sleep_ms (m.audio.refresh_rate_ns / 1000000)] } with
      | none => thread_step.undefined
      | some m2 =>
        match mp_media_next_audio
            { m2 with log := m2.log ++ [event.sleep_ms
                ((m.video.refresh_rate_ns - m.audio.refresh_rate_ns) / 1000000)] } with
        | none => thread_step.undefined
        | some m3 => thread_step.next m3) ∧
    (∀ fuel m', catch_up_loop fuel m 0 = thread_step.next m' →
      ∃ m2,
        mp_media_next_audio
          { m with log := m.log ++ [event.sleep_ms (m.audio.refresh_rate_ns / 1000000)] }
          = some m2 ∧
        audio_replay_step
          { m with log := m.log ++ [event.sleep_ms (m.audio.refresh_rate_ns / 1000000)] } m2 ∧
        mp_media_next_audio
          { m2 with log := m2.log ++ [event.sleep_ms
              ((m.video.refresh_rate_ns - m.audio.refresh_rate_ns) / 1000000)] }
          = some m' ∧
        audio_replay_step
          { m2 with log := m2.log ++ [event.sleep_ms
              ((m.video.refresh_rate_ns - m.audio.refresh_rate_ns) / 1000000)] } m' ∧
        ∃ evs, m'.log = m.log ++ evs ∧
          sleeps evs = [m.audio.refresh_rate_ns / 1000000,
            (m.video.refresh_rate_ns - m.audio.refresh_rate_ns) / 1000000]) ∧
    (2 * m.audio.refresh_rate_ns < m.video.refresh_rate_ns →
      ∀ m2 : mp_media, m2.audio.refresh_rate_ns = m.audio.refresh_rate_ns →
        m2.video.refresh_rate_ns = m.video.refresh_rate_ns →
        m.audio.refresh_rate_ns < (catch_up_round m2 m.audio.refresh_rate_ns).2.2) := by
  have hsecond : ∀ m2 : mp_media, m2.audio.refresh_rate_ns = m.audio.refresh_rate_ns →
      m2.video.refresh_rate_ns = m.video.refresh_rate_ns →
      (catch_up_round m2 m.audio.refresh_rate_ns).2.2
        = m.video.refresh_rate_ns - m.audio.refresh_rate_ns := by
    intro m2 ra rv
    have h := catch_up_round_second m2 (by rw [ra, rv]; exact hAV)
      (by rw [ra, rv]; exact hfitV)
    rw [ra, rv] at h
    rw [h]
  refine ⟨by rw [catch_up_round_first m hw hA hfitA], hsecond,
    fun fuel => catch_up_loop_two_rounds m fuel hc he hw hA hAV hfitA hfitV, ?_,
    fun h m2 ra rv => by rw [hsecond m2 ra rv]; omega⟩
  intro fuel m' h
  have h3 := catch_up_loop_mono_add 3 fuel m m' 0 h
  rw [catch_up_loop_two_rounds m fuel hc he hw hA hAV hfitA hfitV] at h3
  cases h1 : mp_media_next_audio
      { m with log := m.log ++ [event.sleep_ms (m.audio.refresh_rate_ns / 1000000)] } with
  | none =>
    rw [h1] at h3
    cases h3
  | some m2 =>
    rw [h1] at h3
    simp only at h3
    obtain ⟨-, -, -, rc, re, evs1, hl1, hs1⟩ := next_audio_replay_keeps
      (m := { m with log := m.log ++ [event.sleep_ms (m.audio.refresh_rate_ns / 1000000)] })
      hc he h1
    have st1 := next_audio_replay_step
      (x := { m with log := m.log ++ [event.sleep_ms (m.audio.refresh_rate_ns / 1000000)] })
      hc he h1
    cases h2 : mp_media_next_audio
        { m2 with log := m2.log ++ [event.sleep_ms
            ((m.video.refresh_rate_ns - m.audio.refresh_rate_ns) / 1000000)] } with
    | none =>
      rw [h2] at h3
      cases h3
    | some m3 =>
      rw [h2] at h3
      simp only [thread_step.next.injEq] at h3
      subst h3
      obtain ⟨-, -, -, -, -, evs2, hl2, hs2⟩ := next_audio_replay_keeps
        (m := { m2 with log := m2.log ++ [event.sleep_ms
            ((m.video.refresh_rate_ns - m.audio.refresh_rate_ns) / 1000000)] })
        rc re h2
      have st2 := next_audio_replay_step
        (x := { m2 with log := m2.log ++ [event.sleep_ms
            ((m.video.refresh_rate_ns - m.audio.refresh_rate_ns) / 1000000)] })
        rc re h2
      refine ⟨m2, rfl, st1, h2, st2,
        [event.sleep_ms (m.audio.refresh_rate_ns / 1000000)] ++ evs1
          ++ [event.sleep_ms ((m.video.refresh_rate_ns - m.audio.refresh_rate_ns) / 1000000)]
          ++ evs2, ?_, ?_⟩
      · rw [hl2]
        show (m2.log ++ _) ++ evs2 = _
        rw [hl1]
        simp [List.append_assoc]
      · rw [sleeps_append, sleeps_append, sleeps_append, hs1, hs2]
        rfl

theorem catch_up_sleeps_witness :
    ∃ m' m2, catch_up_loop 3 slow_video_media 0 = thread_step.next m' ∧
      mp_media_next_audio
        { slow_video_media with log := slow_video_media.log ++ [event.sleep_ms 10] }
        = some m2 ∧
      mp_media_next_audio { m2 with log := m2.log ++ [event.sleep_ms 20] } = some m' ∧
      audio_replay_step { m2 with log := m2.log ++ [event.sleep_ms 20] } m' ∧
      (∃ evs, m'.log = slow_video_media.log ++ evs ∧ sleeps evs = [10, 20]) ∧
      audio_stamps m'.log = [4030, 4040] := by
  have h := catch_up_sleeps slow_video_media (by decide) (by decide) (by decide) (by decide)
    (by decide) (by decide) (by decide)
  have hval : ∃ m', catch_up_loop 3 slow_video_media 0 = thread_step.next m' := ⟨_, rfl⟩
  obtain ⟨m', hm'⟩ := hval
  obtain ⟨m2, h1, -, h2, st2, evs, hl, hs⟩ := h.2.2.2.1 3 m' hm'
  have hst : audio_stamps m'.log = [4030, 4040] := by
    have hx : ∀ r : thread_step, r = thread_step.next m' →
        (match r with
          | thread_step.next x => audio_stamps x.log
          | _ => []) = audio_stamps m'.log := by
      intro r hr
      subst hr
      rfl
    rw [← hx _ hm']
    decide
  exact ⟨m', m2, hm', h1, h2, st2, ⟨evs, hl, by rw [hs]; decide⟩, hst⟩

/-! ## The cursors at end of stream after a stop request -/

/-- C19 on a looping local session with caching on and a preload callback,
three video frames and one audio buffer cached, on which a stop request
arrived while the last frames of the first pass were pumped.  `mp_media_eof`
detects end of stream and writes `video.index_eof = 3` and `video.index = 0`
(lines 607-611); the reset it then calls finds the session inactive and makes
its preload delivery, which with caching on and the cache closed takes the
replay branch of `mp_media_next_video` (lines 458-461): cached entry 0 goes to
the preload callback and the cursor advances.  `mp_media_eof` returns with
`video.index = 1`, not 0.  The next iteration of the worker serves the reset
flag of the stop request: cached entry 1 goes to the preload callback and the
cursor stands at 2.  Without the stop request `mp_media_eof` returns with
`video.index = 0` on the same session. -/
theorem eof_preload_advances_cursor :
    (stop_raced_media.looping = true ∧ stop_raced_media.caching = true ∧
      stop_raced_media.is_local_file = true ∧ stop_raced_media.v_preload_cb = true ∧
      stop_raced_media.active = false ∧ stop_raced_media.video.index = 3 ∧
      stop_raced_media.audio.index = 1 ∧
      stop_raced_media.video.data.map (fun f => f.timestamp) = [4000, 4010, 4020] ∧
      no_ready_frame stop_raced_media) ∧
    (mp_media_eof_flags stop_raced_media).video.index = 0 ∧
    (∃ m', mp_media_eof stop_raced_media restart_env = some (m', true) ∧
      m'.video.index_eof = 3 ∧ m'.audio.index_eof = 1 ∧ m'.audio.index = 0 ∧
      m'.next_wait = 0 ∧ m'.video.index = 1 ∧
      preload_stamps m'.log = [4000] ∧ video_stamps m'.log = [] ∧
      ∃ m'', mp_media_thread_iter 0 m' ending_iter = thread_step.next m'' ∧
        m''.video.index = 2 ∧ preload_stamps m''.log = [4000, 4010] ∧
        video_stamps m''.log = []) ∧
    (∃ m0, mp_media_eof pass_end_media restart_env = some (m0, true) ∧
      m0.video.index_eof = 3 ∧ m0.video.index = 0 ∧ preload_stamps m0.log = []) := by
  exact ⟨by decide, by decide,
    ⟨_, rfl, by decide, by decide, by decide, by decide, by decide, by decide, by decide,
      _, rfl, by decide, by decide, by decide⟩,
    ⟨_, rfl, by decide, by decide, by decide⟩⟩

end MediaPlayback
